import Mathlib

/-!
# Resolution of glTF documents (`bbredesen/gltf`)

A shallow embedding of the raw document of `model.go`, the resolved graph of
`resolved_model.go` and the resolver of `resolution.go`, followed by theorems
about `GlTF.Resolve`.  Of `loader.go` the embedding keeps what the resolver
reads: the directory `FromFilename` stores in `meta.defaultSearchPath`.

Conventions of the embedding.

* Go's `uint` and `int` are 64 bits wide.  A `uint` field is a `Nat`, an `int`
  field is an `Int`; where the source does arithmetic or a conversion that can
  overflow, the reduction modulo `2 ^ 64` is written out (`uintAdd`,
  `intOfUint`).
* A Go function returns its `(value, error)` pair or panics: `Outcome`.
* A pointer `&xs[i]` into one of the resolved arrays is the index `i`
  (`Ref = Option Nat`, `none` being `nil`).  Every such pointer is taken by the
  resolver once the array it points into is complete, so the index identifies
  the element.
* A pointer back to a raw entity is kept as the raw value it designates (the
  raw document is never written to).
* A `[]byte` is a `ByteSlice`: the bytes below its length and the bytes of its
  backing array between length and capacity, since a Go slice expression is
  checked against the capacity.
* Passive fields that resolution never reads (floating-point transforms,
  `Extensions`, `Extras`, the `Asset` block and the untyped `TODO` arrays) are
  left out of the raw model.
-/

namespace gltf

/-! ## Machine integers -/

/-- The number of values of a machine word: `2 ^ 64`. -/
def wordSize : Nat := 2 ^ 64

/-- Addition of two `uint` values, as Go computes it. -/
def uintAdd (a b : Nat) : Nat := (a + b) % wordSize

/-- The conversion `int(u)` of a `uint` value: the same 64 bits read as a
two's-complement number. -/
def intOfUint (u : Nat) : Int :=
  if u % wordSize < 2 ^ 63 then ((u % wordSize : Nat) : Int)
  else ((u % wordSize : Nat) : Int) - (wordSize : Int)

/-! ## Values shared by the whole embedding -/

/-- The two error values `Buffer.resolve` can build: the error of
`os.ReadFile`, and the `errors.New` of the short-data message with the URI, the
declared length and the number of bytes read. -/
inductive Error where
  | readFile (path : String)
  | shortBuffer (uri : String) (expected : Nat) (got : Nat)
  deriving DecidableEq, Repr

/-- What a call of a Go function of result type `(α, error)` does: it returns
a value together with an error that may be `nil`, or it panics. -/
inductive Outcome (α : Type) where
  | ret (val : α) (err : Option Error)
  | panic
  deriving DecidableEq, Repr

/-- A pointer to an element of a resolved array: its index, or `nil`. -/
abbrev Ref := Option Nat

/-- The address `&xs[i]` for a `uint` index `i` into an array of length `len`:
`none` stands for the index-out-of-range panic. -/
def addrOf (len : Nat) (i : Nat) : Option Nat :=
  if i < len then some i else none

/-- The address `&xs[i]` for an `int` index `i`, which may be negative. -/
def addrOfInt (len : Nat) (i : Int) : Option Nat :=
  if 0 ≤ i ∧ i < (len : Int) then some i.toNat else none

/-- The assignment `xs[i] = v`: `none` stands for the index-out-of-range
panic. -/
def store {α : Type} (xs : List α) (i : Nat) (v : α) : Option (List α) :=
  if i < xs.length then some (xs.set i v) else none

/-- A `[]byte` value: `data` are its elements (`len` of them), `spare` the
bytes of the backing array between its length and its capacity. -/
structure ByteSlice where
  data : List Nat
  spare : List Nat
  deriving DecidableEq, Repr

/-- The `nil` slice. -/
def ByteSlice.nil : ByteSlice := { data := [], spare := [] }

/-- Go's `len(s)`. -/
def ByteSlice.len (s : ByteSlice) : Nat := s.data.length

/-- Go's `cap(s)`. -/
def ByteSlice.cap (s : ByteSlice) : Nat := s.data.length + s.spare.length

/-- The slice expression `s[lo:hi]`: it needs `lo ≤ hi ≤ cap(s)` and panics
(`none`) otherwise. -/
def ByteSlice.slice (s : ByteSlice) (lo hi : Nat) : Option ByteSlice :=
  if lo ≤ hi ∧ hi ≤ s.cap then
    some { data := ((s.data ++ s.spare).drop lo).take (hi - lo),
           spare := (s.data ++ s.spare).drop hi }
  else none

/-- The part of the operating system the resolver calls: `filepath.Separator`
and `os.ReadFile` (`none` when it returns an error). -/
structure OS where
  Separator : Char
  ReadFile : String → Option ByteSlice

/-- The write `m[k] = v` on a Go map kept as an association list. -/
def mapStore {β : Type} (m : List (String × β)) (k : String) (v : β) : List (String × β) :=
  if m.any (fun e => e.1 == k) then m.map (fun e => if e.1 == k then (k, v) else e)
  else m ++ [(k, v)]

/-- A Go `for i := range xs` loop whose body either goes on with a new state,
returns from the enclosing function, or panics.  `body i x s` is the body at
index `i`, element `x` and state `s`; its outcome `ret s' none` means that the
loop goes on with `s'`, `ret v (some e)` that the function returns `(v, e)`. -/
def forRange {α σ : Type} (body : Nat → α → σ → Outcome σ) : Nat → List α → σ → Outcome σ
  | _, [], s => Outcome.ret s none
  | i, x :: xs, s =>
    match body i x s with
    | Outcome.panic => Outcome.panic
    | Outcome.ret v (some e) => Outcome.ret v (some e)
    | Outcome.ret s' none => forRange body (i + 1) xs s'

/-- Sequencing of two parts of one function body: the second part runs when
the first neither returned an error nor panicked. -/
def Outcome.andThen {σ : Type} (o : Outcome σ) (k : σ → Outcome σ) : Outcome σ :=
  match o with
  | Outcome.panic => Outcome.panic
  | Outcome.ret v (some e) => Outcome.ret v (some e)
  | Outcome.ret s none => k s

/-! ## The raw document (`model.go`) -/

structure Scene where
  Nodes : List Nat
  Name : String
  deriving DecidableEq, Repr

structure Node where
  Camera : Option Int
  Children : List Nat
  Skin : Option Int
  Mesh : Option Nat
  Name : String
  deriving DecidableEq, Repr

structure Material where
  Name : String
  deriving DecidableEq, Repr

structure Primitive where
  Attributes : List (String × Int)
  Indices : Option Nat
  Material : Option Int
  Mode : Option Int
  deriving DecidableEq, Repr

structure Mesh where
  Primitives : List Primitive
  Name : String
  deriving DecidableEq, Repr

structure Accessor where
  BufferView : Nat
  ByteOffset : Nat
  ComponentType : Int
  Normalized : Bool
  Count : Int
  Type_ : String
  Name : String
  deriving DecidableEq, Repr

structure Buffer where
  Uri : String
  ByteLength : Nat
  Name : String
  deriving DecidableEq, Repr

structure BufferView where
  Buffer : Nat
  ByteOffset : Nat
  ByteLength : Nat
  ByteStride : Nat
  Target : Int
  Name : String
  deriving DecidableEq, Repr

structure AnimationChannelTarget where
  Node : Option Nat
  Path : String
  deriving DecidableEq, Repr

structure AnimationChannel where
  Sampler : Nat
  Target : AnimationChannelTarget
  deriving DecidableEq, Repr

structure AnimationSampler where
  Input : Int
  Interpolation : String
  Output : Int
  deriving DecidableEq, Repr

structure Animation where
  Channels : List AnimationChannel
  Samplers : List AnimationSampler
  Name : String
  deriving DecidableEq, Repr

/-- The unexported `meta` struct of `GlTF`. -/
structure Meta where
  defaultSearchPath : String
  deriving DecidableEq, Repr

structure GlTF where
  Accessors : List Accessor
  Animations : List Animation
  Buffers : List Buffer
  BufferViews : List BufferView
  Materials : List Material
  Meshes : List Mesh
  Nodes : List Node
  Scene : Option Nat
  Scenes : List gltf.Scene
  meta : Meta
  deriving DecidableEq, Repr

/-! ## Element sizes of accessors (`model.go`) -/

/-- Go's `int` product: the mathematical product reduced to 64 bits in two's
complement. -/
def intMul (a b : Int) : Int :=
  (a * b + 2 ^ 63) % 2 ^ 64 - 2 ^ 63

/-- Go's `ComponentTypeEnum`, an `int`. -/
abbrev ComponentTypeEnum := Int

def BYTE : ComponentTypeEnum := 5120

def UNSIGNED_BYTE : ComponentTypeEnum := 5121

def SHORT : ComponentTypeEnum := 5122

def UNSIGNED_SHORT : ComponentTypeEnum := 5123

def UNSIGNED_INT : ComponentTypeEnum := 5125

def FLOAT : ComponentTypeEnum := 5126

/-- Go's `ComponentTypeEnum.Size`: the cases of the `switch` in their order, a
`fallthrough` case giving the value of the next one; `none` stands for the
`panic` after the `switch`. -/
def ComponentTypeEnum.Size (c : ComponentTypeEnum) : Option Int :=
  if c = BYTE then some 1
  else if c = UNSIGNED_BYTE then some 1
  else if c = SHORT then some 2
  else if c = UNSIGNED_SHORT then some 2
  else if c = UNSIGNED_INT then some 4
  else if c = FLOAT then some 4
  else none

/-- Go's `AccessorTypeEnum`, a `string`. -/
abbrev AccessorTypeEnum := String

def SCALAR : AccessorTypeEnum := "SCALAR"

def VEC2 : AccessorTypeEnum := "VEC2"

def VEC3 : AccessorTypeEnum := "VEC3"

def VEC4 : AccessorTypeEnum := "VEC4"

def MAT2 : AccessorTypeEnum := "MAT2"

def MAT3 : AccessorTypeEnum := "MAT3"

def MAT4 : AccessorTypeEnum := "MAT4"

/-- Go's `AccessorTypeEnum.Count`; `none` stands for the `panic` after the
`switch`. -/
def AccessorTypeEnum.Count (ate : AccessorTypeEnum) : Option Int :=
  if ate = SCALAR then some 1
  else if ate = VEC2 then some 2
  else if ate = VEC3 then some 3
  else if ate = VEC4 then some 4
  else if ate = MAT2 then some 4
  else if ate = MAT3 then some 9
  else if ate = MAT4 then some 16
  else none

/-- Go's `Accessor.Stride`: `Size` is called first, then `Count`, and the two
results are multiplied; `none` stands for the `panic` of either call. -/
def Accessor.Stride (a : Accessor) : Option Int :=
  match ComponentTypeEnum.Size a.ComponentType with
  | none => none
  | some size =>
    match AccessorTypeEnum.Count a.Type_ with
    | none => none
    | some count => some (intMul size count)

/-! ## The resolved graph (`resolved_model.go`) -/

structure ResolvedNode where
  Node : Node
  Children : List Ref
  Mesh : Ref
  deriving DecidableEq, Repr

structure ResolvedScene where
  Scene : Scene
  Nodes : List Ref
  deriving DecidableEq, Repr

structure ResolvedBuffer where
  Buffer : Buffer
  Data : ByteSlice
  deriving DecidableEq, Repr

structure ResolvedBufferView where
  BufferView : BufferView
  Buffer : Ref
  Data : ByteSlice
  deriving DecidableEq, Repr

structure ResolvedAccessor where
  Accessor : Accessor
  BufferView : Ref
  deriving DecidableEq, Repr

structure ResolvedMaterial where
  Material : Material
  deriving DecidableEq, Repr

structure ResolvedPrimitive where
  Primitive : Primitive
  Attributes : List (String × Ref)
  Indices : Ref
  Material : Ref
  deriving DecidableEq, Repr

structure ResolvedMesh where
  Mesh : Mesh
  Primitives : List ResolvedPrimitive
  deriving DecidableEq, Repr

/-- The back pointer of a resolved sampler, channel or channel target is an
`Option`: the elements `make` creates in `Animation.resolve` have a `nil` one
until the loop assigns them. -/
structure ResolvedAnimationSampler where
  AnimationSampler : Option AnimationSampler
  Input : Ref
  Output : Ref
  deriving DecidableEq, Repr

structure ResolvedAnimationChannelTarget where
  AnimationChannelTarget : Option AnimationChannelTarget
  Node : Ref
  deriving DecidableEq, Repr

structure ResolvedAnimationChannel where
  AnimationChannel : Option AnimationChannel
  Sampler : Ref
  Target : ResolvedAnimationChannelTarget
  deriving DecidableEq, Repr

structure ResolvedAnimation where
  Animation : Animation
  Channels : List ResolvedAnimationChannel
  Samplers : List ResolvedAnimationSampler
  deriving DecidableEq, Repr

structure ResolvedGlTF where
  GlTF : GlTF
  Animations : List ResolvedAnimation
  Buffers : List ResolvedBuffer
  BufferViews : List ResolvedBufferView
  Accessors : List ResolvedAccessor
  Materials : List ResolvedMaterial
  Meshes : List ResolvedMesh
  Nodes : List ResolvedNode
  Scene : Ref
  Scenes : List ResolvedScene
  deriving DecidableEq, Repr

/-! ## Resolution (`resolution.go`) -/

/-- Go's `Node.resolve`: the children slots are made (all `nil`), the mesh
pointer is taken when the node names a mesh. -/
def Node.resolve (node : Node) (root : ResolvedGlTF) : Outcome ResolvedNode :=
  let rval : ResolvedNode :=
    { Node := node, Children := List.replicate node.Children.length none, Mesh := none }
  match node.Mesh with
  | none => Outcome.ret rval none
  | some m =>
    match addrOf root.Meshes.length m with
    | none => Outcome.panic
    | some p => Outcome.ret { rval with Mesh := some p } none

/-- Go's `ResolvedNode.populate`: slot `i` of the children receives the address
of the node the raw child index names. -/
def ResolvedNode.populate (node : ResolvedNode) (root : ResolvedGlTF) : Outcome ResolvedNode :=
  forRange (fun i childIdx (n : ResolvedNode) =>
      match addrOf root.Nodes.length childIdx with
      | none => Outcome.panic
      | some p =>
        match store n.Children i (some p) with
        | none => Outcome.panic
        | some cs => Outcome.ret { n with Children := cs } none)
    0 node.Node.Children node

/-- The path `Buffer.resolve` hands to `os.ReadFile`. -/
def Buffer.path (buf : Buffer) (root : ResolvedGlTF) (os : OS) : String :=
  root.GlTF.meta.defaultSearchPath ++ String.singleton os.Separator ++ buf.Uri

/-- Go's `Buffer.resolve`. -/
def Buffer.resolve (buf : Buffer) (root : ResolvedGlTF) (os : OS) : Outcome ResolvedBuffer :=
  let rval : ResolvedBuffer := { Buffer := buf, Data := ByteSlice.nil }
  match os.ReadFile (buf.path root os) with
  | none => Outcome.ret rval (some (Error.readFile (buf.path root os)))
  | some data =>
    if (data.len : Int) < intOfUint buf.ByteLength then
      Outcome.ret rval (some (Error.shortBuffer buf.Uri buf.ByteLength data.len))
    else
      Outcome.ret { rval with Data := data } none

/-- Go's `BufferView.resolve`. -/
def BufferView.resolve (bv : BufferView) (root : ResolvedGlTF) : Outcome ResolvedBufferView :=
  match root.Buffers[bv.Buffer]? with
  | none => Outcome.panic
  | some rb =>
    match rb.Data.slice bv.ByteOffset (uintAdd bv.ByteOffset bv.ByteLength) with
    | none => Outcome.panic
    | some d => Outcome.ret { BufferView := bv, Buffer := some bv.Buffer, Data := d } none

/-- Go's `Accessor.resolve`. -/
def Accessor.resolve (a : Accessor) (root : ResolvedGlTF) : Outcome ResolvedAccessor :=
  match addrOf root.BufferViews.length a.BufferView with
  | none => Outcome.panic
  | some p => Outcome.ret { Accessor := a, BufferView := some p } none

/-- Go's `Scene.resolve`: slot `i` receives `&root.Nodes[i]`. -/
def Scene.resolve (s : Scene) (root : ResolvedGlTF) : Outcome ResolvedScene :=
  forRange (fun i (_ : Nat) (rval : ResolvedScene) =>
      match addrOf root.Nodes.length i with
      | none => Outcome.panic
      | some p =>
        match store rval.Nodes i (some p) with
        | none => Outcome.panic
        | some ns => Outcome.ret { rval with Nodes := ns } none)
    0 s.Nodes { Scene := s, Nodes := List.replicate s.Nodes.length none }

/-- Go's `Material.resolve`. -/
def Material.resolve (m : Material) (_root : ResolvedGlTF) : Outcome ResolvedMaterial :=
  Outcome.ret { Material := m } none

/-- Go's `Primitive.resolve`.  The back pointer is the receiver, kept as the
value it designates during the call; what it designates after the loop of
`Mesh.resolve`, whose loop variable it is the address of, is followed in
`Mesh.resolveCells`.  Go visits the entries of the attribute
map in an order of its choice; the embedding visits them in the order of the
association list, and no result of a lookup depends on that order. -/
def Primitive.resolve (p : Primitive) (root : ResolvedGlTF) : Outcome ResolvedPrimitive :=
  let rval : ResolvedPrimitive :=
    { Primitive := p, Attributes := [], Indices := none, Material := none }
  (match p.Material with
    | none => Outcome.ret rval none
    | some m =>
      match addrOfInt root.Materials.length m with
      | none => Outcome.panic
      | some q => Outcome.ret { rval with Material := some q } none).andThen fun rval =>
  (forRange (fun _ (kv : String × Int) (rval : ResolvedPrimitive) =>
      match addrOfInt root.Accessors.length kv.2 with
      | none => Outcome.panic
      | some q =>
        Outcome.ret { rval with Attributes := mapStore rval.Attributes kv.1 (some q) } none)
    0 p.Attributes rval).andThen fun rval =>
  match p.Indices with
  | none => Outcome.ret rval none
  | some ix =>
    match addrOf root.Accessors.length ix with
    | none => Outcome.panic
    | some q => Outcome.ret { rval with Indices := some q } none

/-- Go's `Mesh.resolve`. -/
def Mesh.resolve (m : Mesh) (root : ResolvedGlTF) : Outcome ResolvedMesh :=
  forRange (fun _ (primitive : Primitive) (rval : ResolvedMesh) =>
      match primitive.resolve root with
      | Outcome.panic => Outcome.panic
      | Outcome.ret _ (some err) => Outcome.ret rval (some err)
      | Outcome.ret rp none =>
        Outcome.ret { rval with Primitives := rval.Primitives ++ [rp] } none)
    0 m.Primitives { Mesh := m, Primitives := [] }

/-- Go's `AnimationSampler.resolve`. -/
def AnimationSampler.resolve (as : AnimationSampler) (root : ResolvedGlTF) :
    Outcome ResolvedAnimationSampler :=
  match addrOfInt root.Accessors.length as.Input with
  | none => Outcome.panic
  | some i =>
    match addrOfInt root.Accessors.length as.Output with
    | none => Outcome.panic
    | some o => Outcome.ret { AnimationSampler := some as, Input := some i, Output := some o } none

/-- Go's `AnimationChannelTarget.resolve`. -/
def AnimationChannelTarget.resolve (act : AnimationChannelTarget) (root : ResolvedGlTF) :
    Outcome ResolvedAnimationChannelTarget :=
  match act.Node with
  | none => Outcome.ret { AnimationChannelTarget := some act, Node := none } none
  | some n =>
    match addrOf root.Nodes.length n with
    | none => Outcome.panic
    | some p => Outcome.ret { AnimationChannelTarget := some act, Node := some p } none

/-- Go's `AnimationChannel.resolve`. -/
def AnimationChannel.resolve (ac : AnimationChannel) (root : ResolvedGlTF)
    (samplers : List ResolvedAnimationSampler) : Outcome ResolvedAnimationChannel :=
  match addrOf samplers.length ac.Sampler with
  | none => Outcome.panic
  | some s =>
    match ac.Target.resolve root with
    | Outcome.panic => Outcome.panic
    | Outcome.ret t err =>
      Outcome.ret { AnimationChannel := some ac, Sampler := some s, Target := t } err

/-- The zero value of `ResolvedAnimationSampler`. -/
def ResolvedAnimationSampler.zero : ResolvedAnimationSampler :=
  { AnimationSampler := none, Input := none, Output := none }

/-- The zero value of `ResolvedAnimationChannel`. -/
def ResolvedAnimationChannel.zero : ResolvedAnimationChannel :=
  { AnimationChannel := none, Sampler := none,
    Target := { AnimationChannelTarget := none, Node := none } }

/-- Go's `Animation.resolve`. -/
def Animation.resolve (a : Animation) (root : ResolvedGlTF) : Outcome ResolvedAnimation :=
  let rval : ResolvedAnimation :=
    { Animation := a, Channels := [],
      Samplers := List.replicate a.Samplers.length ResolvedAnimationSampler.zero }
  (forRange (fun i (smp : AnimationSampler) (rval : ResolvedAnimation) =>
      match smp.resolve root with
      | Outcome.panic => Outcome.panic
      | Outcome.ret _ (some err) => Outcome.ret rval (some err)
      | Outcome.ret s none =>
        match store rval.Samplers i s with
        | none => Outcome.panic
        | some ss => Outcome.ret { rval with Samplers := ss } none)
    0 a.Samplers rval).andThen fun rval =>
  forRange (fun i (chn : AnimationChannel) (rval : ResolvedAnimation) =>
      match chn.resolve root rval.Samplers with
      | Outcome.panic => Outcome.panic
      | Outcome.ret _ (some err) => Outcome.ret rval (some err)
      | Outcome.ret ch none =>
        match store rval.Channels i ch with
        | none => Outcome.panic
        | some cs => Outcome.ret { rval with Channels := cs } none)
    0 a.Channels
    { rval with Channels := List.replicate a.Channels.length ResolvedAnimationChannel.zero }

/-- The body shared by the loops of `Resolve` that append: element `x` is
resolved against the graph built so far; an error returns that graph with the
error, a result is appended with `push`. -/
def appendStep {α β : Type} (resolve : α → ResolvedGlTF → Outcome β)
    (push : ResolvedGlTF → β → ResolvedGlTF) (x : α) (rval : ResolvedGlTF) :
    Outcome ResolvedGlTF :=
  match resolve x rval with
  | Outcome.panic => Outcome.panic
  | Outcome.ret _ (some err) => Outcome.ret rval (some err)
  | Outcome.ret r none => Outcome.ret (push rval r) none

/-- Go's `GlTF.Resolve`.  The argument `uriSearchPath` is part of the
signature; the body never reads it. -/
def GlTF.Resolve (gltf : GlTF) (_uriSearchPath : List String) (os : OS) :
    Outcome ResolvedGlTF :=
  let rval : ResolvedGlTF :=
    { GlTF := gltf, Animations := [], Buffers := [], BufferViews := [], Accessors := [],
      Materials := [], Meshes := [], Nodes := [], Scene := none, Scenes := [] }
  (forRange (fun _ => appendStep (fun b root => Buffer.resolve b root os)
      (fun rv rb => { rv with Buffers := rv.Buffers ++ [rb] })) 0 gltf.Buffers rval).andThen
  fun rval =>
  (forRange (fun _ => appendStep BufferView.resolve
      (fun rv rbv => { rv with BufferViews := rv.BufferViews ++ [rbv] }))
    0 gltf.BufferViews rval).andThen fun rval =>
  (forRange (fun _ => appendStep Accessor.resolve
      (fun rv rac => { rv with Accessors := rv.Accessors ++ [rac] }))
    0 gltf.Accessors rval).andThen fun rval =>
  (forRange (fun _ => appendStep Material.resolve
      (fun rv rm => { rv with Materials := rv.Materials ++ [rm] }))
    0 gltf.Materials rval).andThen fun rval =>
  (forRange (fun _ => appendStep Mesh.resolve
      (fun rv rm => { rv with Meshes := rv.Meshes ++ [rm] }))
    0 gltf.Meshes rval).andThen fun rval =>
  (forRange (fun _ => appendStep Node.resolve
      (fun rv rn => { rv with Nodes := rv.Nodes ++ [rn] }))
    0 gltf.Nodes rval).andThen fun rval =>
  (forRange (fun i (_ : ResolvedNode) (rv : ResolvedGlTF) =>
      match rv.Nodes[i]? with
      | none => Outcome.panic
      | some n =>
        match n.populate rv with
        | Outcome.panic => Outcome.panic
        | Outcome.ret n' _ => Outcome.ret { rv with Nodes := rv.Nodes.set i n' } none)
    0 rval.Nodes rval).andThen fun rval =>
  (forRange (fun _ => appendStep Animation.resolve
      (fun rv ra => { rv with Animations := rv.Animations ++ [ra] }))
    0 gltf.Animations rval).andThen fun rval =>
  (forRange (fun _ => appendStep Scene.resolve
      (fun rv rs => { rv with Scenes := rv.Scenes ++ [rs] }))
    0 gltf.Scenes rval).andThen fun rval =>
  match gltf.Scene with
  | none => Outcome.ret rval none
  | some i =>
    match addrOf rval.Scenes.length i with
    | none => Outcome.panic
    | some p => Outcome.ret { rval with Scene := some p } none

/-! ## The references the resolver takes, in the order of the run -/

/-- The arrays the resolver builds and takes references into: those of the
graph, and the `Samplers` of the resolved animation at a given index. -/
inductive ArrayId where
  | Buffers
  | BufferViews
  | Accessors
  | Materials
  | Meshes
  | Nodes
  | Animations
  | Scenes
  | Samplers (animation : Nat)
  deriving DecidableEq, Repr

/-- What the resolver does to these arrays: `ref a len` is the evaluation of an
address `&a[i]` at a moment when `a` has `len` elements; `grow a` is an
`append` to `a`, or the `make` that creates it. -/
inductive Event where
  | ref (array : ArrayId) (len : Nat)
  | grow (array : ArrayId)
  deriving DecidableEq, Repr

/-- The events of a `forRange` loop: those of the body at each element the loop
reaches, in order; `ev i x s` are the events of the body at index `i`, element
`x` and state `s`. -/
def forRangeEvents {α σ : Type} (body : Nat → α → σ → Outcome σ)
    (ev : Nat → α → σ → List Event) : Nat → List α → σ → List Event
  | _, [], _ => []
  | i, x :: xs, s =>
    ev i x s ++
      (match body i x s with
        | Outcome.ret s' none => forRangeEvents body ev (i + 1) xs s'
        | _ => [])

/-- The events of the part of a function body that runs after `o`, when `o`
neither returned an error nor panicked. -/
def Outcome.thenEvents {σ : Type} (o : Outcome σ) (k : σ → List Event) : List Event :=
  match o with
  | Outcome.ret s none => k s
  | _ => []

/-- The events of `Node.resolve`: `&root.Meshes[*node.Mesh]`. -/
def Node.resolveEvents (node : Node) (root : ResolvedGlTF) : List Event :=
  match node.Mesh with
  | none => []
  | some _ => [Event.ref ArrayId.Meshes root.Meshes.length]

/-- The events of `ResolvedNode.populate`: `&root.Nodes[childIdx]` for each
child the loop reaches. -/
def ResolvedNode.populateEvents (node : ResolvedNode) (root : ResolvedGlTF) : List Event :=
  forRangeEvents (fun i childIdx (n : ResolvedNode) =>
      match addrOf root.Nodes.length childIdx with
      | none => Outcome.panic
      | some p =>
        match store n.Children i (some p) with
        | none => Outcome.panic
        | some cs => Outcome.ret { n with Children := cs } none)
    (fun _ _ _ => [Event.ref ArrayId.Nodes root.Nodes.length])
    0 node.Node.Children node

/-- The events of `BufferView.resolve`: `&root.Buffers[bv.Buffer]`. -/
def BufferView.resolveEvents (_bv : BufferView) (root : ResolvedGlTF) : List Event :=
  [Event.ref ArrayId.Buffers root.Buffers.length]

/-- The events of `Accessor.resolve`: `&root.BufferViews[a.BufferView]`. -/
def Accessor.resolveEvents (_a : Accessor) (root : ResolvedGlTF) : List Event :=
  [Event.ref ArrayId.BufferViews root.BufferViews.length]

/-- The events of `Scene.resolve`: `&root.Nodes[i]` for each position the loop
reaches. -/
def Scene.resolveEvents (s : Scene) (root : ResolvedGlTF) : List Event :=
  forRangeEvents (fun i (_ : Nat) (rval : ResolvedScene) =>
      match addrOf root.Nodes.length i with
      | none => Outcome.panic
      | some p =>
        match store rval.Nodes i (some p) with
        | none => Outcome.panic
        | some ns => Outcome.ret { rval with Nodes := ns } none)
    (fun _ _ _ => [Event.ref ArrayId.Nodes root.Nodes.length])
    0 s.Nodes { Scene := s, Nodes := List.replicate s.Nodes.length none }

/-- The events of `Primitive.resolve`: `&root.Materials[*p.Material]`, then
`&root.Accessors[attrIdx]` for each attribute the loop reaches, then
`&root.Accessors[*p.Indices]`. -/
def Primitive.resolveEvents (p : Primitive) (root : ResolvedGlTF) : List Event :=
  let rval : ResolvedPrimitive :=
    { Primitive := p, Attributes := [], Indices := none, Material := none }
  (match p.Material with
    | none => []
    | some _ => [Event.ref ArrayId.Materials root.Materials.length]) ++
  (match p.Material with
    | none => Outcome.ret rval none
    | some m =>
      match addrOfInt root.Materials.length m with
      | none => Outcome.panic
      | some q => Outcome.ret { rval with Material := some q } none).thenEvents fun rval =>
  forRangeEvents (fun _ (kv : String × Int) (rval : ResolvedPrimitive) =>
      match addrOfInt root.Accessors.length kv.2 with
      | none => Outcome.panic
      | some q =>
        Outcome.ret { rval with Attributes := mapStore rval.Attributes kv.1 (some q) } none)
    (fun _ _ _ => [Event.ref ArrayId.Accessors root.Accessors.length])
    0 p.Attributes rval ++
  (forRange (fun _ (kv : String × Int) (rval : ResolvedPrimitive) =>
      match addrOfInt root.Accessors.length kv.2 with
      | none => Outcome.panic
      | some q =>
        Outcome.ret { rval with Attributes := mapStore rval.Attributes kv.1 (some q) } none)
    0 p.Attributes rval).thenEvents fun _ =>
  match p.Indices with
  | none => []
  | some _ => [Event.ref ArrayId.Accessors root.Accessors.length]

/-- The events of `Mesh.resolve`: those of `Primitive.resolve` for each
primitive the loop reaches. -/
def Mesh.resolveEvents (m : Mesh) (root : ResolvedGlTF) : List Event :=
  forRangeEvents (fun _ (primitive : Primitive) (rval : ResolvedMesh) =>
      match primitive.resolve root with
      | Outcome.panic => Outcome.panic
      | Outcome.ret _ (some err) => Outcome.ret rval (some err)
      | Outcome.ret rp none =>
        Outcome.ret { rval with Primitives := rval.Primitives ++ [rp] } none)
    (fun _ primitive _ => primitive.resolveEvents root)
    0 m.Primitives { Mesh := m, Primitives := [] }

/-- The events of `AnimationSampler.resolve`: `&root.Accessors[as.Input]`, then
`&root.Accessors[as.Output]`. -/
def AnimationSampler.resolveEvents (as : AnimationSampler) (root : ResolvedGlTF) :
    List Event :=
  Event.ref ArrayId.Accessors root.Accessors.length ::
    (match addrOfInt root.Accessors.length as.Input with
      | none => []
      | some _ => [Event.ref ArrayId.Accessors root.Accessors.length])

/-- The events of `AnimationChannelTarget.resolve`: `&root.Nodes[*act.Node]`. -/
def AnimationChannelTarget.resolveEvents (act : AnimationChannelTarget)
    (root : ResolvedGlTF) : List Event :=
  match act.Node with
  | none => []
  | some _ => [Event.ref ArrayId.Nodes root.Nodes.length]

/-- The events of `AnimationChannel.resolve` in the animation at index `k`:
`&samplers[ac.Sampler]`, then those of the target. -/
def AnimationChannel.resolveEvents (k : Nat) (ac : AnimationChannel) (root : ResolvedGlTF)
    (samplers : List ResolvedAnimationSampler) : List Event :=
  Event.ref (ArrayId.Samplers k) samplers.length ::
    (match addrOf samplers.length ac.Sampler with
      | none => []
      | some _ => ac.Target.resolveEvents root)

/-- The events of `Animation.resolve` for the animation at index `k`: the `make`
of its `Samplers`, the events of the samplers the first loop reaches, then those
of the channels the second loop reaches. -/
def Animation.resolveEvents (k : Nat) (a : Animation) (root : ResolvedGlTF) : List Event :=
  let rval : ResolvedAnimation :=
    { Animation := a, Channels := [],
      Samplers := List.replicate a.Samplers.length ResolvedAnimationSampler.zero }
  Event.grow (ArrayId.Samplers k) ::
  (forRangeEvents (fun i (smp : AnimationSampler) (rval : ResolvedAnimation) =>
      match smp.resolve root with
      | Outcome.panic => Outcome.panic
      | Outcome.ret _ (some err) => Outcome.ret rval (some err)
      | Outcome.ret s none =>
        match store rval.Samplers i s with
        | none => Outcome.panic
        | some ss => Outcome.ret { rval with Samplers := ss } none)
    (fun _ smp _ => smp.resolveEvents root)
    0 a.Samplers rval ++
  (forRange (fun i (smp : AnimationSampler) (rval : ResolvedAnimation) =>
      match smp.resolve root with
      | Outcome.panic => Outcome.panic
      | Outcome.ret _ (some err) => Outcome.ret rval (some err)
      | Outcome.ret s none =>
        match store rval.Samplers i s with
        | none => Outcome.panic
        | some ss => Outcome.ret { rval with Samplers := ss } none)
    0 a.Samplers rval).thenEvents fun rval =>
  forRangeEvents (fun i (chn : AnimationChannel) (rval : ResolvedAnimation) =>
      match chn.resolve root rval.Samplers with
      | Outcome.panic => Outcome.panic
      | Outcome.ret _ (some err) => Outcome.ret rval (some err)
      | Outcome.ret ch none =>
        match store rval.Channels i ch with
        | none => Outcome.panic
        | some cs => Outcome.ret { rval with Channels := cs } none)
    (fun _ chn rval => chn.resolveEvents k root rval.Samplers)
    0 a.Channels
    { rval with Channels := List.replicate a.Channels.length ResolvedAnimationChannel.zero })

/-- The events of the body of an appending loop of `Resolve`: those of the
`resolve` of the element, then the `append` when it returned no error. -/
def appendStepEvents {α β : Type} (resolve : α → ResolvedGlTF → Outcome β)
    (events : α → ResolvedGlTF → List Event) (array : ArrayId) (x : α)
    (rval : ResolvedGlTF) : List Event :=
  events x rval ++
    (match resolve x rval with
      | Outcome.ret _ none => [Event.grow array]
      | _ => [])

/-- The events of one loop of `Resolve` followed by those of the rest of the
function, which runs when the loop ran to its end. -/
def phaseEvents {α : Type} (body : Nat → α → ResolvedGlTF → Outcome ResolvedGlTF)
    (ev : Nat → α → ResolvedGlTF → List Event) (xs : List α) (rval : ResolvedGlTF)
    (rest : ResolvedGlTF → List Event) : List Event :=
  forRangeEvents body ev 0 xs rval ++ (forRange body 0 xs rval).thenEvents rest

/-- The events of `GlTF.Resolve`, loop after loop as in `Resolve`. -/
def GlTF.ResolveEvents (gltf : GlTF) (_uriSearchPath : List String) (os : OS) : List Event :=
  let rval : ResolvedGlTF :=
    { GlTF := gltf, Animations := [], Buffers := [], BufferViews := [], Accessors := [],
      Materials := [], Meshes := [], Nodes := [], Scene := none, Scenes := [] }
  phaseEvents (fun _ => appendStep (fun b root => Buffer.resolve b root os)
      (fun rv rb => { rv with Buffers := rv.Buffers ++ [rb] }))
    (fun _ => appendStepEvents (fun b root => Buffer.resolve b root os) (fun _ _ => [])
      ArrayId.Buffers) gltf.Buffers rval fun rval =>
  phaseEvents (fun _ => appendStep BufferView.resolve
      (fun rv rbv => { rv with BufferViews := rv.BufferViews ++ [rbv] }))
    (fun _ => appendStepEvents BufferView.resolve BufferView.resolveEvents
      ArrayId.BufferViews) gltf.BufferViews rval fun rval =>
  phaseEvents (fun _ => appendStep Accessor.resolve
      (fun rv rac => { rv with Accessors := rv.Accessors ++ [rac] }))
    (fun _ => appendStepEvents Accessor.resolve Accessor.resolveEvents ArrayId.Accessors)
    gltf.Accessors rval fun rval =>
  phaseEvents (fun _ => appendStep Material.resolve
      (fun rv rm => { rv with Materials := rv.Materials ++ [rm] }))
    (fun _ => appendStepEvents Material.resolve (fun _ _ => []) ArrayId.Materials)
    gltf.Materials rval fun rval =>
  phaseEvents (fun _ => appendStep Mesh.resolve
      (fun rv rm => { rv with Meshes := rv.Meshes ++ [rm] }))
    (fun _ => appendStepEvents Mesh.resolve Mesh.resolveEvents ArrayId.Meshes)
    gltf.Meshes rval fun rval =>
  phaseEvents (fun _ => appendStep Node.resolve
      (fun rv rn => { rv with Nodes := rv.Nodes ++ [rn] }))
    (fun _ => appendStepEvents Node.resolve Node.resolveEvents ArrayId.Nodes)
    gltf.Nodes rval fun rval =>
  phaseEvents (fun i (_ : ResolvedNode) (rv : ResolvedGlTF) =>
      match rv.Nodes[i]? with
      | none => Outcome.panic
      | some n =>
        match n.populate rv with
        | Outcome.panic => Outcome.panic
        | Outcome.ret n' _ => Outcome.ret { rv with Nodes := rv.Nodes.set i n' } none)
    (fun i (_ : ResolvedNode) (rv : ResolvedGlTF) =>
      Event.ref ArrayId.Nodes rv.Nodes.length ::
        (match rv.Nodes[i]? with
          | none => []
          | some n => n.populateEvents rv))
    rval.Nodes rval fun rval =>
  phaseEvents (fun _ => appendStep Animation.resolve
      (fun rv ra => { rv with Animations := rv.Animations ++ [ra] }))
    (fun i => appendStepEvents Animation.resolve (Animation.resolveEvents i)
      ArrayId.Animations) gltf.Animations rval fun rval =>
  phaseEvents (fun _ => appendStep Scene.resolve
      (fun rv rs => { rv with Scenes := rv.Scenes ++ [rs] }))
    (fun _ => appendStepEvents Scene.resolve Scene.resolveEvents ArrayId.Scenes)
    gltf.Scenes rval fun rval =>
  match gltf.Scene with
  | none => []
  | some _ => [Event.ref ArrayId.Scenes rval.Scenes.length]

/-- The final length of an array: the length of the raw array it is built
from; for the `Samplers` of the animation at index `k`, the number of samplers
of raw animation `k`. -/
def GlTF.rawLength (doc : GlTF) : ArrayId → Nat
  | ArrayId.Buffers => doc.Buffers.length
  | ArrayId.BufferViews => doc.BufferViews.length
  | ArrayId.Accessors => doc.Accessors.length
  | ArrayId.Materials => doc.Materials.length
  | ArrayId.Meshes => doc.Meshes.length
  | ArrayId.Nodes => doc.Nodes.length
  | ArrayId.Animations => doc.Animations.length
  | ArrayId.Scenes => doc.Scenes.length
  | ArrayId.Samplers k =>
    match doc.Animations[k]? with
    | none => 0
    | some a => a.Samplers.length

/-! ## The loop variable of `Mesh.resolve` -/

/-- The two meanings Go has given to the variable of a `for ... range` loop.
The `go` line of the module file selects one; the Go files embedded here do
not fix it, so the meaning is a parameter.  `errors.Join` in `loader.go` needs
Go 1.20 at least; the remnant `// tmp := bv` in `Resolve` is the idiom that
copies a loop variable shared by all iterations. -/
inductive LoopVar where
  /-- Before Go 1.22: one variable for the loop, assigned in each iteration. -/
  | perLoop
  /-- From Go 1.22 on: a new variable in each iteration. -/
  | perIteration
  deriving DecidableEq, Repr

/-- The state of `Mesh.resolve` together with the memory of its loop variable
`primitive`.  `cells` are the instances of the variable allocated so far, each
with the value it holds now.  `backRefs[j]` is the instance whose address the
resolved primitive `j` holds in its embedded `*Primitive`: the receiver
`&primitive` of the call `primitive.resolve(root)`.  `rval` is the mesh under
construction, as in `Mesh.resolve`. -/
structure MeshCells where
  cells : List Primitive
  backRefs : List Nat
  rval : ResolvedMesh
  deriving DecidableEq, Repr

/-- The start of an iteration: the element is stored in the loop variable.
The result is the memory after the assignment and the instance assigned. -/
def LoopVar.assign (sem : LoopVar) (cells : List Primitive) (primitive : Primitive) :
    List Primitive × Nat :=
  match sem with
  | LoopVar.perLoop => ([primitive], 0)
  | LoopVar.perIteration => (cells ++ [primitive], cells.length)

/-- Go's `Mesh.resolve`, with the memory of the loop variable.  `Primitive.resolve`
runs on the value the variable holds, and the resolved primitive keeps the
address of the variable. -/
def Mesh.resolveCells (sem : LoopVar) (m : Mesh) (root : ResolvedGlTF) : Outcome MeshCells :=
  forRange (fun _ (primitive : Primitive) (st : MeshCells) =>
      match primitive.resolve root with
      | Outcome.panic => Outcome.panic
      | Outcome.ret _ (some err) =>
        Outcome.ret { st with cells := (sem.assign st.cells primitive).1 } (some err)
      | Outcome.ret rp none =>
        Outcome.ret
          { cells := (sem.assign st.cells primitive).1,
            backRefs := st.backRefs ++ [(sem.assign st.cells primitive).2],
            rval := { st.rval with Primitives := st.rval.Primitives ++ [rp] } } none)
    0 m.Primitives { cells := [], backRefs := [], rval := { Mesh := m, Primitives := [] } }

/-- What the embedded `*Primitive` of resolved primitive `j` denotes once
`Mesh.resolve` has returned: the value held by the instance of the loop
variable it is the address of.  Nothing writes to these instances after the
loop. -/
def MeshCells.backRef (st : MeshCells) (j : Nat) : Option Primitive :=
  match st.backRefs[j]? with
  | none => none
  | some a => st.cells[a]?

/-! ## The slice of children: `nil` or made -/

/-- `ResolvedNode` with its `Children` as a Go slice value: `none` is the `nil`
slice, `some xs` a slice that has a backing array, with the elements `xs`,
which may be no element at all. -/
structure SlicedNode where
  Node : Node
  Children : Option (List Ref)
  Mesh : Ref
  deriving DecidableEq, Repr

/-- The `ResolvedNode` of a `SlicedNode`: the slice is taken for its elements,
those of a `nil` slice being none. -/
def SlicedNode.erase (n : SlicedNode) : ResolvedNode :=
  { Node := n.Node, Children := n.Children.getD [], Mesh := n.Mesh }

/-- Go's `Node.resolve` with the slice value of `Children`: the composite
literal `ResolvedNode{Node: node}` leaves it `nil`, then `make` assigns a slice
of `len(node.Children)` `nil` pointers, which is not the `nil` slice whatever
the length. -/
def Node.resolveSliced (node : Node) (root : ResolvedGlTF) : Outcome SlicedNode :=
  let rval : SlicedNode := { Node := node, Children := none, Mesh := none }
  let rval : SlicedNode :=
    { rval with Children := some (List.replicate node.Children.length none) }
  match node.Mesh with
  | none => Outcome.ret rval none
  | some m =>
    match addrOf root.Meshes.length m with
    | none => Outcome.panic
    | some p => Outcome.ret { rval with Mesh := some p } none

/-- Go's `ResolvedNode.populate` with the slice value of `Children`: the
assignment `node.Children[i] = ...` panics on a `nil` slice, and leaves a made
slice made. -/
def SlicedNode.populate (node : SlicedNode) (root : ResolvedGlTF) : Outcome SlicedNode :=
  forRange (fun i childIdx (n : SlicedNode) =>
      match addrOf root.Nodes.length childIdx with
      | none => Outcome.panic
      | some p =>
        match n.Children with
        | none => Outcome.panic
        | some cs =>
          match store cs i (some p) with
          | none => Outcome.panic
          | some cs' => Outcome.ret { n with Children := some cs' } none)
    0 node.Node.Children node

/-! ## Loading a document (`loader.go`) -/

/-- The errors the loader builds. -/
inductive LoadError where
  | openFailed (name : String)
  | statFailed
  | tooLarge
  | readFailed
  | parseFailed
  deriving DecidableEq, Repr

/-- An open `*os.File`: `Stat` gives the size of the file (`none` when it
returns an error), `Read n` the content of a buffer of `n` bytes after
`f.Read` has filled it (`none` when it returns an error). -/
structure File where
  Stat : Option Nat
  Read : Nat → Option (List Nat)

/-- The part of the environment the loader calls: `os.Open`, `filepath.Dir`,
and `json.Unmarshal` into a zero `GlTF`, which gives the document it has
filled and whether its error is `nil`. -/
structure LoaderEnv where
  Open : String → Option File
  Dir : String → String
  Unmarshal : List Nat → GlTF × Bool

/-- Go's `FromBytes`: the document and the error of `json.Unmarshal`.  The
field `meta` is unexported, so `json.Unmarshal` leaves it at its zero value. -/
def FromBytes (env : LoaderEnv) (data : List Nat) : GlTF × Option LoadError :=
  let root : GlTF := { (env.Unmarshal data).1 with meta := { defaultSearchPath := "" } }
  (root, if (env.Unmarshal data).2 then none else some LoadError.parseFailed)

/-- Go's `FromFile`. -/
def FromFile (env : LoaderEnv) (f : File) : Except LoadError GlTF :=
  match f.Stat with
  | none => Except.error LoadError.statFailed
  | some size =>
    if size > 2 ^ 30 then Except.error LoadError.tooLarge
    else
      match f.Read size with
      | none => Except.error LoadError.readFailed
      | some b =>
        match FromBytes env b with
        | (_, some _) => Except.error LoadError.parseFailed
        | (gltf, none) => Except.ok gltf

/-- Go's `FromFilename`. -/
def FromFilename (env : LoaderEnv) (name : String) : Except LoadError GlTF :=
  match env.Open name with
  | none => Except.error (LoadError.openFailed name)
  | some f =>
    match FromFile env f with
    | Except.error err => Except.error err
    | Except.ok root => Except.ok { root with meta := { defaultSearchPath := env.Dir name } }

/-! ## Predicates used in the statements -/

/-- An outcome that is not a return with a non-`nil` error. -/
def Outcome.NoErr {α : Type} (o : Outcome α) : Prop :=
  ∀ v e, o ≠ Outcome.ret v (some e)

/-- The facts a graph returned by `Resolve` with a `nil` error satisfies: each
resolved array lists, in order, the results of the `resolve` function of its
phase on the raw entities, against a graph whose earlier arrays are the final
ones. -/
structure ResolvedOk (doc : GlTF) (os : OS) (rv : ResolvedGlTF) : Prop where
  gltf : rv.GlTF = doc
  buffers : List.Forall₂ (fun b rb => ∃ root : ResolvedGlTF, root.GlTF = doc ∧
    Buffer.resolve b root os = Outcome.ret rb none) doc.Buffers rv.Buffers
  bufferViews : List.Forall₂ (fun bv rbv => ∃ root : ResolvedGlTF,
    root.Buffers = rv.Buffers ∧ BufferView.resolve bv root = Outcome.ret rbv none)
    doc.BufferViews rv.BufferViews
  accessors : List.Forall₂ (fun a ra => ∃ root : ResolvedGlTF,
    root.BufferViews = rv.BufferViews ∧ Accessor.resolve a root = Outcome.ret ra none)
    doc.Accessors rv.Accessors
  materials : List.Forall₂ (fun m rm => ∃ root : ResolvedGlTF,
    Material.resolve m root = Outcome.ret rm none) doc.Materials rv.Materials
  meshes : List.Forall₂ (fun m rm => ∃ root : ResolvedGlTF,
    root.Materials = rv.Materials ∧ root.Accessors = rv.Accessors ∧
    Mesh.resolve m root = Outcome.ret rm none) doc.Meshes rv.Meshes
  nodes : List.Forall₂ (fun n rn => ∃ (root root' : ResolvedGlTF) (rn0 : ResolvedNode),
    root.Meshes = rv.Meshes ∧ Node.resolve n root = Outcome.ret rn0 none ∧
    root'.Nodes.length = doc.Nodes.length ∧ rn0.populate root' = Outcome.ret rn none)
    doc.Nodes rv.Nodes
  animations : List.Forall₂ (fun a ra => ∃ root : ResolvedGlTF,
    root.Accessors = rv.Accessors ∧ root.Nodes = rv.Nodes ∧
    Animation.resolve a root = Outcome.ret ra none) doc.Animations rv.Animations
  scenes : List.Forall₂ (fun s rs => ∃ root : ResolvedGlTF,
    root.Nodes = rv.Nodes ∧ Scene.resolve s root = Outcome.ret rs none)
    doc.Scenes rv.Scenes
  scene : rv.Scene = doc.Scene
  sceneInRange : ∀ i, doc.Scene = some i → i < doc.Scenes.length

/-- Every buffer of the document loads: `os.ReadFile` succeeds on the path
`Buffer.resolve` builds and the length test of `Buffer.resolve` passes. -/
def GlTF.buffersLoad (doc : GlTF) (os : OS) : Prop :=
  ∀ b ∈ doc.Buffers, ∃ data,
    os.ReadFile (doc.meta.defaultSearchPath ++ String.singleton os.Separator ++ b.Uri)
      = some data ∧ intOfUint b.ByteLength ≤ (data.len : Int)

/-- An `int` index that names no element of an array of length `len`. -/
def intOutOfRange (len : Nat) (i : Int) : Prop := i < 0 ∨ (len : Int) ≤ i

/-- Some cross-reference field of the document, other than the node list of a
scene, holds an index out of the range of the raw array it points into:
`bufferView.buffer`, `accessor.bufferView`, a primitive's attribute, `indices`
or `material`, `node.mesh`, a child of a node, a sampler's `input` or `output`,
`channel.sampler`, `channel.target.node`, or the default scene. -/
def GlTF.indexOutOfRange (doc : GlTF) : Prop :=
  (∃ bv ∈ doc.BufferViews, doc.Buffers.length ≤ bv.Buffer) ∨
  (∃ a ∈ doc.Accessors, doc.BufferViews.length ≤ a.BufferView) ∨
  (∃ m ∈ doc.Meshes, ∃ p ∈ m.Primitives,
    (∃ kv ∈ p.Attributes, intOutOfRange doc.Accessors.length kv.2) ∨
    (∃ ix, p.Indices = some ix ∧ doc.Accessors.length ≤ ix) ∨
    (∃ mt, p.Material = some mt ∧ intOutOfRange doc.Materials.length mt)) ∨
  (∃ n ∈ doc.Nodes,
    (∃ m, n.Mesh = some m ∧ doc.Meshes.length ≤ m) ∨
    (∃ c ∈ n.Children, doc.Nodes.length ≤ c)) ∨
  (∃ a ∈ doc.Animations,
    (∃ smp ∈ a.Samplers, intOutOfRange doc.Accessors.length smp.Input ∨
      intOutOfRange doc.Accessors.length smp.Output) ∨
    (∃ c ∈ a.Channels, a.Samplers.length ≤ c.Sampler ∨
      ∃ t, c.Target.Node = some t ∧ doc.Nodes.length ≤ t)) ∨
  (∃ i, doc.Scene = some i ∧ doc.Scenes.length ≤ i)

/-! ## Predicates on the events of a run -/

/-- The length of an array of the graph; the `Samplers` of an animation belong
to the animation, not to the graph, and count as `0` here. -/
def ResolvedGlTF.lengthOf (rv : ResolvedGlTF) : ArrayId → Nat
  | ArrayId.Buffers => rv.Buffers.length
  | ArrayId.BufferViews => rv.BufferViews.length
  | ArrayId.Accessors => rv.Accessors.length
  | ArrayId.Materials => rv.Materials.length
  | ArrayId.Meshes => rv.Meshes.length
  | ArrayId.Nodes => rv.Nodes.length
  | ArrayId.Animations => rv.Animations.length
  | ArrayId.Scenes => rv.Scenes.length
  | ArrayId.Samplers _ => 0

/-- The event refers to one of the arrays `refs`, at the length `L` gives for
it, or grows one of the arrays `grows`. -/
def Event.Within (refs grows : List ArrayId) (L : ArrayId → Nat) : Event → Prop
  | Event.ref a len => a ∈ refs ∧ len = L a
  | Event.grow a => a ∈ grows

/-- The relation between an earlier and a later event of a run that the
specification asks for: an array a reference was taken into is not grown
later. -/
def Event.NotGrownLater (e₁ e₂ : Event) : Prop :=
  ∀ (a : ArrayId) (len : Nat), e₁ = Event.ref a len → e₂ ≠ Event.grow a

/-- The place of an array in the order in which `Resolve` completes them, for a
document of `n` animations. -/
def ArrayId.rank (n : Nat) : ArrayId → Nat
  | ArrayId.Buffers => 0
  | ArrayId.BufferViews => 1
  | ArrayId.Accessors => 2
  | ArrayId.Materials => 3
  | ArrayId.Meshes => 4
  | ArrayId.Nodes => 5
  | ArrayId.Samplers k => 6 + k
  | ArrayId.Animations => 6 + n
  | ArrayId.Scenes => 7 + n

/-- A stretch of a run of `Resolve` on `doc`: no array is grown after a
reference into it, arrays grown have rank at least `lo`, arrays referred to
have rank below `hi`, and every reference is taken at the final length. -/
def Block (doc : GlTF) (lo hi : Nat) (T : List Event) : Prop :=
  T.Pairwise Event.NotGrownLater ∧
  (∀ a : ArrayId, Event.grow a ∈ T → lo ≤ a.rank doc.Animations.length) ∧
  (∀ (a : ArrayId) (len : Nat), Event.ref a len ∈ T → a.rank doc.Animations.length < hi) ∧
  (∀ (a : ArrayId) (len : Nat), Event.ref a len ∈ T → len = doc.rawLength a)

/-- The loop of `Resolve` that builds an array, counted from `1`. -/
def ArrayId.stage : ArrayId → Nat
  | ArrayId.Buffers => 1
  | ArrayId.BufferViews => 2
  | ArrayId.Accessors => 3
  | ArrayId.Materials => 4
  | ArrayId.Meshes => 5
  | ArrayId.Nodes => 6
  | ArrayId.Animations => 8
  | ArrayId.Scenes => 9
  | ArrayId.Samplers _ => 0

/-- The lengths of the arrays of the graph after loop `n` of `Resolve`. -/
def GlTF.builtLength (doc : GlTF) (n : Nat) (a : ArrayId) : Nat :=
  match a with
  | ArrayId.Samplers _ => 0
  | a => if a.stage ≤ n then doc.rawLength a else 0

/-! ## Documents and file systems used as concrete inputs -/

/-- The document with no entity at all, loaded from the directory `dir`. -/
def emptyDocument (dir : String) : GlTF :=
  { Accessors := [], Animations := [], Buffers := [], BufferViews := [], Materials := [],
    Meshes := [], Nodes := [], Scene := none, Scenes := [], meta := { defaultSearchPath := dir } }

/-- A node that has the given children and nothing else. -/
def plainNode (children : List Nat) : Node :=
  { Camera := none, Children := children, Skin := none, Mesh := none, Name := "" }

/-- A buffer view without stride or target. -/
def plainView (buffer offset length : Nat) : BufferView :=
  { Buffer := buffer, ByteOffset := offset, ByteLength := length, ByteStride := 0, Target := 0,
    Name := "" }

/-- A file system without any file. -/
def noFiles : OS := { Separator := '/', ReadFile := fun _ => none }

/-- A file system whose only file is `path`, read into a slice of the given
bytes and spare capacity. -/
def oneFile (path : String) (data spare : List Nat) : OS :=
  { Separator := '/',
    ReadFile := fun p => if p = path then some { data := data, spare := spare } else none }

/-- A file system with the two files `m/a.bin`, of content `inM`, and `d/a.bin`,
of content `inD`. -/
def twoDirs (inM inD : List Nat) : OS :=
  { Separator := '/',
    ReadFile := fun p =>
      if p = "m/a.bin" then some { data := inM, spare := [] }
      else if p = "d/a.bin" then some { data := inD, spare := [] }
      else none }

/-- Two nodes, and one scene that lists node `1` only. -/
def sceneOfSecondNode : GlTF :=
  { emptyDocument "m" with
    Nodes := [plainNode [], plainNode []],
    Scenes := [{ Nodes := [1], Name := "" }],
    Scene := some 0 }

/-- One buffer `a.bin` of declared length `len`, loaded from the directory `m`. -/
def oneBuffer (len : Nat) : GlTF :=
  { emptyDocument "m" with Buffers := [{ Uri := "a.bin", ByteLength := len, Name := "" }] }

/-- One buffer `a.bin` of declared length `len` and one view on it. -/
def oneView (len offset length : Nat) : GlTF :=
  { oneBuffer len with BufferViews := [plainView 0 offset length] }

/-- The graph `Resolve` returns for `oneView 3 1 2` when `m/a.bin` holds the
bytes `1, 2, 3`. -/
def oneViewResolved : ResolvedGlTF :=
  { GlTF := oneView 3 1 2, Animations := [],
    Buffers := [{ Buffer := { Uri := "a.bin", ByteLength := 3, Name := "" },
                  Data := { data := [1, 2, 3], spare := [] } }],
    BufferViews := [{ BufferView := plainView 0 1 2, Buffer := some 0,
                      Data := { data := [2, 3], spare := [] } }],
    Accessors := [], Materials := [], Meshes := [], Nodes := [], Scene := none, Scenes := [] }

/-- The graph `Resolve` returns for `oneBuffer 2` when `m/a.bin` holds the bytes
`1, 2`. -/
def oneBufferResolved : ResolvedGlTF :=
  { GlTF := oneBuffer 2, Animations := [],
    Buffers := [{ Buffer := { Uri := "a.bin", ByteLength := 2, Name := "" },
                  Data := { data := [1, 2], spare := [] } }],
    BufferViews := [], Accessors := [], Materials := [], Meshes := [], Nodes := [],
    Scene := none, Scenes := [] }

/-- The graph `Resolve` returns for `sceneOfSecondNode`. -/
def sceneOfSecondNodeResolved : ResolvedGlTF :=
  { GlTF := sceneOfSecondNode, Animations := [], Buffers := [], BufferViews := [],
    Accessors := [], Materials := [], Meshes := [],
    Nodes := [{ Node := plainNode [], Children := [], Mesh := none },
              { Node := plainNode [], Children := [], Mesh := none }],
    Scene := some 0,
    Scenes := [{ Scene := { Nodes := [1], Name := "" }, Nodes := [some 0] }] }

/-- A buffer of one byte and a view that names buffer 5. -/
def viewOnMissingBuffer : GlTF :=
  { oneBuffer 1 with BufferViews := [plainView 5 0 0] }

/-- A single node that names mesh 3, in a document without meshes. -/
def nodeOnMissingMesh : GlTF :=
  { emptyDocument "m" with
    Nodes := [{ Camera := none, Children := [], Skin := none, Mesh := some 3, Name := "" }] }

/-- Node 0 has the child 1, node 1 has no child. -/
def twoNodeChain : GlTF :=
  { emptyDocument "m" with Nodes := [plainNode [1], plainNode []] }

/-- The graph `Resolve` returns for `twoNodeChain`. -/
def twoNodeChainResolved : ResolvedGlTF :=
  { GlTF := twoNodeChain, Animations := [], Buffers := [], BufferViews := [],
    Accessors := [], Materials := [], Meshes := [],
    Nodes := [{ Node := plainNode [1], Children := [some 1], Mesh := none },
              { Node := plainNode [], Children := [], Mesh := none }],
    Scene := none, Scenes := [] }

/-- The document of the test `Test_TriangleWithoutIndices`: one buffer of 36
bytes, one view on all of it, one accessor of three `VEC3` of floats, one mesh
with one primitive whose `POSITION` is that accessor, one node with that mesh,
one scene with that node, which is the default scene; loaded from `dir`. -/
def triangleWithoutIndices (dir : String) : GlTF :=
  { Accessors := [{ BufferView := 0, ByteOffset := 0, ComponentType := 5126,
                    Normalized := false, Count := 3, Type_ := "VEC3", Name := "" }],
    Animations := [],
    Buffers := [{ Uri := "triangleWithoutIndices.bin", ByteLength := 36, Name := "" }],
    BufferViews := [{ Buffer := 0, ByteOffset := 0, ByteLength := 36, ByteStride := 0,
                      Target := 34962, Name := "" }],
    Materials := [],
    Meshes := [{ Primitives := [{ Attributes := [("POSITION", 0)], Indices := none,
                                  Material := none, Mode := none }],
                 Name := "" }],
    Nodes := [{ Camera := none, Children := [], Skin := none, Mesh := some 0, Name := "" }],
    Scene := some 0,
    Scenes := [{ Nodes := [0], Name := "" }],
    meta := { defaultSearchPath := dir } }

/-- The graph `Resolve` returns for `triangleWithoutIndices "m"` when the file
of the buffer is read into the slice `data`. -/
def triangleResolved (data : ByteSlice) : ResolvedGlTF :=
  { GlTF := triangleWithoutIndices "m", Animations := [],
    Buffers := [{ Buffer := { Uri := "triangleWithoutIndices.bin", ByteLength := 36,
                              Name := "" },
                  Data := data }],
    BufferViews := [{ BufferView := { Buffer := 0, ByteOffset := 0, ByteLength := 36,
                                      ByteStride := 0, Target := 34962, Name := "" },
                      Buffer := some 0,
                      Data := { data := ((data.data ++ data.spare).drop 0).take (36 - 0),
                                spare := (data.data ++ data.spare).drop 36 } }],
    Accessors := [{ Accessor := { BufferView := 0, ByteOffset := 0, ComponentType := 5126,
                                  Normalized := false, Count := 3, Type_ := "VEC3",
                                  Name := "" },
                    BufferView := some 0 }],
    Materials := [],
    Meshes := [{ Mesh := { Primitives := [{ Attributes := [("POSITION", 0)],
                                            Indices := none, Material := none,
                                            Mode := none }],
                           Name := "" },
                 Primitives := [{ Primitive := { Attributes := [("POSITION", 0)],
                                                 Indices := none, Material := none,
                                                 Mode := none },
                                  Attributes := [("POSITION", some 0)], Indices := none,
                                  Material := none }] }],
    Nodes := [{ Node := { Camera := none, Children := [], Skin := none, Mesh := some 0,
                          Name := "" },
                Children := [], Mesh := some 0 }],
    Scene := some 0,
    Scenes := [{ Scene := { Nodes := [0], Name := "" }, Nodes := [some 0] }] }

/-- The path `Scenes[0].Nodes[0].Mesh.Primitives[0].Attributes["POSITION"]
.BufferView.Data` through a resolved graph, each pointer being followed into
the array it points into; `none` when an index or key is missing or a pointer
is `nil`. -/
def ResolvedGlTF.positionData (rv : ResolvedGlTF) : Option ByteSlice :=
  match rv.Scenes[0]? with
  | none => none
  | some scene =>
    match scene.Nodes[0]? with
    | none => none
    | some none => none
    | some (some n) =>
      match rv.Nodes[n]? with
      | none => none
      | some node =>
        match node.Mesh with
        | none => none
        | some m =>
          match rv.Meshes[m]? with
          | none => none
          | some mesh =>
            match mesh.Primitives[0]? with
            | none => none
            | some primitive =>
              match primitive.Attributes.lookup "POSITION" with
              | none => none
              | some none => none
              | some (some a) =>
                match rv.Accessors[a]? with
                | none => none
                | some accessor =>
                  match accessor.BufferView with
                  | none => none
                  | some v =>
                    match rv.BufferViews[v]? with
                    | none => none
                    | some view => some view.Data

/-- The bytes of the buffer of the test document: the three positions
`(0, 0, 0)`, `(1, 0, 0)`, `(0, 1, 0)` as little-endian floats. -/
def triangleBytes : List Nat :=
  [0, 0, 0, 0, 0, 0, 0, 0, 0, 0, 0, 0,
   0, 0, 128, 63, 0, 0, 0, 0, 0, 0, 0, 0,
   0, 0, 0, 0, 0, 0, 128, 63, 0, 0, 0, 0]

/-- The test document with one animation added: one sampler from accessor 0 to
accessor 0 and one channel of that sampler on node 0. -/
def animatedTriangle : GlTF :=
  { triangleWithoutIndices "m" with
    Animations := [{ Channels := [{ Sampler := 0,
                                    Target := { Node := some 0, Path := "translation" } }],
                     Samplers := [{ Input := 0, Interpolation := "linear", Output := 0 }],
                     Name := "" }] }

/-- The graph `Resolve` returns for `animatedTriangle` when the file of the
buffer holds `triangleBytes`. -/
def animatedTriangleResolved : ResolvedGlTF :=
  { triangleResolved { data := triangleBytes, spare := [] } with
    GlTF := animatedTriangle,
    Animations :=
      [{ Animation := { Channels := [{ Sampler := 0,
                                       Target := { Node := some 0, Path := "translation" } }],
                        Samplers := [{ Input := 0, Interpolation := "linear", Output := 0 }],
                        Name := "" },
         Channels := [{ AnimationChannel :=
                          some { Sampler := 0,
                                 Target := { Node := some 0, Path := "translation" } },
                        Sampler := some 0,
                        Target := { AnimationChannelTarget :=
                                      some { Node := some 0, Path := "translation" },
                                    Node := some 0 } }],
         Samplers := [{ AnimationSampler :=
                          some { Input := 0, Interpolation := "linear", Output := 0 },
                        Input := some 0, Output := some 0 }] }] }

/-- A loader environment whose only file is `dir/scene.gltf`, of two bytes,
which parse to the document `doc`; `filepath.Dir` of that name is `dir`. -/
def oneDocument (doc : GlTF) : LoaderEnv :=
  { Open := fun name =>
      if name = "dir/scene.gltf" then some { Stat := some 2, Read := fun _ => some [123, 125] }
      else none,
    Dir := fun name => if name = "dir/scene.gltf" then "dir" else ".",
    Unmarshal := fun _ => (doc, true) }

/-- The buffer `b` of the document fails to load: `os.ReadFile` returns an
error on its path, or fewer bytes than the length test of `Buffer.resolve`
asks for; `e` is the error `Buffer.resolve` builds then. -/
def GlTF.bufferFails (doc : GlTF) (os : OS) (b : Buffer) (e : Error) : Prop :=
  (os.ReadFile (doc.meta.defaultSearchPath ++ String.singleton os.Separator ++ b.Uri) = none ∧
    e = Error.readFile
      (doc.meta.defaultSearchPath ++ String.singleton os.Separator ++ b.Uri)) ∨
  (∃ data,
    os.ReadFile (doc.meta.defaultSearchPath ++ String.singleton os.Separator ++ b.Uri)
      = some data ∧
    (data.len : Int) < intOfUint b.ByteLength ∧
    e = Error.shortBuffer b.Uri b.ByteLength data.len)

/-- Two buffers, `a.bin` and `b.bin`, of declared length 1 each. -/
def twoBuffers : GlTF :=
  { emptyDocument "m" with
    Buffers := [{ Uri := "a.bin", ByteLength := 1, Name := "" },
                { Uri := "b.bin", ByteLength := 1, Name := "" }],
    BufferViews := [plainView 0 0 1],
    Scene := some 0 }

/-- The graph `Resolve` returns, with an error, for `twoBuffers` when `m/a.bin`
holds one byte and `m/b.bin` does not exist. -/
def twoBuffersPartial : ResolvedGlTF :=
  { GlTF := twoBuffers, Animations := [],
    Buffers := [{ Buffer := { Uri := "a.bin", ByteLength := 1, Name := "" },
                  Data := { data := [1], spare := [] } }],
    BufferViews := [], Accessors := [], Materials := [], Meshes := [], Nodes := [],
    Scene := none, Scenes := [] }

/-- Node 0 has the child 1 and node 1 has the child 0. -/
def twoNodeCycle : GlTF :=
  { emptyDocument "m" with Nodes := [plainNode [1], plainNode [0]] }

/-- The graph `Resolve` returns for `twoNodeCycle`. -/
def twoNodeCycleResolved : ResolvedGlTF :=
  { GlTF := twoNodeCycle, Animations := [], Buffers := [], BufferViews := [],
    Accessors := [], Materials := [], Meshes := [],
    Nodes := [{ Node := plainNode [1], Children := [some 1], Mesh := none },
              { Node := plainNode [0], Children := [some 0], Mesh := none }],
    Scene := none, Scenes := [] }

/-- The outcome of a call with the returned value replaced by its image. -/
def Outcome.map {α β : Type} (f : α → β) : Outcome α → Outcome β
  | Outcome.ret v e => Outcome.ret (f v) e
  | Outcome.panic => Outcome.panic

/-- The accessor with its component type and element type replaced. -/
def Accessor.withCodes (a : Accessor) (componentType : Int) (type : String) : Accessor :=
  { a with ComponentType := componentType, Type_ := type }

/-- The document with every accessor `a` replaced by `g a`. -/
def GlTF.mapAccessors (doc : GlTF) (g : Accessor → Accessor) : GlTF :=
  { doc with Accessors := doc.Accessors.map g }

/-- The graph with every raw accessor `a` replaced by `g a`, in the raw
document it points back to and in the back pointers of the resolved
accessors. -/
def ResolvedGlTF.mapAccessors (rv : ResolvedGlTF) (g : Accessor → Accessor) : ResolvedGlTF :=
  { rv with
    GlTF := rv.GlTF.mapAccessors g,
    Accessors := rv.Accessors.map (fun ra => { ra with Accessor := g ra.Accessor }) }

/-- The test document with the component type 0 and the element type `"?"`,
neither of which is a known code. -/
def triangleOfUnknownCodes : GlTF :=
  (triangleWithoutIndices "m").mapAccessors (fun a => a.withCodes 0 "?")

/-- The document whose only entities are the given nodes. -/
def nodesOnly (dir : String) (nodes : List Node) : GlTF :=
  { emptyDocument dir with Nodes := nodes }

/-- The mesh of the test document with its primitive listed a second time, to
be drawn as points (`mode` 0). -/
def meshOfTwoPrimitives : Mesh :=
  { Primitives := [{ Attributes := [("POSITION", 0)], Indices := none, Material := none,
                     Mode := none },
                   { Attributes := [("POSITION", 0)], Indices := none, Material := none,
                     Mode := some 0 }],
    Name := "" }

/-- The test document with `meshOfTwoPrimitives` as its mesh. -/
def triangleTwice : GlTF :=
  { triangleWithoutIndices "m" with Meshes := [meshOfTwoPrimitives] }

/-- The graph `Resolve` has built when it calls `resolve` on the mesh of
`triangleTwice`: the buffer, the view and the accessor of the test document,
the bytes of the file being `triangleBytes`. -/
def triangleTwiceAtMeshes : ResolvedGlTF :=
  { triangleResolved { data := triangleBytes, spare := [] } with
    GlTF := triangleTwice, Meshes := [], Nodes := [], Scene := none, Scenes := [] }

/-! ## Control flow: general facts about `forRange` and `andThen` -/

theorem andThen_ret_none {σ : Type} {o : Outcome σ} {k : σ → Outcome σ} {s' : σ}
    (h : o.andThen k = Outcome.ret s' none) :
    ∃ s, o = Outcome.ret s none ∧ k s = Outcome.ret s' none := by
  cases o with
  | panic => simp [Outcome.andThen] at h
  | ret v e =>
    cases e with
    | none => exact ⟨v, rfl, by simpa [Outcome.andThen] using h⟩
    | some e => simp [Outcome.andThen] at h

theorem andThen_noErr {σ : Type} {o : Outcome σ} {k : σ → Outcome σ}
    (ho : o.NoErr) (hk : ∀ s, o = Outcome.ret s none → (k s).NoErr) : (o.andThen k).NoErr := by
  cases o with
  | panic => intro v e; simp [Outcome.andThen]
  | ret v e =>
    cases e with
    | none => simpa [Outcome.andThen] using hk v rfl
    | some e => exact absurd rfl (ho v e)

theorem forRange_noErr {α σ : Type} (body : Nat → α → σ → Outcome σ) (P : σ → Prop) :
    ∀ (xs : List α) (i : Nat) (s : σ), P s →
      (∀ j x t, x ∈ xs → P t →
        (body j x t).NoErr ∧ ∀ t', body j x t = Outcome.ret t' none → P t') →
      (forRange body i xs s).NoErr := by
  intro xs
  induction xs with
  | nil => intro i s _ _ v e; simp [forRange]
  | cons x xs ih =>
    intro i s hs hstep
    have hx := hstep i x s (List.mem_cons_self x xs) hs
    unfold forRange
    cases hb : body i x s with
    | panic => intro v e; simp
    | ret v e =>
      cases e with
      | some e => exact absurd hb (hx.1 v e)
      | none =>
        simp only
        exact ih (i + 1) v (hx.2 v hb)
          (fun j y t hy ht => hstep j y t (List.mem_cons_of_mem x hy) ht)

/-- A loop whose body leaves the invariant `Inv` in place ends, when it runs to
its end, in a state where `Inv` holds at the index after the last element. -/
theorem forRange_inv {α σ : Type} (body : Nat → α → σ → Outcome σ) (Inv : Nat → σ → Prop) :
    ∀ (xs : List α) (i : Nat) (s s' : σ), Inv i s →
      (∀ k x t t', xs[k]? = some x → Inv (i + k) t →
        body (i + k) x t = Outcome.ret t' none → Inv (i + k + 1) t') →
      forRange body i xs s = Outcome.ret s' none → Inv (i + xs.length) s' := by
  intro xs
  induction xs with
  | nil =>
    intro i s s' hs _ h
    simp [forRange] at h
    subst h
    simpa using hs
  | cons x xs ih =>
    intro i s s' hs hstep h
    unfold forRange at h
    cases hb : body i x s with
    | panic => simp [hb] at h
    | ret v e =>
      cases e with
      | some e => simp [hb] at h
      | none =>
        simp only [hb] at h
        have h1 : Inv (i + 1) v := by
          have := hstep 0 x s v (by simp) (by simpa using hs) (by simpa using hb)
          simpa using this
        have := ih (i + 1) v s' h1
          (fun k y t t' hy ht hbt => by
            have := hstep (k + 1) y t t' (by simpa using hy)
              (by simpa [Nat.add_assoc, Nat.add_comm 1 k] using ht)
              (by simpa [Nat.add_assoc, Nat.add_comm 1 k] using hbt)
            simpa [Nat.add_assoc, Nat.add_comm 1 k] using this) h
        simpa [Nat.add_assoc, Nat.add_comm 1 xs.length] using this

/-- The appending loops of `Resolve`: when such a loop runs to its end, the new
elements are the results of `resolve` on the raw elements, in order, each
against a graph that differs from the initial one in the appended array
only. -/
theorem forRange_appendStep_ret {α β : Type} (f : α → ResolvedGlTF → Outcome β)
    (push : ResolvedGlTF → β → ResolvedGlTF) (get : ResolvedGlTF → List β)
    (erase : ResolvedGlTF → ResolvedGlTF)
    (hget : ∀ rv r, get (push rv r) = get rv ++ [r])
    (herase : ∀ rv r, erase (push rv r) = erase rv) :
    ∀ (xs : List α) (i : Nat) (s s' : ResolvedGlTF),
      forRange (fun _ => appendStep f push) i xs s = Outcome.ret s' none →
      erase s' = erase s ∧ ∃ rs, get s' = get s ++ rs ∧
        List.Forall₂ (fun x r => ∃ rv, erase rv = erase s ∧ f x rv = Outcome.ret r none)
          xs rs := by
  intro xs
  induction xs with
  | nil =>
    intro i s s' h
    simp [forRange] at h
    subst h
    exact ⟨rfl, [], by simp, List.Forall₂.nil⟩
  | cons x xs ih =>
    intro i s s' h
    unfold forRange at h
    cases hb : f x s with
    | panic => simp [appendStep, hb] at h
    | ret r e =>
      cases e with
      | some e => simp [appendStep, hb] at h
      | none =>
        simp only [appendStep, hb] at h
        obtain ⟨he, rs, hrs, hall⟩ := ih (i + 1) (push s r) s' h
        refine ⟨by rw [he, herase], r :: rs, by rw [hrs, hget]; simp, ?_⟩
        refine List.Forall₂.cons ⟨s, rfl, hb⟩ (hall.imp ?_)
        rintro a b ⟨rv, hrv, hab⟩
        exact ⟨rv, by rw [hrv, herase], hab⟩

/-! ## The steps of `Resolve` never build an error, except `Buffer.resolve` -/

theorem ResolvedNode.populate_noErr (n : ResolvedNode) (root : ResolvedGlTF) :
    (n.populate root).NoErr := by
  unfold ResolvedNode.populate
  refine forRange_noErr _ (fun _ => True) _ _ _ trivial ?_
  intro j x t _ _
  refine ⟨?_, fun _ _ => trivial⟩
  intro v e
  split
  · simp
  · split <;> simp

theorem BufferView_resolve_noErr (bv : BufferView) (root : ResolvedGlTF) :
    (bv.resolve root).NoErr := by
  intro v e
  unfold BufferView.resolve
  split
  · simp
  · split <;> simp

theorem Accessor_resolve_noErr (a : Accessor) (root : ResolvedGlTF) :
    (a.resolve root).NoErr := by
  intro v e
  unfold Accessor.resolve
  split <;> simp

theorem Material_resolve_noErr (m : Material) (root : ResolvedGlTF) :
    (m.resolve root).NoErr := by
  intro v e
  simp [Material.resolve]

theorem Primitive_resolve_noErr (p : Primitive) (root : ResolvedGlTF) :
    (p.resolve root).NoErr := by
  unfold Primitive.resolve
  refine andThen_noErr ?_ (fun s1 _ => andThen_noErr ?_ (fun s2 _ => ?_))
  · intro v e
    split
    · simp
    · split <;> simp
  · refine forRange_noErr _ (fun _ => True) _ _ _ trivial ?_
    intro j x t _ _
    refine ⟨?_, fun _ _ => trivial⟩
    intro v e
    split <;> simp
  · intro v e
    split
    · simp
    · split <;> simp

theorem Mesh_resolve_noErr (m : Mesh) (root : ResolvedGlTF) : (m.resolve root).NoErr := by
  unfold Mesh.resolve
  refine forRange_noErr _ (fun _ => True) _ _ _ trivial ?_
  intro j x t _ _
  refine ⟨?_, fun _ _ => trivial⟩
  intro v e
  cases hp : x.resolve root with
  | panic => simp
  | ret r err =>
    cases err with
    | none => simp
    | some err => exact absurd hp (Primitive_resolve_noErr x root r err)

theorem Node_resolve_noErr (n : Node) (root : ResolvedGlTF) : (n.resolve root).NoErr := by
  intro v e
  unfold Node.resolve
  split
  · simp
  · split <;> simp

theorem Scene_resolve_noErr (s : Scene) (root : ResolvedGlTF) : (s.resolve root).NoErr := by
  unfold Scene.resolve
  refine forRange_noErr _ (fun _ => True) _ _ _ trivial ?_
  intro j x t _ _
  refine ⟨?_, fun _ _ => trivial⟩
  intro v e
  split
  · simp
  · split <;> simp

theorem AnimationSampler_resolve_noErr (a : AnimationSampler) (root : ResolvedGlTF) :
    (a.resolve root).NoErr := by
  intro v e
  unfold AnimationSampler.resolve
  split
  · simp
  · split <;> simp

theorem AnimationChannelTarget_resolve_noErr (a : AnimationChannelTarget)
    (root : ResolvedGlTF) : (a.resolve root).NoErr := by
  intro v e
  unfold AnimationChannelTarget.resolve
  split
  · simp
  · split <;> simp

theorem AnimationChannel_resolve_noErr (a : AnimationChannel) (root : ResolvedGlTF)
    (samplers : List ResolvedAnimationSampler) : (a.resolve root samplers).NoErr := by
  intro v e
  unfold AnimationChannel.resolve
  split
  · simp
  · cases ht : a.Target.resolve root with
    | panic => simp
    | ret t err =>
      cases err with
      | none => simp
      | some err => exact absurd ht (AnimationChannelTarget_resolve_noErr _ root t err)

theorem Animation_resolve_noErr (a : Animation) (root : ResolvedGlTF) :
    (a.resolve root).NoErr := by
  unfold Animation.resolve
  refine andThen_noErr ?_ (fun s1 _ => ?_)
  · refine forRange_noErr _ (fun _ => True) _ _ _ trivial ?_
    intro j x t _ _
    refine ⟨?_, fun _ _ => trivial⟩
    intro v e
    cases hp : x.resolve root with
    | panic => simp
    | ret r err =>
      cases err with
      | none =>
        simp only
        split <;> simp
      | some err => exact absurd hp (AnimationSampler_resolve_noErr x root r err)
  · refine forRange_noErr _ (fun _ => True) _ _ _ trivial ?_
    intro j x t _ _
    refine ⟨?_, fun _ _ => trivial⟩
    intro v e
    cases hp : x.resolve root t.Samplers with
    | panic => simp
    | ret r err =>
      cases err with
      | none =>
        simp only
        split <;> simp
      | some err => exact absurd hp (AnimationChannel_resolve_noErr x root _ r err)

theorem appendStep_noErr {α β : Type} (f : α → ResolvedGlTF → Outcome β)
    (push : ResolvedGlTF → β → ResolvedGlTF) (x : α) (rv : ResolvedGlTF)
    (h : (f x rv).NoErr) : (appendStep f push x rv).NoErr := by
  intro v e
  unfold appendStep
  cases hp : f x rv with
  | panic => simp
  | ret r err =>
    cases err with
    | none => simp
    | some err => exact absurd hp (h r err)

/-- An appending loop over elements whose `resolve` never builds an error does
not return one. -/
theorem forRange_appendStep_noErr {α β : Type} (f : α → ResolvedGlTF → Outcome β)
    (push : ResolvedGlTF → β → ResolvedGlTF) (hf : ∀ x rv, (f x rv).NoErr)
    (xs : List α) (i : Nat) (s : ResolvedGlTF) :
    (forRange (fun _ => appendStep f push) i xs s).NoErr :=
  forRange_noErr _ (fun _ => True) xs i s trivial
    (fun _ x t _ _ => ⟨appendStep_noErr f push x t (hf x t), fun _ _ => trivial⟩)

/-- The second loop over the nodes in `Resolve`: it rewrites each node with the
result of its `populate` and touches nothing else. -/
theorem populate_loop_ret (xs : List ResolvedNode) (s s' : ResolvedGlTF)
    (hlen : xs.length = s.Nodes.length)
    (h : forRange (fun i (_ : ResolvedNode) (rv : ResolvedGlTF) =>
        match rv.Nodes[i]? with
        | none => Outcome.panic
        | some n =>
          match n.populate rv with
          | Outcome.panic => Outcome.panic
          | Outcome.ret n' _ => Outcome.ret { rv with Nodes := rv.Nodes.set i n' } none)
      0 xs s = Outcome.ret s' none) :
    { s' with Nodes := [] } = { s with Nodes := [] } ∧
      List.Forall₂ (fun n n' => ∃ root : ResolvedGlTF, root.Nodes.length = s.Nodes.length ∧
        n.populate root = Outcome.ret n' none) s.Nodes s'.Nodes := by
  have key := forRange_inv _ (fun k (t : ResolvedGlTF) =>
      { t with Nodes := [] } = { s with Nodes := [] } ∧ t.Nodes.length = s.Nodes.length ∧
      (∀ j, k ≤ j → t.Nodes[j]? = s.Nodes[j]?) ∧
      (∀ j, j < k → ∃ n n', ∃ root : ResolvedGlTF, s.Nodes[j]? = some n ∧
        root.Nodes.length = s.Nodes.length ∧ n.populate root = Outcome.ret n' none ∧
        t.Nodes[j]? = some n')) xs 0 s s'
    ⟨rfl, rfl, fun _ _ => rfl, fun j hj => absurd hj (Nat.not_lt_zero j)⟩ ?_ h
  · obtain ⟨he, hl, _, hall⟩ := key
    refine ⟨he, ?_⟩
    rw [List.forall₂_iff_get]
    refine ⟨hl.symm, fun j h1 h2 => ?_⟩
    obtain ⟨n, n', root, hn, hr, hp, hn'⟩ := hall j (by simpa [hlen] using h1)
    rw [List.getElem?_eq_getElem h1] at hn
    rw [List.getElem?_eq_getElem h2] at hn'
    simp only [Option.some.injEq] at hn hn'
    simp only [List.get_eq_getElem]
    rw [hn, hn']
    exact ⟨root, hr, hp⟩
  · intro k x t t' _ hinv hb
    obtain ⟨he, hl, hge, hlt⟩ := hinv
    simp only [Nat.zero_add] at hb hge hlt ⊢
    cases hn : t.Nodes[k]? with
    | none => simp [hn] at hb
    | some n =>
      simp only [hn] at hb
      cases hp : n.populate t with
      | panic => simp [hp] at hb
      | ret n' e =>
        have he' : e = none := by
          cases e with
          | none => rfl
          | some e => exact absurd hp (ResolvedNode.populate_noErr n t n' e)
        subst he'
        simp only [hp, Outcome.ret.injEq, and_true] at hb
        subst hb
        have hk : k < t.Nodes.length := by
          rcases Nat.lt_or_ge k t.Nodes.length with h | h
          · exact h
          · rw [List.getElem?_eq_none h] at hn; cases hn
        refine ⟨by simpa using he, by simpa using hl, ?_, ?_⟩
        · intro j hj
          have hne : k ≠ j := by omega
          simp only [List.getElem?_set_ne hne]
          exact hge j (by omega)
        · intro j hj
          rcases Nat.lt_or_ge j k with hjk | hjk
          · obtain ⟨m, m', root, h1, h2, h3, h4⟩ := hlt j hjk
            have hne : k ≠ j := by omega
            exact ⟨m, m', root, h1, h2, h3, by simp only [List.getElem?_set_ne hne]; exact h4⟩
          · have hjk' : j = k := by omega
            subst hjk'
            refine ⟨n, n', t, ?_, hl, hp, ?_⟩
            · rw [← hge j (Nat.le_refl j)]; exact hn
            · simp [List.getElem?_set_self, hk]

theorem forall₂_comp_rel {α β γ : Type} {R : α → β → Prop} {S : β → γ → Prop} :
    ∀ {xs : List α} {ys : List β} {zs : List γ}, List.Forall₂ R xs ys → List.Forall₂ S ys zs →
      List.Forall₂ (fun x z => ∃ y, R x y ∧ S y z) xs zs := by
  intro xs
  induction xs with
  | nil =>
    intro ys zs h1 h2
    cases h1
    cases h2
    exact List.Forall₂.nil
  | cons x xs ih =>
    intro ys zs h1 h2
    cases h1 with
    | cons hxy h1 =>
      cases h2 with
      | cons hyz h2 => exact List.Forall₂.cons ⟨_, hxy, hyz⟩ (ih h1 h2)

/-! ## What a run of `Resolve` without error has done -/

theorem Resolve_ok (doc : GlTF) (sp : List String) (os : OS) (rv : ResolvedGlTF)
    (h : doc.Resolve sp os = Outcome.ret rv none) : ResolvedOk doc os rv := by
  unfold GlTF.Resolve at h
  obtain ⟨s1, h1, k1⟩ := andThen_ret_none h
  obtain ⟨s2, h2, k2⟩ := andThen_ret_none k1
  obtain ⟨s3, h3, k3⟩ := andThen_ret_none k2
  obtain ⟨s4, h4, k4⟩ := andThen_ret_none k3
  obtain ⟨s5, h5, k5⟩ := andThen_ret_none k4
  obtain ⟨s6, h6, k6⟩ := andThen_ret_none k5
  obtain ⟨s7, h7, k7⟩ := andThen_ret_none k6
  obtain ⟨s8, h8, k8⟩ := andThen_ret_none k7
  obtain ⟨s9, h9, k9⟩ := andThen_ret_none k8
  clear h k1 k2 k3 k4 k5 k6 k7 k8
  have p1 := forRange_appendStep_ret (fun b root => Buffer.resolve b root os)
    (fun rv rb => { rv with Buffers := rv.Buffers ++ [rb] }) (fun rv => rv.Buffers)
    (fun rv => { rv with Buffers := [] }) (fun _ _ => rfl) (fun _ _ => rfl) _ _ _ _ h1
  have p2 := forRange_appendStep_ret BufferView.resolve
    (fun rv r => { rv with BufferViews := rv.BufferViews ++ [r] }) (fun rv => rv.BufferViews)
    (fun rv => { rv with BufferViews := [] }) (fun _ _ => rfl) (fun _ _ => rfl) _ _ _ _ h2
  have p3 := forRange_appendStep_ret Accessor.resolve
    (fun rv r => { rv with Accessors := rv.Accessors ++ [r] }) (fun rv => rv.Accessors)
    (fun rv => { rv with Accessors := [] }) (fun _ _ => rfl) (fun _ _ => rfl) _ _ _ _ h3
  have p4 := forRange_appendStep_ret Material.resolve
    (fun rv r => { rv with Materials := rv.Materials ++ [r] }) (fun rv => rv.Materials)
    (fun rv => { rv with Materials := [] }) (fun _ _ => rfl) (fun _ _ => rfl) _ _ _ _ h4
  have p5 := forRange_appendStep_ret Mesh.resolve
    (fun rv r => { rv with Meshes := rv.Meshes ++ [r] }) (fun rv => rv.Meshes)
    (fun rv => { rv with Meshes := [] }) (fun _ _ => rfl) (fun _ _ => rfl) _ _ _ _ h5
  have p6 := forRange_appendStep_ret Node.resolve
    (fun rv r => { rv with Nodes := rv.Nodes ++ [r] }) (fun rv => rv.Nodes)
    (fun rv => { rv with Nodes := [] }) (fun _ _ => rfl) (fun _ _ => rfl) _ _ _ _ h6
  have p7 := populate_loop_ret _ _ _ rfl h7
  have p8 := forRange_appendStep_ret Animation.resolve
    (fun rv r => { rv with Animations := rv.Animations ++ [r] }) (fun rv => rv.Animations)
    (fun rv => { rv with Animations := [] }) (fun _ _ => rfl) (fun _ _ => rfl) _ _ _ _ h8
  have p9 := forRange_appendStep_ret Scene.resolve
    (fun rv r => { rv with Scenes := rv.Scenes ++ [r] }) (fun rv => rv.Scenes)
    (fun rv => { rv with Scenes := [] }) (fun _ _ => rfl) (fun _ _ => rfl) _ _ _ _ h9
  clear h1 h2 h3 h4 h5 h6 h7 h8 h9
  obtain ⟨e1, r1, g1, f1⟩ := p1
  obtain ⟨e2, r2, g2, f2⟩ := p2
  obtain ⟨e3, r3, g3, f3⟩ := p3
  obtain ⟨e4, r4, g4, f4⟩ := p4
  obtain ⟨e5, r5, g5, f5⟩ := p5
  obtain ⟨e6, r6, g6, f6⟩ := p6
  obtain ⟨e7, f7⟩ := p7
  obtain ⟨e8, r8, g8, f8⟩ := p8
  obtain ⟨e9, r9, g9, f9⟩ := p9
  obtain ⟨G1, An1, B1, BV1, A1, M1, Me1, N1, Sc1, Scs1⟩ := s1
  obtain ⟨G2, An2, B2, BV2, A2, M2, Me2, N2, Sc2, Scs2⟩ := s2
  obtain ⟨G3, An3, B3, BV3, A3, M3, Me3, N3, Sc3, Scs3⟩ := s3
  obtain ⟨G4, An4, B4, BV4, A4, M4, Me4, N4, Sc4, Scs4⟩ := s4
  obtain ⟨G5, An5, B5, BV5, A5, M5, Me5, N5, Sc5, Scs5⟩ := s5
  obtain ⟨G6, An6, B6, BV6, A6, M6, Me6, N6, Sc6, Scs6⟩ := s6
  obtain ⟨G7, An7, B7, BV7, A7, M7, Me7, N7, Sc7, Scs7⟩ := s7
  obtain ⟨G8, An8, B8, BV8, A8, M8, Me8, N8, Sc8, Scs8⟩ := s8
  obtain ⟨G9, An9, B9, BV9, A9, M9, Me9, N9, Sc9, Scs9⟩ := s9
  simp only [ResolvedGlTF.mk.injEq, true_and, and_true, List.nil_append] at e1 e2 e3 e4 e5 e6 e7 e8 e9 g1 g2 g3 g4 g5 g6 g8 g9
  obtain ⟨rfl, rfl, rfl, rfl, rfl, rfl, rfl, rfl, rfl⟩ := e1
  obtain ⟨rfl, rfl, rfl, rfl, rfl, rfl, rfl, rfl, rfl⟩ := e2
  obtain ⟨rfl, rfl, rfl, rfl, rfl, rfl, rfl, rfl, rfl⟩ := e3
  obtain ⟨rfl, rfl, rfl, rfl, rfl, rfl, rfl, rfl, rfl⟩ := e4
  obtain ⟨rfl, rfl, rfl, rfl, rfl, rfl, rfl, rfl, rfl⟩ := e5
  obtain ⟨rfl, rfl, rfl, rfl, rfl, rfl, rfl, rfl, rfl⟩ := e6
  obtain ⟨rfl, rfl, rfl, rfl, rfl, rfl, rfl, rfl, rfl⟩ := e7
  obtain ⟨rfl, rfl, rfl, rfl, rfl, rfl, rfl, rfl, rfl⟩ := e8
  obtain ⟨rfl, rfl, rfl, rfl, rfl, rfl, rfl, rfl, rfl⟩ := e9
  simp only [List.nil_append] at g1 g2 g3 g4 g5 g6 g8 g9
  subst g1 g2 g3 g4 g5 g6 g8 g9
  dsimp only at f1 f2 f3 f4 f5 f6 f7 f8 f9 k9
  simp only [ResolvedGlTF.mk.injEq] at f1 f2 f3 f4 f5 f6 f8 f9
  have hN : N6.length = G9.Nodes.length := f6.length_eq.symm
  have hrv : rv = ResolvedGlTF.mk G9 An9 B9 BV9 A9 M9 Me9 N9 G9.Scene Scs9 ∧
      ∀ i, G9.Scene = some i → i < G9.Scenes.length := by
    rw [f9.length_eq]
    cases hs : G9.Scene with
    | none => simp only [hs] at k9; simp at k9; exact ⟨k9.symm, by simp⟩
    | some i =>
      simp only [hs] at k9
      by_cases hlt : i < Scs9.length
      · simp [addrOf, hlt] at k9
        exact ⟨k9.symm, by simpa using hlt⟩
      · simp [addrOf, hlt] at k9
  obtain ⟨rfl, hsc⟩ := hrv
  refine ⟨rfl, ?_, ?_, ?_, ?_, ?_, ?_, ?_, ?_, rfl, hsc⟩
  · exact f1.imp (fun a b ⟨root, hr, hres⟩ => ⟨root, hr.1, hres⟩)
  · exact f2.imp (fun a b ⟨root, hr, hres⟩ => ⟨root, hr.2.2.1, hres⟩)
  · exact f3.imp (fun a b ⟨root, hr, hres⟩ => ⟨root, hr.2.2.2.1, hres⟩)
  · exact f4.imp (fun a b ⟨root, _, hres⟩ => ⟨root, hres⟩)
  · exact f5.imp (fun a b ⟨root, hr, hres⟩ => ⟨root, hr.2.2.2.2.2.1, hr.2.2.2.2.1, hres⟩)
  · refine (forall₂_comp_rel f6 f7).imp ?_
    rintro a b ⟨rn0, ⟨root, hr, hres⟩, ⟨root', hl, hp⟩⟩
    exact ⟨root, root', rn0, hr.2.2.2.2.2.2.1, hres, hl.trans hN, hp⟩
  · exact f8.imp (fun a b ⟨root, hr, hres⟩ =>
      ⟨root, hr.2.2.2.2.1, hr.2.2.2.2.2.2.2.1, hres⟩)
  · exact f9.imp (fun a b ⟨root, hr, hres⟩ => ⟨root, hr.2.2.2.2.2.2.2.1, hres⟩)

/-! ## Errors come from the buffers only -/

theorem Buffer.resolve_noErr_of_load (b : Buffer) (root : ResolvedGlTF) (os : OS)
    (data : ByteSlice)
    (hread : os.ReadFile (root.GlTF.meta.defaultSearchPath ++ String.singleton os.Separator
      ++ b.Uri) = some data)
    (hlen : intOfUint b.ByteLength ≤ (data.len : Int)) :
    b.resolve root os = Outcome.ret { Buffer := b, Data := data } none := by
  unfold Buffer.resolve Buffer.path
  simp only [hread]
  rw [if_neg (not_lt.mpr hlen)]

/-- When every buffer loads, `Resolve` does not return an error: it returns the
graph with a `nil` error or it panics. -/
theorem Resolve_noErr (doc : GlTF) (sp : List String) (os : OS)
    (hload : doc.buffersLoad os) : (doc.Resolve sp os).NoErr := by
  unfold GlTF.Resolve
  refine andThen_noErr ?_ (fun s1 _ => andThen_noErr ?_ (fun s2 _ => andThen_noErr ?_
    (fun s3 _ => andThen_noErr ?_ (fun s4 _ => andThen_noErr ?_ (fun s5 _ =>
    andThen_noErr ?_ (fun s6 _ => andThen_noErr ?_ (fun s7 _ => andThen_noErr ?_
    (fun s8 _ => andThen_noErr ?_ (fun s9 _ => ?_)))))))))
  · refine forRange_noErr _ (fun rv => rv.GlTF = doc) _ _ _ rfl ?_
    intro j b t hb ht
    obtain ⟨data, hread, hlen⟩ := hload b hb
    have hres := Buffer.resolve_noErr_of_load b t os data (by rw [ht]; exact hread) hlen
    refine ⟨?_, ?_⟩
    · intro v e
      simp [appendStep, hres]
    · intro t' h'
      simp only [appendStep, hres, Outcome.ret.injEq, and_true] at h'
      rw [← h']
      exact ht
  · exact forRange_appendStep_noErr _ _ BufferView_resolve_noErr _ _ _
  · exact forRange_appendStep_noErr _ _ Accessor_resolve_noErr _ _ _
  · exact forRange_appendStep_noErr _ _ Material_resolve_noErr _ _ _
  · exact forRange_appendStep_noErr _ _ Mesh_resolve_noErr _ _ _
  · exact forRange_appendStep_noErr _ _ Node_resolve_noErr _ _ _
  · refine forRange_noErr _ (fun _ => True) _ _ _ trivial ?_
    intro j x t _ _
    refine ⟨?_, fun _ _ => trivial⟩
    intro v e
    split
    · simp
    · split <;> simp
  · exact forRange_appendStep_noErr _ _ Animation_resolve_noErr _ _ _
  · exact forRange_appendStep_noErr _ _ Scene_resolve_noErr _ _ _
  · intro v e
    split
    · simp
    · split <;> simp

/-- A run of `Resolve` that neither succeeds nor returns an error panics. -/
theorem panic_of_not_ret {α : Type} {o : Outcome α} (hne : o.NoErr)
    (hok : ∀ v, o ≠ Outcome.ret v none) : o = Outcome.panic := by
  cases o with
  | panic => rfl
  | ret v e =>
    cases e with
    | none => exact absurd rfl (hok v)
    | some e => exact absurd rfl (hne v e)

/-! ## What each `resolve` that returns has checked -/

theorem addrOf_eq_some {len i p : Nat} (h : addrOf len i = some p) : i < len ∧ p = i := by
  unfold addrOf at h
  split at h
  · next hlt => exact ⟨hlt, by simpa using h.symm⟩
  · cases h

theorem addrOfInt_eq_some {len : Nat} {i : Int} {p : Nat} (h : addrOfInt len i = some p) :
    (0 ≤ i ∧ i < (len : Int)) ∧ p = i.toNat := by
  unfold addrOfInt at h
  split at h
  · next hlt => exact ⟨hlt, by simpa using h.symm⟩
  · cases h

theorem store_eq_some {α : Type} {xs ys : List α} {i : Nat} {v : α}
    (h : store xs i v = some ys) : i < xs.length ∧ ys = xs.set i v := by
  unfold store at h
  split at h
  · next hlt => exact ⟨hlt, by simpa using h.symm⟩
  · cases h

/-- A loop that runs to its end has run its body, without error or panic, on
every element, each time in a state the invariant `P` holds in. -/
theorem forRange_ret_mem {α σ : Type} (body : Nat → α → σ → Outcome σ) (P : σ → Prop) :
    ∀ (xs : List α) (i : Nat) (s s' : σ), P s →
      (∀ j x t t', P t → body j x t = Outcome.ret t' none → P t') →
      forRange body i xs s = Outcome.ret s' none →
      P s' ∧ ∀ x ∈ xs, ∃ j t t', P t ∧ body j x t = Outcome.ret t' none := by
  intro xs
  induction xs with
  | nil =>
    intro i s s' hs _ h
    simp [forRange] at h
    subst h
    exact ⟨hs, by simp⟩
  | cons x xs ih =>
    intro i s s' hs hstep h
    unfold forRange at h
    cases hb : body i x s with
    | panic => simp [hb] at h
    | ret v e =>
      cases e with
      | some e => simp [hb] at h
      | none =>
        simp only [hb] at h
        obtain ⟨hs', hall⟩ := ih (i + 1) v s' (hstep i x s v hs hb) hstep h
        refine ⟨hs', ?_⟩
        intro y hy
        rcases List.mem_cons.mp hy with rfl | hy
        · exact ⟨i, s, v, hs, hb⟩
        · exact hall y hy

theorem BufferView_resolve_ret {bv : BufferView} {root : ResolvedGlTF}
    {rbv : ResolvedBufferView} (h : bv.resolve root = Outcome.ret rbv none) :
    rbv.BufferView = bv ∧ rbv.Buffer = some bv.Buffer ∧ ∃ rb, root.Buffers[bv.Buffer]? = some rb ∧
      rb.Data.slice bv.ByteOffset (uintAdd bv.ByteOffset bv.ByteLength) = some rbv.Data := by
  unfold BufferView.resolve at h
  cases hb : root.Buffers[bv.Buffer]? with
  | none => simp [hb] at h
  | some rb =>
    simp only [hb] at h
    cases hd : rb.Data.slice bv.ByteOffset (uintAdd bv.ByteOffset bv.ByteLength) with
    | none => simp [hd] at h
    | some d =>
      simp only [hd, Outcome.ret.injEq, and_true] at h
      subst h
      exact ⟨rfl, rfl, rb, rfl, hd⟩

theorem Accessor_resolve_ret {a : Accessor} {root : ResolvedGlTF} {ra : ResolvedAccessor}
    (h : a.resolve root = Outcome.ret ra none) :
    ra.Accessor = a ∧ ra.BufferView = some a.BufferView ∧
      a.BufferView < root.BufferViews.length := by
  unfold Accessor.resolve at h
  cases hp : addrOf root.BufferViews.length a.BufferView with
  | none => simp [hp] at h
  | some p =>
    simp only [hp, Outcome.ret.injEq, and_true] at h
    subst h
    obtain ⟨hlt, rfl⟩ := addrOf_eq_some hp
    exact ⟨rfl, rfl, hlt⟩

theorem Node_resolve_ret {n : Node} {root : ResolvedGlTF} {rn : ResolvedNode}
    (h : n.resolve root = Outcome.ret rn none) :
    rn.Node = n ∧ rn.Children = List.replicate n.Children.length none ∧ rn.Mesh = n.Mesh ∧
      ∀ m, n.Mesh = some m → m < root.Meshes.length := by
  unfold Node.resolve at h
  cases hm : n.Mesh with
  | none =>
    simp only [hm, Outcome.ret.injEq, and_true] at h
    subst h
    exact ⟨rfl, rfl, rfl, by simp⟩
  | some m =>
    simp only [hm] at h
    cases hp : addrOf root.Meshes.length m with
    | none => simp [hp] at h
    | some p =>
      simp only [hp, Outcome.ret.injEq, and_true] at h
      subst h
      obtain ⟨hlt, rfl⟩ := addrOf_eq_some hp
      refine ⟨rfl, rfl, rfl, ?_⟩
      intro m' hm'
      cases hm'
      exact hlt

theorem ResolvedNode.populate_ret {rn rn' : ResolvedNode} {root : ResolvedGlTF}
    (h : rn.populate root = Outcome.ret rn' none) :
    rn'.Node = rn.Node ∧ rn'.Mesh = rn.Mesh ∧ rn'.Children.length = rn.Children.length ∧
      ∀ c ∈ rn.Node.Children, c < root.Nodes.length := by
  unfold ResolvedNode.populate at h
  have key := forRange_ret_mem _ (fun t : ResolvedNode =>
    t.Node = rn.Node ∧ t.Mesh = rn.Mesh ∧ t.Children.length = rn.Children.length)
    _ _ _ _ ⟨rfl, rfl, rfl⟩ ?_ h
  · obtain ⟨⟨h1, h2, h3⟩, hall⟩ := key
    refine ⟨h1, h2, h3, ?_⟩
    intro c hc
    obtain ⟨j, t, t', _, hb⟩ := hall c hc
    cases hp : addrOf root.Nodes.length c with
    | none => simp [hp] at hb
    | some p => exact (addrOf_eq_some hp).1
  · intro j x t t' ht hb
    cases hp : addrOf root.Nodes.length x with
    | none => simp [hp] at hb
    | some p =>
      simp only [hp] at hb
      cases hst : store t.Children j (some p) with
      | none => simp [hst] at hb
      | some cs =>
        simp only [hst, Outcome.ret.injEq, and_true] at hb
        subst hb
        obtain ⟨_, rfl⟩ := store_eq_some hst
        exact ⟨ht.1, ht.2.1, by simpa using ht.2.2⟩

theorem Primitive_resolve_ret {p : Primitive} {root : ResolvedGlTF} {rp : ResolvedPrimitive}
    (h : p.resolve root = Outcome.ret rp none) :
    (∀ m, p.Material = some m → 0 ≤ m ∧ m < (root.Materials.length : Int)) ∧
    (∀ kv ∈ p.Attributes, 0 ≤ kv.2 ∧ kv.2 < (root.Accessors.length : Int)) ∧
    (∀ ix, p.Indices = some ix → ix < root.Accessors.length) := by
  unfold Primitive.resolve at h
  obtain ⟨s1, h1, h⟩ := andThen_ret_none h
  obtain ⟨s2, h2, h3⟩ := andThen_ret_none h
  refine ⟨?_, ?_, ?_⟩
  · intro m hm
    simp only [hm] at h1
    cases hp : addrOfInt root.Materials.length m with
    | none => simp [hp] at h1
    | some q => exact (addrOfInt_eq_some hp).1
  · intro kv hkv
    obtain ⟨_, hall⟩ := forRange_ret_mem _ (fun _ => True) _ _ _ _ trivial
      (fun _ _ _ _ _ _ => trivial) h2
    obtain ⟨j, t, t', _, hb⟩ := hall kv hkv
    cases hp : addrOfInt root.Accessors.length kv.2 with
    | none => simp [hp] at hb
    | some q => exact (addrOfInt_eq_some hp).1
  · intro ix hix
    simp only [hix] at h3
    cases hp : addrOf root.Accessors.length ix with
    | none => simp [hp] at h3
    | some q => exact (addrOf_eq_some hp).1

theorem Mesh_resolve_ret {m : Mesh} {root : ResolvedGlTF} {rm : ResolvedMesh}
    (h : m.resolve root = Outcome.ret rm none) :
    rm.Mesh = m ∧ rm.Primitives.length = m.Primitives.length ∧
      ∀ p ∈ m.Primitives, ∃ rp, p.resolve root = Outcome.ret rp none := by
  unfold Mesh.resolve at h
  have hstep : ∀ (x : Primitive) (t t' : ResolvedMesh),
      (match x.resolve root with
        | Outcome.panic => Outcome.panic
        | Outcome.ret _ (some err) => Outcome.ret t (some err)
        | Outcome.ret rp none =>
          Outcome.ret { t with Primitives := t.Primitives ++ [rp] } none) = Outcome.ret t' none →
      ∃ rp, x.resolve root = Outcome.ret rp none ∧
        t' = { t with Primitives := t.Primitives ++ [rp] } := by
    intro x t t' hb
    cases hp : x.resolve root with
    | panic => simp [hp] at hb
    | ret rp err =>
      cases err with
      | some err => simp [hp] at hb
      | none =>
        simp only [hp, Outcome.ret.injEq, and_true] at hb
        exact ⟨rp, rfl, hb.symm⟩
  have hlen := forRange_inv _ (fun k (t : ResolvedMesh) => t.Primitives.length = k)
    _ _ _ _ ?_ ?_ h
  rotate_left
  · rfl
  · intro k x t t' _ ht hb
    obtain ⟨rp, _, rfl⟩ := hstep x t t' hb
    simp only [List.length_append, List.length_singleton]
    omega
  have hmem := forRange_ret_mem _ (fun t : ResolvedMesh => t.Mesh = m) _ _ _ _ ?_ ?_ h
  rotate_left
  · rfl
  · intro j x t t' ht hb
    obtain ⟨rp, _, rfl⟩ := hstep x t t' hb
    exact ht
  obtain ⟨hm, hall⟩ := hmem
  refine ⟨hm, by simpa using hlen, ?_⟩
  intro p hp
  obtain ⟨j, t, t', _, hb⟩ := hall p hp
  obtain ⟨rp, hrp, _⟩ := hstep p t t' hb
  exact ⟨rp, hrp⟩

theorem AnimationSampler_resolve_ret {a : AnimationSampler} {root : ResolvedGlTF}
    {ra : ResolvedAnimationSampler} (h : a.resolve root = Outcome.ret ra none) :
    (0 ≤ a.Input ∧ a.Input < (root.Accessors.length : Int)) ∧
      (0 ≤ a.Output ∧ a.Output < (root.Accessors.length : Int)) := by
  unfold AnimationSampler.resolve at h
  cases hi : addrOfInt root.Accessors.length a.Input with
  | none => simp [hi] at h
  | some i =>
    simp only [hi] at h
    cases ho : addrOfInt root.Accessors.length a.Output with
    | none => simp [ho] at h
    | some o => exact ⟨(addrOfInt_eq_some hi).1, (addrOfInt_eq_some ho).1⟩

theorem AnimationChannel_resolve_ret {c : AnimationChannel} {root : ResolvedGlTF}
    {samplers : List ResolvedAnimationSampler} {rc : ResolvedAnimationChannel}
    (h : c.resolve root samplers = Outcome.ret rc none) :
    c.Sampler < samplers.length ∧ ∀ t, c.Target.Node = some t → t < root.Nodes.length := by
  unfold AnimationChannel.resolve at h
  cases hs : addrOf samplers.length c.Sampler with
  | none => simp [hs] at h
  | some q =>
    simp only [hs] at h
    refine ⟨(addrOf_eq_some hs).1, ?_⟩
    intro t ht
    unfold AnimationChannelTarget.resolve at h
    simp only [ht] at h
    cases hp : addrOf root.Nodes.length t with
    | none => simp [hp] at h
    | some q => exact (addrOf_eq_some hp).1

theorem Animation_resolve_ret {a : Animation} {root : ResolvedGlTF} {ra : ResolvedAnimation}
    (h : a.resolve root = Outcome.ret ra none) :
    ra.Animation = a ∧ ra.Samplers.length = a.Samplers.length ∧
    ra.Channels.length = a.Channels.length ∧
    (∀ s ∈ a.Samplers, ∃ rs, s.resolve root = Outcome.ret rs none) ∧
    (∀ c ∈ a.Channels, ∃ (ss : List ResolvedAnimationSampler) (rc : ResolvedAnimationChannel),
      ss.length = a.Samplers.length ∧ c.resolve root ss = Outcome.ret rc none) := by
  unfold Animation.resolve at h
  obtain ⟨s1, h1, h2⟩ := andThen_ret_none h
  have k1 := forRange_ret_mem _ (fun t : ResolvedAnimation =>
      t.Animation = a ∧ t.Samplers.length = a.Samplers.length) _ _ _ _ ?_ ?_ h1
  rotate_left
  · exact ⟨rfl, by simp⟩
  · intro j x t t' ht hb
    cases hp : x.resolve root with
    | panic => simp [hp] at hb
    | ret r err =>
      cases err with
      | some err => simp [hp] at hb
      | none =>
        simp only [hp] at hb
        cases hst : store t.Samplers j r with
        | none => simp [hst] at hb
        | some ss =>
          simp only [hst, Outcome.ret.injEq, and_true] at hb
          subst hb
          obtain ⟨_, rfl⟩ := store_eq_some hst
          exact ⟨ht.1, by simpa using ht.2⟩
  obtain ⟨hP1, hall1⟩ := k1
  have k2 := forRange_ret_mem _ (fun t : ResolvedAnimation =>
      t.Animation = a ∧ t.Samplers.length = a.Samplers.length ∧
      t.Channels.length = a.Channels.length) _ _ _ _ ?_ ?_ h2
  rotate_left
  · exact ⟨hP1.1, hP1.2, by simp⟩
  · intro j x t t' ht hb
    cases hp : x.resolve root t.Samplers with
    | panic => simp [hp] at hb
    | ret r err =>
      cases err with
      | some err => simp [hp] at hb
      | none =>
        simp only [hp] at hb
        cases hst : store t.Channels j r with
        | none => simp [hst] at hb
        | some cs =>
          simp only [hst, Outcome.ret.injEq, and_true] at hb
          subst hb
          obtain ⟨_, rfl⟩ := store_eq_some hst
          exact ⟨ht.1, ht.2.1, by simpa using ht.2.2⟩
  obtain ⟨hP2, hall2⟩ := k2
  refine ⟨hP2.1, hP2.2.1, hP2.2.2, ?_, ?_⟩
  · intro s hs
    obtain ⟨j, t, t', _, hb⟩ := hall1 s hs
    cases hp : s.resolve root with
    | panic => simp [hp] at hb
    | ret r err =>
      cases err with
      | some err => simp [hp] at hb
      | none => exact ⟨r, rfl⟩
  · intro c hc
    obtain ⟨j, t, t', ht, hb⟩ := hall2 c hc
    cases hp : c.resolve root t.Samplers with
    | panic => simp [hp] at hb
    | ret r err =>
      cases err with
      | some err => simp [hp] at hb
      | none => exact ⟨t.Samplers, r, ht.2.1, hp⟩

theorem Scene_resolve_ret {s : Scene} {root : ResolvedGlTF} {rs : ResolvedScene}
    (h : s.resolve root = Outcome.ret rs none) :
    rs.Scene = s ∧ rs.Nodes.length = s.Nodes.length := by
  unfold Scene.resolve at h
  have key := forRange_ret_mem _ (fun t : ResolvedScene =>
      t.Scene = s ∧ t.Nodes.length = s.Nodes.length) _ _ _ _ ?_ ?_ h
  · exact key.1
  · exact ⟨rfl, by simp⟩
  · intro j x t t' ht hb
    cases hp : addrOf root.Nodes.length j with
    | none => simp [hp] at hb
    | some p =>
      simp only [hp] at hb
      cases hst : store t.Nodes j (some p) with
      | none => simp [hst] at hb
      | some ns =>
        simp only [hst, Outcome.ret.injEq, and_true] at hb
        subst hb
        obtain ⟨_, rfl⟩ := store_eq_some hst
        exact ⟨ht.1, by simpa using ht.2⟩

/-- Related lists relate every element of the left list to one of the right
list, at the same position. -/
theorem forall₂_getElem_some {α β : Type} {R : α → β → Prop} :
    ∀ {xs : List α} {ys : List β}, List.Forall₂ R xs ys → ∀ (i : Nat) (x : α),
      xs[i]? = some x → ∃ y, ys[i]? = some y ∧ R x y := by
  intro xs ys h
  induction h with
  | nil => intro i x hx; simp at hx
  | cons hxy _ ih =>
    intro i x hx
    cases i with
    | zero =>
      simp only [List.getElem?_cons_zero, Option.some.injEq] at hx
      subst hx
      exact ⟨_, by simp, hxy⟩
    | succ i =>
      simp only [List.getElem?_cons_succ] at hx
      obtain ⟨y, hy, hr⟩ := ih i x hx
      exact ⟨y, by simpa using hy, hr⟩

theorem forall₂_mem {α β : Type} {R : α → β → Prop} {xs : List α} {ys : List β}
    (h : List.Forall₂ R xs ys) {x : α} (hx : x ∈ xs) : ∃ y, y ∈ ys ∧ R x y := by
  obtain ⟨i, hi⟩ := List.mem_iff_getElem?.mp hx
  obtain ⟨y, hy, hr⟩ := forall₂_getElem_some h i x hi
  exact ⟨y, List.mem_iff_getElem?.mpr ⟨i, hy⟩, hr⟩

theorem Buffer_resolve_ret {b : Buffer} {root : ResolvedGlTF} {os : OS} {rb : ResolvedBuffer}
    (h : b.resolve root os = Outcome.ret rb none) :
    rb.Buffer = b ∧ os.ReadFile (root.GlTF.meta.defaultSearchPath ++
      String.singleton os.Separator ++ b.Uri) = some rb.Data ∧
      intOfUint b.ByteLength ≤ (rb.Data.len : Int) := by
  unfold Buffer.resolve Buffer.path at h
  cases hr : os.ReadFile (root.GlTF.meta.defaultSearchPath ++ String.singleton os.Separator ++
      b.Uri) with
  | none => simp [hr] at h
  | some data =>
    simp only [hr] at h
    by_cases hlt : (data.len : Int) < intOfUint b.ByteLength
    · simp [hlt] at h
    · simp only [hlt, if_false, Outcome.ret.injEq, and_true] at h
      subst h
      exact ⟨rfl, rfl, not_lt.mp hlt⟩

/-- The resolved buffer at an index is the one read for the raw buffer at that
index. -/
theorem ResolvedOk.buffer_at {doc : GlTF} {os : OS} {rv : ResolvedGlTF}
    (ok : ResolvedOk doc os rv) {k : Nat} {rb : ResolvedBuffer}
    (hrb : rv.Buffers[k]? = some rb) :
    ∃ b, doc.Buffers[k]? = some b ∧ rb.Buffer = b ∧
      os.ReadFile (doc.meta.defaultSearchPath ++ String.singleton os.Separator ++ b.Uri)
        = some rb.Data := by
  have hk : k < rv.Buffers.length := by
    rcases Nat.lt_or_ge k rv.Buffers.length with h | h
    · exact h
    · rw [List.getElem?_eq_none h] at hrb; cases hrb
  have hk' : k < doc.Buffers.length := by rw [ok.buffers.length_eq]; exact hk
  obtain ⟨rb', hrb', root, hroot, hres⟩ :=
    forall₂_getElem_some ok.buffers k doc.Buffers[k] (List.getElem?_eq_getElem hk')
  rw [hrb] at hrb'
  cases hrb'
  obtain ⟨h1, h2, _⟩ := Buffer_resolve_ret hres
  rw [hroot] at h2
  exact ⟨doc.Buffers[k], List.getElem?_eq_getElem hk', h1, h2⟩

/-- A slice expression that does not panic: its bounds are ordered and within
the capacity, and its elements are those of the backing array between them. -/
theorem ByteSlice.slice_eq_some {s d : ByteSlice} {lo hi : Nat} (h : s.slice lo hi = some d) :
    lo ≤ hi ∧ hi ≤ s.cap ∧ d.data = ((s.data ++ s.spare).drop lo).take (hi - lo) ∧
      d.data.length = hi - lo := by
  unfold ByteSlice.slice at h
  split at h
  · next hb =>
    simp only [Option.some.injEq] at h
    subst h
    refine ⟨hb.1, hb.2, rfl, ?_⟩
    have hc := hb.2
    unfold ByteSlice.cap at hc
    simp only [List.length_take, List.length_drop, List.length_append]
    omega
  · cases h

/-- A `uint` sum that is not below its first operand did not wrap. -/
theorem uintAdd_eq_of_le {a b : Nat} (hb : b < wordSize) (h : a ≤ uintAdd a b) :
    uintAdd a b = a + b := by
  unfold uintAdd wordSize at *
  omega

theorem lt_length_of_getElem_some {α : Type} {xs : List α} {i : Nat} {x : α}
    (h : xs[i]? = some x) : i < xs.length := by
  rcases Nat.lt_or_ge i xs.length with hlt | hge
  · exact hlt
  · rw [List.getElem?_eq_none hge] at h; cases h

/-- A graph returned without error shows that no cross-reference field, other
than the node list of a scene, is out of range. -/
theorem ResolvedOk.indices_in_range {doc : GlTF} {os : OS} {rv : ResolvedGlTF}
    (ok : ResolvedOk doc os rv) : ¬ doc.indexOutOfRange := by
  have lB := ok.buffers.length_eq
  have lBV := ok.bufferViews.length_eq
  have lA := ok.accessors.length_eq
  have lM := ok.materials.length_eq
  have lMe := ok.meshes.length_eq
  have lN := ok.nodes.length_eq
  rintro (⟨bv, hbv, hbad⟩ | ⟨a, ha, hbad⟩ | ⟨m, hm, p, hp, hbad⟩ | ⟨n, hn, hbad⟩ |
    ⟨a, ha, hbad⟩ | ⟨i, hi, hbad⟩)
  · obtain ⟨rbv, _, root, hroot, hres⟩ := forall₂_mem ok.bufferViews hbv
    obtain ⟨_, _, rb, hrb, _⟩ := BufferView_resolve_ret hres
    have := lt_length_of_getElem_some hrb
    rw [hroot] at this
    omega
  · obtain ⟨ra, _, root, hroot, hres⟩ := forall₂_mem ok.accessors ha
    have := (Accessor_resolve_ret hres).2.2
    rw [hroot] at this
    omega
  · obtain ⟨rm, _, root, hrM, hrA, hres⟩ := forall₂_mem ok.meshes hm
    obtain ⟨rp, hrp⟩ := (Mesh_resolve_ret hres).2.2 p hp
    obtain ⟨hmat, hattr, hidx⟩ := Primitive_resolve_ret hrp
    rw [hrM] at hmat
    rw [hrA] at hattr hidx
    rcases hbad with ⟨kv, hkv, hb⟩ | ⟨ix, hix, hb⟩ | ⟨mt, hmt, hb⟩
    · have := hattr kv hkv
      unfold intOutOfRange at hb
      omega
    · have := hidx ix hix
      omega
    · have := hmat mt hmt
      unfold intOutOfRange at hb
      omega
  · obtain ⟨rn, _, root, root', rn0, hroot, hres, hlen, hpop⟩ := forall₂_mem ok.nodes hn
    obtain ⟨hnode, _, _, hmesh⟩ := Node_resolve_ret hres
    rcases hbad with ⟨m, hm, hb⟩ | ⟨c, hc, hb⟩
    · have := hmesh m hm
      rw [hroot] at this
      omega
    · have := (ResolvedNode.populate_ret hpop).2.2.2 c (by rw [hnode]; exact hc)
      omega
  · obtain ⟨ra, _, root, hrA, hrN, hres⟩ := forall₂_mem ok.animations ha
    obtain ⟨_, _, _, hs, hc⟩ := Animation_resolve_ret hres
    rcases hbad with ⟨smp, hsmp, hb⟩ | ⟨c, hcm, hb⟩
    · obtain ⟨rs, hrs⟩ := hs smp hsmp
      have := AnimationSampler_resolve_ret hrs
      rw [hrA] at this
      unfold intOutOfRange at hb
      omega
    · obtain ⟨ss, rc, hss, hrc⟩ := hc c hcm
      obtain ⟨h1, h2⟩ := AnimationChannel_resolve_ret hrc
      rcases hb with hb | ⟨t, ht, hb⟩
      · omega
      · have := h2 t ht
        rw [hrN] at this
        omega
  · have := ok.sceneInRange i hi
    omega

/-! ## The claims -/

/-- C1 (evaluation at the failing input).  In the document with two nodes whose
only scene lists node `1`, `Resolve` returns no error and the resolved scene
holds the reference to node `0`: `Scene.resolve` stores `&root.Nodes[i]` for
the position `i`, not for the raw value at position `i`. -/
theorem C1_scene_reference_is_position :
    ∃ rv, sceneOfSecondNode.Resolve [] noFiles = Outcome.ret rv none ∧
      sceneOfSecondNode.Scenes.map (fun s => s.Nodes) = [[1]] ∧
      rv.Scenes.map (fun s => s.Nodes) = [[some 0]] :=
  ⟨_, rfl, rfl, rfl⟩

/-- C2 (counterexample).  The only buffer of the document loads and its view
names buffer 5: `Resolve` panics in `BufferView.resolve`, at
`root.Buffers[bv.Buffer]`, and returns no error. -/
theorem C2_missing_buffer_panics :
    (∃ bv ∈ viewOnMissingBuffer.BufferViews, viewOnMissingBuffer.Buffers.length ≤ bv.Buffer) ∧
    (∃ rb, Buffer.resolve { Uri := "a.bin", ByteLength := 1, Name := "" }
        { GlTF := viewOnMissingBuffer, Animations := [], Buffers := [], BufferViews := [],
          Accessors := [], Materials := [], Meshes := [], Nodes := [], Scene := none,
          Scenes := [] } (oneFile "m/a.bin" [1] []) = Outcome.ret rb none) ∧
    viewOnMissingBuffer.Resolve [] (oneFile "m/a.bin" [1] []) = Outcome.panic :=
  ⟨⟨plainView 5 0 0, List.mem_singleton.mpr rfl, by decide⟩, ⟨_, rfl⟩, rfl⟩

/-- C2 (amended).  When every buffer loads and some cross-reference field other
than the node list of a scene holds an out-of-range index, `Resolve` returns
neither a graph nor an error: an array access of the resolver is out of bounds
and the call panics. -/
theorem C2_out_of_range_index (doc : GlTF) (sp : List String) (os : OS)
    (hload : doc.buffersLoad os) (hbad : doc.indexOutOfRange) :
    doc.Resolve sp os = Outcome.panic :=
  panic_of_not_ret (Resolve_noErr doc sp os hload)
    (fun rv hrv => (Resolve_ok doc sp os rv hrv).indices_in_range hbad)

/-- C2 (amended) at a node that names a mesh the document does not have. -/
theorem C2_out_of_range_index_witness :
    nodeOnMissingMesh.buffersLoad noFiles ∧ nodeOnMissingMesh.indexOutOfRange ∧
    nodeOnMissingMesh.Resolve [] noFiles = Outcome.panic := by
  have hload : nodeOnMissingMesh.buffersLoad noFiles := by
    intro b hb
    simp [nodeOnMissingMesh, emptyDocument] at hb
  have hbad : nodeOnMissingMesh.indexOutOfRange :=
    Or.inr (Or.inr (Or.inr (Or.inl ⟨_, List.mem_singleton.mpr rfl,
      Or.inl ⟨3, rfl, by decide⟩⟩)))
  exact ⟨hload, hbad, C2_out_of_range_index nodeOnMissingMesh [] noFiles hload hbad⟩

/-- C3 (evaluation at the failing input).  With a declared length of 4 and a
file of 2 bytes, `Buffer.resolve` returns the short-data error together with a
resolved buffer whose `Data` is still `nil`, and `Resolve` returns the error
with a graph that holds no resolved buffer at all. -/
theorem C3_short_buffer_not_padded :
    (∀ root : ResolvedGlTF, root.GlTF = oneBuffer 4 →
      Buffer.resolve { Uri := "a.bin", ByteLength := 4, Name := "" } root
          (oneFile "m/a.bin" [1, 2] [])
        = Outcome.ret { Buffer := { Uri := "a.bin", ByteLength := 4, Name := "" },
                        Data := ByteSlice.nil }
            (some (Error.shortBuffer "a.bin" 4 2))) ∧
    ∃ rv, (oneBuffer 4).Resolve [] (oneFile "m/a.bin" [1, 2] [])
        = Outcome.ret rv (some (Error.shortBuffer "a.bin" 4 2)) ∧ rv.Buffers = [] := by
  refine ⟨?_, _, rfl, rfl⟩
  intro root hroot
  unfold Buffer.resolve Buffer.path
  rw [hroot]
  decide

/-- C4 (evaluation at the failing input).  With a declared length of `2 ^ 63`
and a file of 2 bytes the length test of `Buffer.resolve` compares 2 with
`int(2 ^ 63)`, which is negative: no error is reported although 2 is less than
`2 ^ 63`. -/
theorem C4_signed_length_test :
    intOfUint (2 ^ 63) = -(2 ^ 63) ∧
    ∃ rv, (oneBuffer (2 ^ 63)).Resolve [] (oneFile "m/a.bin" [1, 2] [])
        = Outcome.ret rv none ∧
      rv.Buffers.map (fun b => b.Data.data) = [[1, 2]] := by
  exact ⟨by decide, _, rfl, rfl⟩

/-- C5 (evaluation at the failing input).  With a declared length of 2 and a
file of 3 bytes the resolved buffer keeps the 3 bytes. -/
theorem C5_long_buffer_not_truncated :
    ∃ rv, (oneBuffer 2).Resolve [] (oneFile "m/a.bin" [1, 2, 3] [])
        = Outcome.ret rv none ∧
      rv.Buffers.map (fun b => b.Data.data) = [[1, 2, 3]] :=
  ⟨_, rfl, rfl⟩

/-- C6 (evaluation at the failing input).  `Resolve` never reads its search
path: the result is the one of the empty search path.  With the search path
`["d"]` the buffer of a document loaded from `m` is read from `m/a.bin`, so two
file systems with the same `d/a.bin` give different buffer data, and a file
that exists in `d` only is not found. -/
theorem C6_search_path_is_ignored :
    (∀ (doc : GlTF) (sp : List String) (os : OS), doc.Resolve sp os = doc.Resolve [] os) ∧
    (∃ rv, (oneBuffer 1).Resolve ["d"] (twoDirs [9] [1]) = Outcome.ret rv none ∧
      rv.Buffers.map (fun b => b.Data.data) = [[9]]) ∧
    (∃ rv, (oneBuffer 1).Resolve ["d"] (twoDirs [7] [1]) = Outcome.ret rv none ∧
      rv.Buffers.map (fun b => b.Data.data) = [[7]]) ∧
    (∃ rv, (oneBuffer 1).Resolve ["d"] (oneFile "d/a.bin" [1] [])
      = Outcome.ret rv (some (Error.readFile "m/a.bin"))) :=
  ⟨fun _ _ _ => rfl, ⟨_, rfl, rfl⟩, ⟨_, rfl, rfl⟩, ⟨_, rfl⟩⟩

/-- C7.  When `Resolve` returns no error, each resolved array (`Buffers`,
`BufferViews`, `Accessors`, `Materials`, `Meshes`, `Nodes`, `Animations`,
`Scenes`) has the length of its raw array, each resolved mesh has as many
primitives as its raw mesh, and each resolved animation as many samplers and
channels as its raw animation.  The document without any entity resolves to the
graph without any entity and no error, and no document without buffers makes
`Resolve` return an error. -/
theorem C7_array_lengths_preserved :
    (∀ (doc : GlTF) (sp : List String) (os : OS) (rv : ResolvedGlTF),
      doc.Resolve sp os = Outcome.ret rv none →
      rv.Buffers.length = doc.Buffers.length ∧
      rv.BufferViews.length = doc.BufferViews.length ∧
      rv.Accessors.length = doc.Accessors.length ∧
      rv.Materials.length = doc.Materials.length ∧
      rv.Meshes.length = doc.Meshes.length ∧
      rv.Nodes.length = doc.Nodes.length ∧
      rv.Animations.length = doc.Animations.length ∧
      rv.Scenes.length = doc.Scenes.length ∧
      (∀ (i : Nat) (m : Mesh) (rm : ResolvedMesh), doc.Meshes[i]? = some m →
        rv.Meshes[i]? = some rm →
        rm.Primitives.length = m.Primitives.length) ∧
      (∀ (i : Nat) (a : Animation) (ra : ResolvedAnimation), doc.Animations[i]? = some a →
        rv.Animations[i]? = some ra →
        ra.Samplers.length = a.Samplers.length ∧ ra.Channels.length = a.Channels.length)) ∧
    (∀ (dir : String) (sp : List String) (os : OS),
      ∃ rv, (emptyDocument dir).Resolve sp os = Outcome.ret rv none ∧
        rv.Buffers = [] ∧ rv.BufferViews = [] ∧ rv.Accessors = [] ∧ rv.Materials = [] ∧
        rv.Meshes = [] ∧ rv.Nodes = [] ∧ rv.Animations = [] ∧ rv.Scenes = []) ∧
    (∀ (doc : GlTF) (sp : List String) (os : OS), doc.Buffers = [] →
      ∀ rv e, doc.Resolve sp os ≠ Outcome.ret rv (some e)) := by
  refine ⟨?_, ?_, ?_⟩
  · intro doc sp os rv h
    have ok := Resolve_ok doc sp os rv h
    refine ⟨ok.buffers.length_eq.symm, ok.bufferViews.length_eq.symm,
      ok.accessors.length_eq.symm, ok.materials.length_eq.symm, ok.meshes.length_eq.symm,
      ok.nodes.length_eq.symm, ok.animations.length_eq.symm, ok.scenes.length_eq.symm, ?_, ?_⟩
    · intro i m rm hm hrm
      obtain ⟨rm', hrm', root, _, _, hres⟩ := forall₂_getElem_some ok.meshes i m hm
      rw [hrm] at hrm'
      cases hrm'
      exact (Mesh_resolve_ret hres).2.1
    · intro i a ra ha hra
      obtain ⟨ra', hra', root, _, _, hres⟩ := forall₂_getElem_some ok.animations i a ha
      rw [hra] at hra'
      cases hra'
      exact ⟨(Animation_resolve_ret hres).2.1, (Animation_resolve_ret hres).2.2.1⟩
  · intro dir sp os
    exact ⟨_, rfl, rfl, rfl, rfl, rfl, rfl, rfl, rfl, rfl⟩
  · intro doc sp os hB
    refine Resolve_noErr doc sp os ?_
    intro b hb
    rw [hB] at hb
    cases hb

/-- C7 at the document with one buffer, read from a file of two bytes. -/
theorem C7_array_lengths_preserved_witness :
    (oneBuffer 2).Resolve [] (oneFile "m/a.bin" [1, 2] []) = Outcome.ret oneBufferResolved none ∧
      oneBufferResolved.Buffers.length = (oneBuffer 2).Buffers.length :=
  ⟨rfl, (C7_array_lengths_preserved.1 (oneBuffer 2) [] (oneFile "m/a.bin" [1, 2] [])
    oneBufferResolved rfl).1⟩

/-- C8.  When `Resolve` returns no error and the document names a default scene
`i`, the `Scene` reference of the graph is the reference to `Scenes[i]`, an
element of the resolved scenes that stands for the raw scene `i`; when the
document names no default scene the reference is `nil`. -/
theorem C8_default_scene_reference (doc : GlTF) (sp : List String) (os : OS)
    (rv : ResolvedGlTF) (h : doc.Resolve sp os = Outcome.ret rv none) :
    (∀ i, doc.Scene = some i →
      rv.Scene = some i ∧ i < doc.Scenes.length ∧
      ∃ s rs, doc.Scenes[i]? = some s ∧ rv.Scenes[i]? = some rs ∧ rs.Scene = s) ∧
    (doc.Scene = none → rv.Scene = none) := by
  have ok := Resolve_ok doc sp os rv h
  refine ⟨?_, fun hn => by rw [ok.scene, hn]⟩
  intro i hi
  have hlt := ok.sceneInRange i hi
  refine ⟨by rw [ok.scene, hi], hlt, doc.Scenes[i], ?_⟩
  obtain ⟨rs, hrs, root, _, hres⟩ :=
    forall₂_getElem_some ok.scenes i doc.Scenes[i] (List.getElem?_eq_getElem hlt)
  exact ⟨rs, List.getElem?_eq_getElem hlt, hrs, (Scene_resolve_ret hres).1⟩

/-- C8 at the document with two nodes and the default scene 0. -/
theorem C8_default_scene_reference_witness :
    sceneOfSecondNode.Resolve [] noFiles = Outcome.ret sceneOfSecondNodeResolved none ∧
      sceneOfSecondNode.Scene = some 0 ∧ sceneOfSecondNodeResolved.Scene = some 0 :=
  ⟨rfl, rfl,
    ((C8_default_scene_reference sceneOfSecondNode [] noFiles sceneOfSecondNodeResolved rfl).1
      0 rfl).1⟩

set_option maxRecDepth 8192 in
/-- C9 (counterexample).  A buffer of declared length 1 is read from a file of
one byte into a slice of capacity 512, as `os.ReadFile` allocates it; a view of
offset 0 and length 2 on it resolves without error, and its `Data` has the two
bytes `7, 0` although the `Data` of the buffer has the single byte `7`. -/
theorem C9_view_reaches_past_buffer_data :
    ∃ rv, (oneView 1 0 2).Resolve [] (oneFile "m/a.bin" [7] (List.replicate 511 0))
        = Outcome.ret rv none ∧
      rv.Buffers.map (fun b => b.Data.data) = [[7]] ∧
      rv.BufferViews.map (fun v => (v.Buffer, v.Data.data)) = [(some 0, [7, 0])] :=
  ⟨_, rfl, rfl, rfl⟩

/-- C9 (amended).  When `Resolve` returns no error, the resolved view of a raw
view with buffer index `b`, offset `o` and length `l` refers to the resolved
buffer `b`, and its `Data` are the `l` bytes at the positions `o` to
`o + l - 1` of the backing array of that buffer's `Data` (its bytes followed by
its spare capacity), which reaches that far; they are bytes of the buffer's
`Data` itself whenever `o + l` is at most its length. -/
theorem C9_view_data (doc : GlTF) (sp : List String) (os : OS) (rv : ResolvedGlTF)
    (h : doc.Resolve sp os = Outcome.ret rv none) (i : Nat) (bv : BufferView)
    (hbv : doc.BufferViews[i]? = some bv) (hl : bv.ByteLength < wordSize) :
    ∃ rbv rb, rv.BufferViews[i]? = some rbv ∧ rbv.Buffer = some bv.Buffer ∧
      rv.Buffers[bv.Buffer]? = some rb ∧
      bv.ByteOffset + bv.ByteLength ≤ rb.Data.cap ∧
      rbv.Data.data
        = ((rb.Data.data ++ rb.Data.spare).drop bv.ByteOffset).take bv.ByteLength ∧
      rbv.Data.len = bv.ByteLength ∧
      (bv.ByteOffset + bv.ByteLength ≤ rb.Data.len →
        rbv.Data.data = (rb.Data.data.drop bv.ByteOffset).take bv.ByteLength) := by
  have ok := Resolve_ok doc sp os rv h
  obtain ⟨rbv, hrbv, root, hroot, hres⟩ := forall₂_getElem_some ok.bufferViews i bv hbv
  obtain ⟨_, hbuf, rb, hrb, hslice⟩ := BufferView_resolve_ret hres
  rw [hroot] at hrb
  obtain ⟨hle, hcap, hdata, hlen⟩ := ByteSlice.slice_eq_some hslice
  have hadd := uintAdd_eq_of_le hl hle
  rw [hadd] at hcap hdata hlen
  have hsub : bv.ByteOffset + bv.ByteLength - bv.ByteOffset = bv.ByteLength := by omega
  rw [hsub] at hdata hlen
  refine ⟨rbv, rb, hrbv, hbuf, hrb, hcap, hdata, hlen, ?_⟩
  intro hin
  rw [hdata, List.drop_append_of_le_length (by unfold ByteSlice.len at hin; omega),
    List.take_append_of_le_length]
  unfold ByteSlice.len at hin
  simp only [List.length_drop]
  omega

/-- C9 (amended) at a view of two bytes at offset 1 of a buffer of three. -/
theorem C9_view_data_witness :
    (oneView 3 1 2).Resolve [] (oneFile "m/a.bin" [1, 2, 3] []) = Outcome.ret oneViewResolved none ∧
    (oneView 3 1 2).BufferViews[0]? = some (plainView 0 1 2) ∧
    (plainView 0 1 2).ByteLength < wordSize ∧
    ∃ rbv rb, oneViewResolved.BufferViews[0]? = some rbv ∧
      rbv.Buffer = some (plainView 0 1 2).Buffer ∧
      oneViewResolved.Buffers[(plainView 0 1 2).Buffer]? = some rb ∧
      (plainView 0 1 2).ByteOffset + (plainView 0 1 2).ByteLength ≤ rb.Data.cap ∧
      rbv.Data.data = ((rb.Data.data ++ rb.Data.spare).drop (plainView 0 1 2).ByteOffset).take
        (plainView 0 1 2).ByteLength ∧
      rbv.Data.len = (plainView 0 1 2).ByteLength ∧
      ((plainView 0 1 2).ByteOffset + (plainView 0 1 2).ByteLength ≤ rb.Data.len →
        rbv.Data.data = (rb.Data.data.drop (plainView 0 1 2).ByteOffset).take
          (plainView 0 1 2).ByteLength) :=
  ⟨rfl, rfl, by decide,
    C9_view_data (oneView 3 1 2) [] (oneFile "m/a.bin" [1, 2, 3] []) oneViewResolved rfl 0
      (plainView 0 1 2) rfl (by decide)⟩

/-- C10 (counterexample).  A view of offset 0 and length 3 on a buffer of
declared length 2 whose file holds 3 bytes resolves without error and carries
the 3 bytes; a view of offset `2 ^ 64 - 1` and length 2, whose end wraps around
to 1, makes `Resolve` panic, which is no error return either. -/
theorem C10_view_beyond_declared_length :
    (∃ rv, (oneView 2 0 3).Resolve [] (oneFile "m/a.bin" [1, 2, 3] []) = Outcome.ret rv none ∧
      (oneView 2 0 3).Buffers.map (fun b => b.ByteLength) = [2] ∧
      rv.BufferViews.map (fun v => v.Data.data) = [[1, 2, 3]]) ∧
    (oneView 3 (2 ^ 64 - 1) 2).Resolve [] (oneFile "m/a.bin" [1, 2, 3] []) = Outcome.panic :=
  ⟨⟨_, rfl, rfl, rfl⟩, by decide⟩

/-- C10 (amended).  When every buffer loads, `Resolve` returns no error, whatever
the ranges of the views: a view whose end `offset + length` wraps around below
its offset, or lies beyond the capacity of the bytes read for its buffer, makes
`Resolve` panic.  The declared `ByteLength` of the buffer is not looked at:
`BufferView.resolve` returns the view whenever the buffer exists and the end of
the range neither wraps nor passes the capacity of the buffer's `Data`. -/
theorem C10_view_range_not_validated (doc : GlTF) (sp : List String) (os : OS)
    (hload : doc.buffersLoad os) :
    (∀ rv e, doc.Resolve sp os ≠ Outcome.ret rv (some e)) ∧
    (∀ bv ∈ doc.BufferViews,
      (∀ b data, doc.Buffers[bv.Buffer]? = some b →
        os.ReadFile (doc.meta.defaultSearchPath ++ String.singleton os.Separator ++ b.Uri)
          = some data →
        ¬ (bv.ByteOffset ≤ uintAdd bv.ByteOffset bv.ByteLength ∧
            uintAdd bv.ByteOffset bv.ByteLength ≤ data.cap)) →
      doc.Resolve sp os = Outcome.panic) ∧
    (∀ (bv : BufferView) (root : ResolvedGlTF) (rb : ResolvedBuffer),
      root.Buffers[bv.Buffer]? = some rb →
      bv.ByteOffset ≤ uintAdd bv.ByteOffset bv.ByteLength →
      uintAdd bv.ByteOffset bv.ByteLength ≤ rb.Data.cap →
      ∃ rbv, bv.resolve root = Outcome.ret rbv none) := by
  have hne := Resolve_noErr doc sp os hload
  refine ⟨hne, ?_, ?_⟩
  · intro bv hbv hbad
    refine panic_of_not_ret hne ?_
    intro rv hrv
    have ok := Resolve_ok doc sp os rv hrv
    obtain ⟨rbv, _, root, hroot, hres⟩ := forall₂_mem ok.bufferViews hbv
    obtain ⟨_, _, rb, hrb, hslice⟩ := BufferView_resolve_ret hres
    rw [hroot] at hrb
    obtain ⟨b, hb, _, hread⟩ := ok.buffer_at hrb
    obtain ⟨hle, hcap, _, _⟩ := ByteSlice.slice_eq_some hslice
    exact hbad b rb.Data hb hread ⟨hle, hcap⟩
  · intro bv root rb hrb hle hcap
    unfold BufferView.resolve ByteSlice.slice
    simp only [hrb]
    rw [if_pos ⟨hle, hcap⟩]
    exact ⟨_, rfl⟩

set_option maxRecDepth 8192 in
/-- C10 (amended) at a file of three bytes read into a slice of capacity 512,
as `os.ReadFile` allocates it: a view of 513 bytes passes the capacity and
`Resolve` panics; the view of offset 2 and length 2, which ends one byte beyond
the three bytes read and within the capacity, resolves without error and
carries the bytes `3, 0`. -/
theorem C10_view_range_not_validated_witness :
    (oneView 3 0 513).buffersLoad (oneFile "m/a.bin" [1, 2, 3] (List.replicate 509 0)) ∧
    (oneView 3 0 513).Resolve [] (oneFile "m/a.bin" [1, 2, 3] (List.replicate 509 0))
      = Outcome.panic ∧
    (∀ rv e, (oneView 3 2 2).Resolve [] (oneFile "m/a.bin" [1, 2, 3] (List.replicate 509 0))
      ≠ Outcome.ret rv (some e)) ∧
    (∃ rv, (oneView 3 2 2).Resolve [] (oneFile "m/a.bin" [1, 2, 3] (List.replicate 509 0))
        = Outcome.ret rv none ∧
      rv.Buffers.map (fun b => b.Data.data) = [[1, 2, 3]] ∧
      rv.BufferViews.map (fun v => v.Data.data) = [[3, 0]]) := by
  have hload : ∀ offset length : Nat, (oneView 3 offset length).buffersLoad
      (oneFile "m/a.bin" [1, 2, 3] (List.replicate 509 0)) := by
    intro offset length b hb
    have hb' : b = { Uri := "a.bin", ByteLength := 3, Name := "" } := by
      simpa [oneView, oneBuffer, emptyDocument] using hb
    subst hb'
    exact ⟨{ data := [1, 2, 3], spare := List.replicate 509 0 }, rfl, by decide⟩
  refine ⟨hload 0 513,
    (C10_view_range_not_validated (oneView 3 0 513) []
      (oneFile "m/a.bin" [1, 2, 3] (List.replicate 509 0)) (hload 0 513)).2.1
      (plainView 0 0 513) (List.mem_singleton.mpr rfl) ?_,
    (C10_view_range_not_validated (oneView 3 2 2) []
      (oneFile "m/a.bin" [1, 2, 3] (List.replicate 509 0)) (hload 2 2)).1,
    ⟨_, rfl, rfl, rfl⟩⟩
  intro b data hb hread
  have hb' : b = { Uri := "a.bin", ByteLength := 3, Name := "" } :=
    (Option.some.inj hb).symm
  subst hb'
  have hd : data = { data := [1, 2, 3], spare := List.replicate 509 0 } :=
    (Option.some.inj hread).symm
  subst hd
  simp [ByteSlice.cap, uintAdd, wordSize, plainView]

/-- C11.  `Size` is 1 for the codes 5120 and 5121, 2 for 5122 and 5123, 4 for
5125 and 5126; `Count` is 1, 2, 3, 4, 4, 9, 16 for `SCALAR`, `VEC2`, `VEC3`,
`VEC4`, `MAT2`, `MAT3`, `MAT4`; and for every accessor whose component type is
one of these six codes and whose element type is one of these seven tags
`Stride` returns the product of the two. -/
theorem C11_stride_is_size_times_count :
    (ComponentTypeEnum.Size 5120 = some 1 ∧ ComponentTypeEnum.Size 5121 = some 1 ∧
      ComponentTypeEnum.Size 5122 = some 2 ∧ ComponentTypeEnum.Size 5123 = some 2 ∧
      ComponentTypeEnum.Size 5125 = some 4 ∧ ComponentTypeEnum.Size 5126 = some 4) ∧
    (AccessorTypeEnum.Count "SCALAR" = some 1 ∧ AccessorTypeEnum.Count "VEC2" = some 2 ∧
      AccessorTypeEnum.Count "VEC3" = some 3 ∧ AccessorTypeEnum.Count "VEC4" = some 4 ∧
      AccessorTypeEnum.Count "MAT2" = some 4 ∧ AccessorTypeEnum.Count "MAT3" = some 9 ∧
      AccessorTypeEnum.Count "MAT4" = some 16) ∧
    (∀ a : Accessor,
      a.ComponentType ∈ [5120, 5121, 5122, 5123, 5125, 5126] →
      a.Type_ ∈ ["SCALAR", "VEC2", "VEC3", "VEC4", "MAT2", "MAT3", "MAT4"] →
      ∃ size count, ComponentTypeEnum.Size a.ComponentType = some size ∧
        AccessorTypeEnum.Count a.Type_ = some count ∧ a.Stride = some (size * count)) := by
  refine ⟨by decide, by decide, ?_⟩
  intro a hc ht
  simp only [List.mem_cons, List.mem_singleton, List.not_mem_nil, or_false] at hc ht
  unfold Accessor.Stride
  rcases hc with h | h | h | h | h | h <;> rcases ht with h' | h' | h' | h' | h' | h' | h' <;>
    rw [h, h'] <;> exact ⟨_, _, rfl, rfl, by decide⟩

/-- C11 at the accessor of floats in `VEC3` elements: the stride is 12. -/
theorem C11_stride_is_size_times_count_witness :
    ({ BufferView := 0, ByteOffset := 0, ComponentType := 5126, Normalized := false,
       Count := 3, Type_ := "VEC3", Name := "" } : Accessor).Stride = some 12 := by
  obtain ⟨size, count, h1, h2, h3⟩ := C11_stride_is_size_times_count.2.2
    { BufferView := 0, ByteOffset := 0, ComponentType := 5126, Normalized := false,
      Count := 3, Type_ := "VEC3", Name := "" } (by decide) (by decide)
  have e1 : size = 4 := by
    have : some size = some 4 := h1.symm.trans (by decide)
    exact Option.some.inj this
  have e2 : count = 3 := by
    have : some count = some 3 := h2.symm.trans (by decide)
    exact Option.some.inj this
  rw [h3, e1, e2]
  rfl

/-! ## What the loops that collect or fill an array have built -/

/-- A loop whose body appends one result per element to the list `get` of the
state: at its end the list has grown by the results, in order. -/
theorem forRange_collect {α β σ : Type} (body : Nat → α → σ → Outcome σ) (get : σ → List β)
    (R : α → β → Prop) (P : σ → Prop)
    (hstep : ∀ i x t t', P t → body i x t = Outcome.ret t' none →
      P t' ∧ ∃ r, get t' = get t ++ [r] ∧ R x r) :
    ∀ (xs : List α) (i : Nat) (s s' : σ), P s → forRange body i xs s = Outcome.ret s' none →
      P s' ∧ ∃ rs, get s' = get s ++ rs ∧ List.Forall₂ R xs rs := by
  intro xs
  induction xs with
  | nil =>
    intro i s s' hs h
    simp [forRange] at h
    subst h
    exact ⟨hs, [], by simp, List.Forall₂.nil⟩
  | cons x xs ih =>
    intro i s s' hs h
    unfold forRange at h
    cases hb : body i x s with
    | panic => simp [hb] at h
    | ret v e =>
      cases e with
      | some e => simp [hb] at h
      | none =>
        simp only [hb] at h
        obtain ⟨hv, r, hr, hR⟩ := hstep i x s v hs hb
        obtain ⟨hs', rs, hrs, hall⟩ := ih (i + 1) v s' hv h
        exact ⟨hs', r :: rs, by rw [hrs, hr]; simp, List.Forall₂.cons hR hall⟩

/-- A loop, started at index 0, whose body assigns one result per element to
the slot of its index in the list `get` of the state: at its end the list has
its length of before and holds at every index the result for that index. -/
theorem forRange_fill {α β σ : Type} (body : Nat → α → σ → Outcome σ) (get : σ → List β)
    (R : Nat → α → β → Prop) (P : σ → Prop) (xs : List α) (s s' : σ)
    (hstep : ∀ i x t t', P t → body i x t = Outcome.ret t' none →
      P t' ∧ ∃ r, i < (get t).length ∧ get t' = (get t).set i r ∧ R i x r)
    (hs : P s) (h : forRange body 0 xs s = Outcome.ret s' none) :
    P s' ∧ (get s').length = (get s).length ∧
      ∀ j x, xs[j]? = some x → ∃ r, (get s')[j]? = some r ∧ R j x r := by
  have key := forRange_inv body (fun k t => P t ∧ (get t).length = (get s).length ∧
      ∀ j x, j < k → xs[j]? = some x → ∃ r, (get t)[j]? = some r ∧ R j x r) xs 0 s s'
    ⟨hs, rfl, fun j x hj _ => absurd hj (Nat.not_lt_zero j)⟩ ?_ h
  · obtain ⟨h1, h2, h3⟩ := key
    refine ⟨h1, h2, fun j x hx => h3 j x ?_ hx⟩
    have := lt_length_of_getElem_some hx
    omega
  · intro k x t t' hx hinv hb
    simp only [Nat.zero_add] at hinv hb ⊢
    obtain ⟨hP, hl, hall⟩ := hinv
    obtain ⟨hP', r, hk, hset, hR⟩ := hstep k x t t' hP hb
    refine ⟨hP', by rw [hset, List.length_set]; exact hl, ?_⟩
    intro j y hj hy
    rcases Nat.lt_or_ge j k with hjk | hjk
    · obtain ⟨r', hr', hR'⟩ := hall j y hjk hy
      have hne : k ≠ j := by omega
      exact ⟨r', by rw [hset, List.getElem?_set_ne hne]; exact hr', hR'⟩
    · have hjk' : j = k := by omega
      subst hjk'
      rw [hx] at hy
      cases hy
      exact ⟨r, by rw [hset]; simp [List.getElem?_set_self, hk], hR⟩

/-- A list that holds at every index of `xs` the image of the element there, and
is as long as `xs`, is the image of `xs`. -/
theorem eq_map_of_getElem {α β : Type} (f : α → β) (xs : List α) (ys : List β)
    (hlen : ys.length = xs.length)
    (h : ∀ (j : Nat) (x : α), xs[j]? = some x → ∃ r, ys[j]? = some r ∧ r = f x) :
    ys = xs.map f := by
  apply List.ext_getElem?
  intro j
  rcases Nat.lt_or_ge j xs.length with hj | hj
  · obtain ⟨r, hr, hrf⟩ := h j xs[j] (List.getElem?_eq_getElem hj)
    rw [hr, hrf, List.getElem?_map, List.getElem?_eq_getElem hj]
    rfl
  · rw [List.getElem?_eq_none (by omega), List.getElem?_eq_none (by simpa using hj)]

/-- The children `populate` leaves are the references to the raw children. -/
theorem ResolvedNode.populate_children {rn rn' : ResolvedNode} {root : ResolvedGlTF}
    (h : rn.populate root = Outcome.ret rn' none)
    (hlen : rn.Children.length = rn.Node.Children.length) :
    rn'.Children = rn.Node.Children.map some := by
  unfold ResolvedNode.populate at h
  have key := forRange_fill _ (fun t : ResolvedNode => t.Children)
    (fun _ (c : Nat) (r : Ref) => r = some c) (fun _ => True) _ _ _ ?_ trivial h
  · obtain ⟨_, hl, hall⟩ := key
    exact eq_map_of_getElem some _ _ (hl.trans hlen) hall
  · intro i x t t' _ hb
    cases hp : addrOf root.Nodes.length x with
    | none => simp [hp] at hb
    | some p =>
      simp only [hp] at hb
      cases hst : store t.Children i (some p) with
      | none => simp [hst] at hb
      | some cs =>
        simp only [hst, Outcome.ret.injEq, and_true] at hb
        subst hb
        obtain ⟨hi, rfl⟩ := store_eq_some hst
        have hpx := (addrOf_eq_some hp).2
        exact ⟨trivial, some p, hi, rfl, by rw [hpx]⟩

/-- A key of an association list without repeated keys does not occur among
the entries before its own. -/
theorem key_not_in_take {β : Type} (xs : List (String × β)) (k : Nat) (kv : String × β)
    (hnd : (xs.map Prod.fst).Nodup) (hk : xs[k]? = some kv) :
    ∀ e ∈ xs.take k, e.1 ≠ kv.1 := by
  induction xs generalizing k with
  | nil => simp at hk
  | cons x xs ih =>
    cases k with
    | zero => simp
    | succ k =>
      simp only [List.getElem?_cons_succ] at hk
      simp only [List.map_cons, List.nodup_cons, List.mem_map, not_exists, not_and] at hnd
      intro e he
      simp only [List.take_succ_cons, List.mem_cons] at he
      rcases he with rfl | he
      · intro heq
        exact hnd.1 kv (List.mem_iff_getElem?.mpr ⟨k, hk⟩) heq.symm
      · exact ih k hnd.2 hk e he

/-- Writing a key that the map does not hold yet adds one entry at the end. -/
theorem mapStore_new {β : Type} (m : List (String × β)) (k : String) (v : β)
    (h : ∀ e ∈ m, e.1 ≠ k) : mapStore m k v = m ++ [(k, v)] := by
  unfold mapStore
  have hany : (m.any fun e => e.1 == k) = false := by
    rw [List.any_eq_false]
    intro e he
    simpa using h e he
  rw [hany]
  rfl

/-- What `Primitive.resolve` returns, for an attribute map without repeated
keys: the back pointer, the material and index references of the raw indices,
and one attribute entry per raw entry, with the reference of its raw index. -/
theorem Primitive_resolve_eq {p : Primitive} {root : ResolvedGlTF} {rp : ResolvedPrimitive}
    (h : p.resolve root = Outcome.ret rp none) (hnd : (p.Attributes.map Prod.fst).Nodup) :
    rp.Primitive = p ∧ rp.Material = p.Material.map Int.toNat ∧ rp.Indices = p.Indices ∧
      rp.Attributes = p.Attributes.map (fun kv => (kv.1, some kv.2.toNat)) := by
  unfold Primitive.resolve at h
  obtain ⟨s1, h1, h⟩ := andThen_ret_none h
  obtain ⟨s2, h2, h3⟩ := andThen_ret_none h
  have e1 : s1 = { Primitive := p, Attributes := [], Indices := none,
                   Material := p.Material.map Int.toNat } := by
    cases hm : p.Material with
    | none =>
      simp only [hm, Outcome.ret.injEq, and_true] at h1
      rw [← h1]
      rfl
    | some m =>
      simp only [hm] at h1
      cases hq : addrOfInt root.Materials.length m with
      | none => simp [hq] at h1
      | some q =>
        simp only [hq, Outcome.ret.injEq, and_true] at h1
        rw [← h1, (addrOfInt_eq_some hq).2]
        rfl
  subst e1
  have key := forRange_inv _ (fun k (t : ResolvedPrimitive) =>
      t.Primitive = p ∧ t.Material = p.Material.map Int.toNat ∧ t.Indices = none ∧
      t.Attributes = (p.Attributes.take k).map (fun kv => (kv.1, some kv.2.toNat)))
    _ _ _ _ ?_ ?_ h2
  rotate_left
  · exact ⟨rfl, rfl, rfl, by simp⟩
  · intro k kv t t' hkv hinv hb
    simp only [Nat.zero_add] at hinv hb ⊢
    obtain ⟨i1, i2, i3, i4⟩ := hinv
    cases hq : addrOfInt root.Accessors.length kv.2 with
    | none => simp [hq] at hb
    | some q =>
      simp only [hq, Outcome.ret.injEq, and_true] at hb
      subst hb
      refine ⟨i1, i2, i3, ?_⟩
      simp only
      rw [i4, mapStore_new, (addrOfInt_eq_some hq).2, List.take_succ, hkv]
      · simp
      · intro e he
        obtain ⟨e', he', rfl⟩ := List.mem_map.mp he
        exact key_not_in_take p.Attributes k kv hnd hkv e' he'
  simp only [Nat.zero_add, List.take_length] at key
  obtain ⟨k1, k2, k3, k4⟩ := key
  cases hix : p.Indices with
  | none =>
    simp only [hix, Outcome.ret.injEq, and_true] at h3
    subst h3
    exact ⟨k1, k2, k3, k4⟩
  | some ix =>
    simp only [hix] at h3
    cases hq : addrOf root.Accessors.length ix with
    | none => simp [hq] at h3
    | some q =>
      simp only [hq, Outcome.ret.injEq, and_true] at h3
      subst h3
      exact ⟨k1, k2, by rw [(addrOf_eq_some hq).2], k4⟩

/-- The primitives `Mesh.resolve` returns are the results of `Primitive.resolve`
on the raw primitives, in order. -/
theorem Mesh_resolve_primitives {m : Mesh} {root : ResolvedGlTF} {rm : ResolvedMesh}
    (h : m.resolve root = Outcome.ret rm none) :
    List.Forall₂ (fun p rp => p.resolve root = Outcome.ret rp none) m.Primitives
      rm.Primitives := by
  unfold Mesh.resolve at h
  have key := forRange_collect _ (fun t : ResolvedMesh => t.Primitives)
    (fun p rp => p.resolve root = Outcome.ret rp none) (fun _ => True) ?_ _ _ _ _ trivial h
  · obtain ⟨_, rs, hrs, hall⟩ := key
    simp only [List.nil_append] at hrs
    rw [hrs]
    exact hall
  · intro i x t t' _ hb
    cases hp : x.resolve root with
    | panic => simp [hp] at hb
    | ret rp err =>
      cases err with
      | some err => simp [hp] at hb
      | none =>
        simp only [hp, Outcome.ret.injEq, and_true] at hb
        subst hb
        exact ⟨trivial, rp, rfl, hp⟩

/-- Looking up the key of an entry of an association list without repeated
keys, after a map on the values, finds the image of the value of that entry. -/
theorem lookup_map_of_mem {β γ : Type} (g : β → γ) (xs : List (String × β)) (k : String)
    (v : β) (hnd : (xs.map Prod.fst).Nodup) (hmem : (k, v) ∈ xs) :
    (xs.map (fun kv => (kv.1, g kv.2))).lookup k = some (g v) := by
  induction xs with
  | nil => cases hmem
  | cons x xs ih =>
    simp only [List.map_cons, List.nodup_cons, List.mem_map, not_exists, not_and] at hnd
    rcases List.mem_cons.mp hmem with rfl | hmem
    · simp [List.lookup]
    · have hne : k ≠ x.1 := by
        intro heq
        exact hnd.1 (k, v) hmem heq
      have hbeq : (k == x.1) = false := by simpa using hne
      simp only [List.map_cons, List.lookup, hbeq]
      exact ih hnd.2 hmem

/-- C15.  When `Resolve` returns no error, the resolved primitive at the place
of a raw primitive (whose attribute map, a Go map, has no repeated key) has an
attribute map with the keys of the raw one, which sends each key to the
reference to the resolved accessor its raw index names, an existing accessor;
its `Indices` is the reference to the resolved accessor the raw `indices`
names, or `nil` when the raw field is absent; its `Material` is the reference
to the resolved material the raw `material` names, or `nil` when absent. -/
theorem C15_primitive_references (doc : GlTF) (sp : List String) (os : OS)
    (rv : ResolvedGlTF) (h : doc.Resolve sp os = Outcome.ret rv none) (i j : Nat) (m : Mesh)
    (p : Primitive) (hm : doc.Meshes[i]? = some m) (hp : m.Primitives[j]? = some p)
    (hnd : (p.Attributes.map Prod.fst).Nodup) :
    ∃ rm rp, rv.Meshes[i]? = some rm ∧ rm.Primitives[j]? = some rp ∧
      rp.Attributes.map Prod.fst = p.Attributes.map Prod.fst ∧
      (∀ k v, (k, v) ∈ p.Attributes →
        rp.Attributes.lookup k = some (some v.toNat) ∧
        0 ≤ v ∧ v < (rv.Accessors.length : Int)) ∧
      rp.Indices = p.Indices ∧ (∀ ix, p.Indices = some ix → ix < rv.Accessors.length) ∧
      rp.Material = p.Material.map Int.toNat ∧
      (∀ mt, p.Material = some mt → 0 ≤ mt ∧ mt < (rv.Materials.length : Int)) := by
  have ok := Resolve_ok doc sp os rv h
  obtain ⟨rm, hrm, root, hrM, hrA, hres⟩ := forall₂_getElem_some ok.meshes i m hm
  obtain ⟨rp, hrp, hpres⟩ := forall₂_getElem_some (Mesh_resolve_primitives hres) j p hp
  obtain ⟨_, e2, e3, e4⟩ := Primitive_resolve_eq hpres hnd
  obtain ⟨r1, r2, r3⟩ := Primitive_resolve_ret hpres
  rw [hrM] at r1
  rw [hrA] at r2 r3
  refine ⟨rm, rp, hrm, hrp, ?_, ?_, e3, r3, e2, r1⟩
  · rw [e4, List.map_map]
    rfl
  · intro k v hkv
    exact ⟨by rw [e4]; exact lookup_map_of_mem (fun v => some v.toNat) _ k v hnd hkv,
      r2 (k, v) hkv⟩

/-- What `AnimationSampler.resolve` returns. -/
theorem AnimationSampler_resolve_eq {a : AnimationSampler} {root : ResolvedGlTF}
    {ra : ResolvedAnimationSampler} (h : a.resolve root = Outcome.ret ra none) :
    ra = { AnimationSampler := some a, Input := some a.Input.toNat,
           Output := some a.Output.toNat } := by
  unfold AnimationSampler.resolve at h
  cases hi : addrOfInt root.Accessors.length a.Input with
  | none => simp [hi] at h
  | some i =>
    simp only [hi] at h
    cases ho : addrOfInt root.Accessors.length a.Output with
    | none => simp [ho] at h
    | some o =>
      simp only [ho, Outcome.ret.injEq, and_true] at h
      rw [← h, (addrOfInt_eq_some hi).2, (addrOfInt_eq_some ho).2]

/-- What `AnimationChannel.resolve` returns. -/
theorem AnimationChannel_resolve_eq {c : AnimationChannel} {root : ResolvedGlTF}
    {samplers : List ResolvedAnimationSampler} {rc : ResolvedAnimationChannel}
    (h : c.resolve root samplers = Outcome.ret rc none) :
    rc = { AnimationChannel := some c, Sampler := some c.Sampler,
           Target := { AnimationChannelTarget := some c.Target, Node := c.Target.Node } } := by
  unfold AnimationChannel.resolve at h
  cases hs : addrOf samplers.length c.Sampler with
  | none => simp [hs] at h
  | some q =>
    simp only [hs] at h
    unfold AnimationChannelTarget.resolve at h
    cases ht : c.Target.Node with
    | none =>
      simp only [ht, Outcome.ret.injEq, and_true] at h
      rw [← h, (addrOf_eq_some hs).2]
    | some t =>
      simp only [ht] at h
      cases hp : addrOf root.Nodes.length t with
      | none => simp [hp] at h
      | some p =>
        simp only [hp, Outcome.ret.injEq, and_true] at h
        rw [← h, (addrOf_eq_some hs).2, (addrOf_eq_some hp).2]

/-- What `Animation.resolve` has stored: slot `j` of the samplers is the result
of `AnimationSampler.resolve` on raw sampler `j`, slot `c` of the channels the
result of `AnimationChannel.resolve` on raw channel `c` against the resolved
samplers of this animation. -/
theorem Animation_resolve_slots {a : Animation} {root : ResolvedGlTF}
    {ra : ResolvedAnimation} (h : a.resolve root = Outcome.ret ra none) :
    (∀ (j : Nat) (smp : AnimationSampler), a.Samplers[j]? = some smp →
      ∃ rs, ra.Samplers[j]? = some rs ∧ smp.resolve root = Outcome.ret rs none) ∧
    (∀ (c : Nat) (chn : AnimationChannel), a.Channels[c]? = some chn →
      ∃ rc, ra.Channels[c]? = some rc ∧
        chn.resolve root ra.Samplers = Outcome.ret rc none) := by
  unfold Animation.resolve at h
  obtain ⟨s1, h1, h2⟩ := andThen_ret_none h
  have k1 := forRange_fill _ (fun t : ResolvedAnimation => t.Samplers)
    (fun _ (smp : AnimationSampler) rs => smp.resolve root = Outcome.ret rs none)
    (fun _ => True) _ _ _ ?_ trivial h1
  rotate_left
  · intro i x t t' _ hb
    cases hp : x.resolve root with
    | panic => simp [hp] at hb
    | ret r err =>
      cases err with
      | some err => simp [hp] at hb
      | none =>
        simp only [hp] at hb
        cases hst : store t.Samplers i r with
        | none => simp [hst] at hb
        | some ss =>
          simp only [hst, Outcome.ret.injEq, and_true] at hb
          subst hb
          obtain ⟨hi, rfl⟩ := store_eq_some hst
          exact ⟨trivial, r, hi, rfl, hp⟩
  have k2 := forRange_fill _ (fun t : ResolvedAnimation => t.Channels)
    (fun _ (chn : AnimationChannel) rc => chn.resolve root s1.Samplers = Outcome.ret rc none)
    (fun t => t.Samplers = s1.Samplers) _ _ _ ?_ ?_ h2
  rotate_left
  · intro i x t t' ht hb
    cases hp : x.resolve root t.Samplers with
    | panic => simp [hp] at hb
    | ret r err =>
      cases err with
      | some err => simp [hp] at hb
      | none =>
        simp only [hp] at hb
        cases hst : store t.Channels i r with
        | none => simp [hst] at hb
        | some cs =>
          simp only [hst, Outcome.ret.injEq, and_true] at hb
          subst hb
          obtain ⟨hi, rfl⟩ := store_eq_some hst
          exact ⟨ht, r, hi, rfl, by rw [← ht]; exact hp⟩
  · rfl
  obtain ⟨_, _, hs⟩ := k1
  obtain ⟨hS, _, hc⟩ := k2
  refine ⟨?_, ?_⟩
  · intro j smp hj
    obtain ⟨rs, hrs, hR⟩ := hs j smp hj
    exact ⟨rs, by rw [hS]; exact hrs, hR⟩
  · intro c chn hcn
    obtain ⟨rc, hrc, hR⟩ := hc c chn hcn
    exact ⟨rc, hrc, by rw [hS]; exact hR⟩

/-- C16.  When `Resolve` returns no error, in the resolved animation at the
place of a raw animation: sampler `j` has as `Input` and `Output` the
references to the resolved accessors its raw indices name, existing accessors;
channel `c` has as `Sampler` the reference to the sampler of this same
animation its raw index names, an existing sampler, and as `Target.Node` the
reference to the resolved node the raw target names, an existing node, or
`nil` when the raw target names none. -/
theorem C16_animation_references (doc : GlTF) (sp : List String) (os : OS)
    (rv : ResolvedGlTF) (h : doc.Resolve sp os = Outcome.ret rv none) (i : Nat)
    (a : Animation) (ha : doc.Animations[i]? = some a) :
    ∃ ra, rv.Animations[i]? = some ra ∧
      ra.Samplers.length = a.Samplers.length ∧ ra.Channels.length = a.Channels.length ∧
      (∀ (j : Nat) (smp : AnimationSampler), a.Samplers[j]? = some smp →
        ∃ rs, ra.Samplers[j]? = some rs ∧
          rs.Input = some smp.Input.toNat ∧ rs.Output = some smp.Output.toNat ∧
          (0 ≤ smp.Input ∧ smp.Input < (rv.Accessors.length : Int)) ∧
          (0 ≤ smp.Output ∧ smp.Output < (rv.Accessors.length : Int))) ∧
      (∀ (c : Nat) (chn : AnimationChannel), a.Channels[c]? = some chn →
        ∃ rc, ra.Channels[c]? = some rc ∧
          rc.Sampler = some chn.Sampler ∧ chn.Sampler < ra.Samplers.length ∧
          rc.Target.Node = chn.Target.Node ∧
          (∀ t, chn.Target.Node = some t → t < rv.Nodes.length)) := by
  have ok := Resolve_ok doc sp os rv h
  obtain ⟨ra, hra, root, hrA, hrN, hres⟩ := forall₂_getElem_some ok.animations i a ha
  obtain ⟨_, l1, l2, _, _⟩ := Animation_resolve_ret hres
  obtain ⟨hs, hc⟩ := Animation_resolve_slots hres
  refine ⟨ra, hra, l1, l2, ?_, ?_⟩
  · intro j smp hj
    obtain ⟨rs, hrs, hR⟩ := hs j smp hj
    have e := AnimationSampler_resolve_eq hR
    have r := AnimationSampler_resolve_ret hR
    rw [hrA] at r
    exact ⟨rs, hrs, by rw [e], by rw [e], r.1, r.2⟩
  · intro c chn hcn
    obtain ⟨rc, hrc, hR⟩ := hc c chn hcn
    have e := AnimationChannel_resolve_eq hR
    obtain ⟨r1, r2⟩ := AnimationChannel_resolve_ret hR
    rw [hrN] at r2
    exact ⟨rc, hrc, by rw [e], r1, by rw [e], r2⟩

/-- C18.  For the document of `Test_TriangleWithoutIndices`, loaded from the
directory `m`, and every file of 36 bytes for its buffer, read into a slice of
any spare capacity, `Resolve` with the empty search path returns no error, and
the `Data` at `Scenes[0].Nodes[0].Mesh.Primitives[0].Attributes["POSITION"]
.BufferView` has length 36. -/
theorem C18_triangle_without_indices (bytes spare : List Nat) (hlen : bytes.length = 36) :
    ∃ rv, (triangleWithoutIndices "m").Resolve []
        (oneFile "m/triangleWithoutIndices.bin" bytes spare) = Outcome.ret rv none ∧
      ∃ data, rv.positionData = some data ∧ data.len = 36 := by
  have hbuf : ∀ root : ResolvedGlTF, root.GlTF = triangleWithoutIndices "m" →
      Buffer.resolve { Uri := "triangleWithoutIndices.bin", ByteLength := 36, Name := "" } root
        (oneFile "m/triangleWithoutIndices.bin" bytes spare)
      = Outcome.ret { Buffer := { Uri := "triangleWithoutIndices.bin", ByteLength := 36,
                                  Name := "" },
                      Data := { data := bytes, spare := spare } } none := by
    intro root hroot
    refine Buffer.resolve_noErr_of_load _ root _ _ ?_ ?_
    · rw [hroot]
      show (if ("m" ++ String.singleton '/' ++ "triangleWithoutIndices.bin")
          = "m/triangleWithoutIndices.bin" then some (ByteSlice.mk bytes spare) else none)
        = some (ByteSlice.mk bytes spare)
      rw [if_pos (by decide)]
    · simp only [ByteSlice.len, hlen]
      decide
  have hslice : ByteSlice.slice { data := bytes, spare := spare } 0 (uintAdd 0 36)
      = some { data := ((bytes ++ spare).drop 0).take (36 - 0),
               spare := (bytes ++ spare).drop 36 } := by
    have h36 : uintAdd 0 36 = 36 := by decide
    rw [h36]
    unfold ByteSlice.slice
    rw [if_pos]
    simp only [ByteSlice.cap, hlen]
    omega
  refine ⟨triangleResolved { data := bytes, spare := spare }, ?_,
    { data := ((bytes ++ spare).drop 0).take (36 - 0), spare := (bytes ++ spare).drop 36 },
    rfl, ?_⟩
  · simp only [GlTF.Resolve, triangleWithoutIndices, forRange, appendStep]
    rw [hbuf _ rfl]
    simp only [Outcome.andThen, forRange, appendStep, BufferView.resolve, List.nil_append,
      List.getElem?_cons_zero, hslice]
    rfl
  · simp only [ByteSlice.len, List.drop_zero, List.length_take, List.length_append, hlen]
    omega

/-- C15 at the primitive of the test document. -/
theorem C15_primitive_references_witness :
    (triangleWithoutIndices "m").Resolve [] (oneFile "m/triangleWithoutIndices.bin"
        triangleBytes [])
      = Outcome.ret (triangleResolved { data := triangleBytes, spare := [] }) none ∧
    ∃ rm rp, (triangleResolved { data := triangleBytes, spare := [] }).Meshes[0]? = some rm ∧
      rm.Primitives[0]? = some rp ∧
      rp.Attributes.map Prod.fst = [("POSITION", (0 : Int))].map Prod.fst ∧
      (∀ k v, (k, v) ∈ [("POSITION", (0 : Int))] →
        rp.Attributes.lookup k = some (some v.toNat) ∧ 0 ≤ v ∧
        v < ((triangleResolved { data := triangleBytes, spare := [] }).Accessors.length : Int)) ∧
      rp.Indices = none ∧
      (∀ ix, (none : Option Nat) = some ix →
        ix < (triangleResolved { data := triangleBytes, spare := [] }).Accessors.length) ∧
      rp.Material = (none : Option Int).map Int.toNat ∧
      (∀ mt, (none : Option Int) = some mt → 0 ≤ mt ∧
        mt < ((triangleResolved { data := triangleBytes, spare := [] }).Materials.length : Int)) :=
  ⟨rfl, C15_primitive_references (triangleWithoutIndices "m") []
    (oneFile "m/triangleWithoutIndices.bin" triangleBytes [])
    (triangleResolved { data := triangleBytes, spare := [] }) rfl 0 0
    { Primitives := [{ Attributes := [("POSITION", 0)], Indices := none, Material := none,
                       Mode := none }],
      Name := "" }
    { Attributes := [("POSITION", 0)], Indices := none, Material := none, Mode := none }
    rfl rfl (by decide)⟩

/-- C16 at the animation added to the test document. -/
theorem C16_animation_references_witness :
    animatedTriangle.Resolve [] (oneFile "m/triangleWithoutIndices.bin" triangleBytes [])
      = Outcome.ret animatedTriangleResolved none ∧
    ∃ ra, animatedTriangleResolved.Animations[0]? = some ra ∧
      ra.Samplers.map (fun s => (s.Input, s.Output)) = [(some 0, some 0)] ∧
      ra.Channels.map (fun c => (c.Sampler, c.Target.Node)) = [(some 0, some 0)] := by
  refine ⟨rfl, ?_⟩
  obtain ⟨ra, hra, l1, l2, hs, hc⟩ := C16_animation_references animatedTriangle []
    (oneFile "m/triangleWithoutIndices.bin" triangleBytes []) animatedTriangleResolved rfl 0
    { Channels := [{ Sampler := 0, Target := { Node := some 0, Path := "translation" } }],
      Samplers := [{ Input := 0, Interpolation := "linear", Output := 0 }],
      Name := "" } rfl
  refine ⟨ra, hra, ?_, ?_⟩
  · obtain ⟨rs, hrs, e1, e2, _⟩ := hs 0 _ rfl
    have hl : ra.Samplers.length = 1 := l1
    match hm : ra.Samplers, hl, hrs with
    | [s], _, hrs =>
      simp only [List.getElem?_cons_zero, Option.some.injEq] at hrs
      subst hrs
      simp [e1, e2]
  · obtain ⟨rc, hrc, e1, _, e2, _⟩ := hc 0 _ rfl
    have hl : ra.Channels.length = 1 := l2
    match hm : ra.Channels, hl, hrc with
    | [c], _, hrc =>
      simp only [List.getElem?_cons_zero, Option.some.injEq] at hrc
      subst hrc
      simp [e1, e2]

/-- C18 at the bytes of the three positions of the test document. -/
theorem C18_triangle_without_indices_witness :
    triangleBytes.length = 36 ∧
    ∃ rv, (triangleWithoutIndices "m").Resolve []
        (oneFile "m/triangleWithoutIndices.bin" triangleBytes []) = Outcome.ret rv none ∧
      ∃ data, rv.positionData = some data ∧ data.len = 36 :=
  ⟨rfl, C18_triangle_without_indices triangleBytes [] rfl⟩

/-! ## Where the buffers are read from -/

/-- Two loop bodies that agree on every element of the list, in every state the
invariant `P` holds in, give the same loop. -/
theorem forRange_congr {α σ : Type} (body body' : Nat → α → σ → Outcome σ) (P : σ → Prop) :
    ∀ (xs : List α) (i : Nat) (s : σ), P s →
      (∀ j x t, x ∈ xs → P t →
        body j x t = body' j x t ∧ ∀ t', body j x t = Outcome.ret t' none → P t') →
      forRange body i xs s = forRange body' i xs s := by
  intro xs
  induction xs with
  | nil => intro i s _ _; rfl
  | cons x xs ih =>
    intro i s hs hstep
    obtain ⟨heq, hP⟩ := hstep i x s (List.mem_cons_self x xs) hs
    unfold forRange
    rw [← heq]
    cases hb : body i x s with
    | panic => rfl
    | ret v e =>
      cases e with
      | some e => rfl
      | none =>
        exact ih (i + 1) v (hP v hb)
          (fun j y t hy ht => hstep j y t (List.mem_cons_of_mem x hy) ht)

/-- `Resolve` looks at the file system through the paths of the buffers only:
two file systems with the same separator that agree on these paths give the
same outcome. -/
theorem Resolve_congr_os (doc : GlTF) (sp : List String) (os os' : OS)
    (hsep : os.Separator = os'.Separator)
    (hread : ∀ b ∈ doc.Buffers,
      os.ReadFile (doc.meta.defaultSearchPath ++ String.singleton os.Separator ++ b.Uri)
        = os'.ReadFile (doc.meta.defaultSearchPath ++ String.singleton os.Separator ++ b.Uri)) :
    doc.Resolve sp os = doc.Resolve sp os' := by
  unfold GlTF.Resolve
  have h1 := forRange_congr
    (fun _ => appendStep (fun b root => Buffer.resolve b root os)
      (fun rv rb => { rv with Buffers := rv.Buffers ++ [rb] }))
    (fun _ => appendStep (fun b root => Buffer.resolve b root os')
      (fun rv rb => { rv with Buffers := rv.Buffers ++ [rb] }))
    (fun rv => rv.GlTF = doc) doc.Buffers 0
    { GlTF := doc, Animations := [], Buffers := [], BufferViews := [], Accessors := [],
      Materials := [], Meshes := [], Nodes := [], Scene := none, Scenes := [] } rfl ?_
  · simp only
    rw [h1]
  · intro j b t hb ht
    have hres : Buffer.resolve b t os = Buffer.resolve b t os' := by
      unfold Buffer.resolve Buffer.path
      rw [ht, ← hsep, hread b hb]
    refine ⟨by simp only [appendStep, hres], ?_⟩
    intro t' h'
    unfold appendStep at h'
    cases hr : Buffer.resolve b t os with
    | panic => simp [hr] at h'
    | ret r err =>
      cases err with
      | some err => simp [hr] at h'
      | none =>
        simp only [hr, Outcome.ret.injEq, and_true] at h'
        rw [← h']
        exact ht

/-- What `Buffer.resolve` does when `os.ReadFile` fails on the path of the
buffer: it returns the error of `os.ReadFile` for that path. -/
theorem Buffer_resolve_of_read_error (b : Buffer) (root : ResolvedGlTF) (os : OS)
    (hread : os.ReadFile (root.GlTF.meta.defaultSearchPath ++ String.singleton os.Separator
      ++ b.Uri) = none) :
    b.resolve root os = Outcome.ret { Buffer := b, Data := ByteSlice.nil }
      (some (Error.readFile (root.GlTF.meta.defaultSearchPath ++
        String.singleton os.Separator ++ b.Uri))) := by
  unfold Buffer.resolve Buffer.path
  simp only [hread]

/-- C19.  `FromFilename` stores `filepath.Dir` of the file name as the default
search directory of the document it returns.  `Buffer.resolve` reads the path
made of that directory, the separator and the URI of the buffer: when
`os.ReadFile` returns bytes for that path, enough for the length test, these
bytes are the `Data` of the resolved buffer; when it fails on that path the
result is its error, whatever other files exist.  When `Resolve` with the empty
search path returns no error, the `Data` of each resolved buffer is what
`os.ReadFile` gives for that path; when every buffer loads from its path,
`Resolve` returns such a graph unless it panics.  No other path is looked at:
two file systems that agree on these paths give the same outcome. -/
theorem C19_buffers_read_from_default_directory :
    (∀ (env : LoaderEnv) (name : String) (doc : GlTF),
      FromFilename env name = Except.ok doc → doc.meta.defaultSearchPath = env.Dir name) ∧
    (∀ (b : Buffer) (root : ResolvedGlTF) (os : OS),
      (∀ data : ByteSlice,
        os.ReadFile (root.GlTF.meta.defaultSearchPath ++ String.singleton os.Separator
          ++ b.Uri) = some data →
        intOfUint b.ByteLength ≤ (data.len : Int) →
        b.resolve root os = Outcome.ret { Buffer := b, Data := data } none) ∧
      (os.ReadFile (root.GlTF.meta.defaultSearchPath ++ String.singleton os.Separator
          ++ b.Uri) = none →
        b.resolve root os = Outcome.ret { Buffer := b, Data := ByteSlice.nil }
          (some (Error.readFile (root.GlTF.meta.defaultSearchPath ++
            String.singleton os.Separator ++ b.Uri))))) ∧
    (∀ (doc : GlTF) (os : OS) (rv : ResolvedGlTF),
      doc.Resolve [] os = Outcome.ret rv none →
      ∀ (k : Nat) (b : Buffer), doc.Buffers[k]? = some b →
        ∃ rb, rv.Buffers[k]? = some rb ∧ rb.Buffer = b ∧
          os.ReadFile (doc.meta.defaultSearchPath ++ String.singleton os.Separator ++ b.Uri)
            = some rb.Data) ∧
    (∀ (doc : GlTF) (os : OS),
      (∀ b ∈ doc.Buffers, ∃ data,
        os.ReadFile (doc.meta.defaultSearchPath ++ String.singleton os.Separator ++ b.Uri)
          = some data ∧ intOfUint b.ByteLength ≤ (data.len : Int)) →
      doc.Resolve [] os = Outcome.panic ∨
      ∃ rv, doc.Resolve [] os = Outcome.ret rv none ∧
        ∀ (k : Nat) (b : Buffer), doc.Buffers[k]? = some b →
          ∃ rb, rv.Buffers[k]? = some rb ∧ rb.Buffer = b ∧
            os.ReadFile
                (doc.meta.defaultSearchPath ++ String.singleton os.Separator ++ b.Uri)
              = some rb.Data) ∧
    (∀ (doc : GlTF) (os os' : OS), os.Separator = os'.Separator →
      (∀ b ∈ doc.Buffers,
        os.ReadFile (doc.meta.defaultSearchPath ++ String.singleton os.Separator ++ b.Uri)
          = os'.ReadFile
              (doc.meta.defaultSearchPath ++ String.singleton os.Separator ++ b.Uri)) →
      doc.Resolve [] os = doc.Resolve [] os') := by
  have hok : ∀ (doc : GlTF) (os : OS) (rv : ResolvedGlTF),
      doc.Resolve [] os = Outcome.ret rv none →
      ∀ (k : Nat) (b : Buffer), doc.Buffers[k]? = some b →
        ∃ rb, rv.Buffers[k]? = some rb ∧ rb.Buffer = b ∧
          os.ReadFile (doc.meta.defaultSearchPath ++ String.singleton os.Separator ++ b.Uri)
            = some rb.Data := by
    intro doc os rv h k b hb
    have ok := Resolve_ok doc [] os rv h
    obtain ⟨rb, hrb, root, hroot, hres⟩ := forall₂_getElem_some ok.buffers k b hb
    obtain ⟨h1, h2, _⟩ := Buffer_resolve_ret hres
    rw [hroot] at h2
    exact ⟨rb, hrb, h1, h2⟩
  refine ⟨?_, ?_, hok, ?_,
    fun doc os os' hsep hread => Resolve_congr_os doc [] os os' hsep hread⟩
  · intro env name doc h
    unfold FromFilename at h
    cases ho : env.Open name with
    | none => simp [ho] at h
    | some f =>
      simp only [ho] at h
      cases hf : FromFile env f with
      | error err => simp [hf] at h
      | ok root =>
        simp only [hf, Except.ok.injEq] at h
        rw [← h]
  · intro b root os
    exact ⟨fun data hread hlen => Buffer.resolve_noErr_of_load b root os data hread hlen,
      fun hread => Buffer_resolve_of_read_error b root os hread⟩
  · intro doc os hload
    cases hres : doc.Resolve [] os with
    | panic => exact Or.inl rfl
    | ret rv err =>
      cases err with
      | some e => exact absurd hres (Resolve_noErr doc [] os hload rv e)
      | none => exact Or.inr ⟨rv, rfl, hok doc os rv hres⟩

set_option maxRecDepth 8192 in
/-- C19 at the test document, loaded from `dir/scene.gltf`, its file of 36
bytes being read into a slice of capacity 512: the buffer is read from
`dir/triangleWithoutIndices.bin` and carries the bytes of that file; a file of
that name in another directory is not read, the result being the error of
`os.ReadFile` on the path in `dir`; and a file system with other files besides
gives the same outcome. -/
theorem C19_buffers_read_from_default_directory_witness :
    FromFilename (oneDocument (triangleWithoutIndices "")) "dir/scene.gltf"
      = Except.ok (triangleWithoutIndices "dir") ∧
    (triangleWithoutIndices "dir").meta.defaultSearchPath = "dir" ∧
    (∃ rv rb, (triangleWithoutIndices "dir").Resolve []
          (oneFile "dir/triangleWithoutIndices.bin" triangleBytes (List.replicate 476 0))
        = Outcome.ret rv none ∧
      rv.Buffers[0]? = some rb ∧
      rb.Buffer = { Uri := "triangleWithoutIndices.bin", ByteLength := 36, Name := "" } ∧
      (oneFile "dir/triangleWithoutIndices.bin" triangleBytes (List.replicate 476 0)).ReadFile
          "dir/triangleWithoutIndices.bin" = some rb.Data ∧
      rb.Data.data = triangleBytes) ∧
    (∃ rv, (triangleWithoutIndices "dir").Resolve []
          (oneFile "m/triangleWithoutIndices.bin" triangleBytes (List.replicate 476 0))
        = Outcome.ret rv (some (Error.readFile "dir/triangleWithoutIndices.bin")) ∧
      rv.Buffers = []) ∧
    (triangleWithoutIndices "dir").Resolve []
        (oneFile "dir/triangleWithoutIndices.bin" triangleBytes [])
      = (triangleWithoutIndices "dir").Resolve []
        { Separator := '/',
          ReadFile := fun p =>
            if p = "dir/triangleWithoutIndices.bin" then
              some { data := triangleBytes, spare := [] }
            else some { data := [1], spare := [] } } := by
  have hrun : ∃ rv, (triangleWithoutIndices "dir").Resolve []
        (oneFile "dir/triangleWithoutIndices.bin" triangleBytes (List.replicate 476 0))
      = Outcome.ret rv none := ⟨_, rfl⟩
  obtain ⟨rv, hrv⟩ := hrun
  obtain ⟨rb, hrb, hb, hread⟩ :=
    C19_buffers_read_from_default_directory.2.2.1 (triangleWithoutIndices "dir")
      (oneFile "dir/triangleWithoutIndices.bin" triangleBytes (List.replicate 476 0)) rv hrv 0
      { Uri := "triangleWithoutIndices.bin", ByteLength := 36, Name := "" } rfl
  have hdata : rb.Data = { data := triangleBytes, spare := List.replicate 476 0 } :=
    (Option.some.inj hread).symm
  exact ⟨rfl,
    C19_buffers_read_from_default_directory.1 (oneDocument (triangleWithoutIndices ""))
      "dir/scene.gltf" (triangleWithoutIndices "dir") rfl,
    ⟨rv, rb, hrv, hrb, hb, hread, by rw [hdata]⟩,
    ⟨_, rfl, rfl⟩,
    C19_buffers_read_from_default_directory.2.2.2.2 (triangleWithoutIndices "dir") _ _ rfl
      (fun b hb => by
        have hb' : b = { Uri := "triangleWithoutIndices.bin", ByteLength := 36, Name := "" } :=
          List.mem_singleton.mp hb
        subst hb'
        rfl)⟩

/-! ## What a run of `Resolve` that returns an error has done -/

theorem andThen_ret_err {σ : Type} {o : Outcome σ} {k : σ → Outcome σ} {s' : σ} {e : Error}
    (h : o.andThen k = Outcome.ret s' (some e)) (hk : ∀ s, (k s).NoErr) :
    o = Outcome.ret s' (some e) := by
  cases o with
  | panic => simp [Outcome.andThen] at h
  | ret v err =>
    cases err with
    | none =>
      simp only [Outcome.andThen] at h
      exact absurd h (hk v s' e)
    | some err => simpa [Outcome.andThen] using h

/-- An appending loop that returns an error has resolved the elements before
the failing one, in order, and returns the state they were appended to. -/
theorem forRange_appendStep_err {α β : Type} (f : α → ResolvedGlTF → Outcome β)
    (push : ResolvedGlTF → β → ResolvedGlTF) (get : ResolvedGlTF → List β)
    (erase : ResolvedGlTF → ResolvedGlTF)
    (hget : ∀ rv r, get (push rv r) = get rv ++ [r])
    (herase : ∀ rv r, erase (push rv r) = erase rv) :
    ∀ (xs : List α) (i : Nat) (s s' : ResolvedGlTF) (e : Error),
      forRange (fun _ => appendStep f push) i xs s = Outcome.ret s' (some e) →
      erase s' = erase s ∧ ∃ rs pre x post r0, xs = pre ++ x :: post ∧ get s' = get s ++ rs ∧
        List.Forall₂ (fun x r => ∃ rv, erase rv = erase s ∧ f x rv = Outcome.ret r none)
          pre rs ∧
        ∃ rv, erase rv = erase s ∧ f x rv = Outcome.ret r0 (some e) := by
  intro xs
  induction xs with
  | nil =>
    intro i s s' e h
    simp [forRange] at h
  | cons x xs ih =>
    intro i s s' e h
    unfold forRange at h
    cases hb : f x s with
    | panic => simp [appendStep, hb] at h
    | ret r err =>
      cases err with
      | some err =>
        simp only [appendStep, hb, Outcome.ret.injEq, Option.some.injEq] at h
        obtain ⟨rfl, rfl⟩ := h
        exact ⟨rfl, [], [], x, xs, r, rfl, by simp, List.Forall₂.nil, s, rfl, hb⟩
      | none =>
        simp only [appendStep, hb] at h
        obtain ⟨he, rs, pre, y, post, r0, hxs, hrs, hall, rv, hrv, hres⟩ :=
          ih (i + 1) (push s r) s' e h
        refine ⟨by rw [he, herase], r :: rs, x :: pre, y, post, r0, by rw [hxs]; rfl,
          by rw [hrs, hget]; simp, ?_, rv, by rw [hrv, herase], hres⟩
        refine List.Forall₂.cons ⟨s, rfl, hb⟩ (hall.imp ?_)
        rintro a b ⟨rv', hrv', hab⟩
        exact ⟨rv', by rw [hrv', herase], hab⟩

theorem Buffer_resolve_err {b : Buffer} {root : ResolvedGlTF} {os : OS} {rb : ResolvedBuffer}
    {e : Error} (h : b.resolve root os = Outcome.ret rb (some e)) :
    root.GlTF.bufferFails os b e := by
  unfold Buffer.resolve Buffer.path at h
  unfold GlTF.bufferFails
  cases hr : os.ReadFile (root.GlTF.meta.defaultSearchPath ++ String.singleton os.Separator ++
      b.Uri) with
  | none =>
    simp only [hr, Outcome.ret.injEq, Option.some.injEq] at h
    exact Or.inl ⟨rfl, h.2.symm⟩
  | some data =>
    simp only [hr] at h
    by_cases hlt : (data.len : Int) < intOfUint b.ByteLength
    · simp only [hlt, if_true, Outcome.ret.injEq, Option.some.injEq] at h
      exact Or.inr ⟨data, rfl, hlt, h.2.symm⟩
    · simp [hlt] at h

theorem Buffer_resolve_not_panic (b : Buffer) (root : ResolvedGlTF) (os : OS) :
    b.resolve root os ≠ Outcome.panic := by
  unfold Buffer.resolve
  split
  · simp
  · split <;> simp

/-- The steps of `Resolve` after the buffers never return an error. -/
theorem Resolve_err_from_buffers (doc : GlTF) (sp : List String) (os : OS)
    (rv : ResolvedGlTF) (e : Error) (h : doc.Resolve sp os = Outcome.ret rv (some e)) :
    forRange (fun _ => appendStep (fun b root => Buffer.resolve b root os)
        (fun rv rb => { rv with Buffers := rv.Buffers ++ [rb] })) 0 doc.Buffers
      { GlTF := doc, Animations := [], Buffers := [], BufferViews := [], Accessors := [],
        Materials := [], Meshes := [], Nodes := [], Scene := none, Scenes := [] }
      = Outcome.ret rv (some e) := by
  unfold GlTF.Resolve at h
  refine andThen_ret_err h ?_
  intro s1
  refine andThen_noErr ?_ (fun s2 _ => andThen_noErr ?_
    (fun s3 _ => andThen_noErr ?_ (fun s4 _ => andThen_noErr ?_ (fun s5 _ =>
    andThen_noErr ?_ (fun s6 _ => andThen_noErr ?_ (fun s7 _ => andThen_noErr ?_
    (fun s8 _ => ?_)))))))
  · exact forRange_appendStep_noErr _ _ BufferView_resolve_noErr _ _ _
  · exact forRange_appendStep_noErr _ _ Accessor_resolve_noErr _ _ _
  · exact forRange_appendStep_noErr _ _ Material_resolve_noErr _ _ _
  · exact forRange_appendStep_noErr _ _ Mesh_resolve_noErr _ _ _
  · exact forRange_appendStep_noErr _ _ Node_resolve_noErr _ _ _
  · refine forRange_noErr _ (fun _ => True) _ _ _ trivial ?_
    intro j x t _ _
    refine ⟨?_, fun _ _ => trivial⟩
    intro v e
    split
    · simp
    · split <;> simp
  · exact forRange_appendStep_noErr _ _ Animation_resolve_noErr _ _ _
  · refine andThen_noErr ?_ (fun s9 _ => ?_)
    · exact forRange_appendStep_noErr _ _ Scene_resolve_noErr _ _ _
    · intro v e
      split
      · simp
      · split <;> simp

theorem forRange_appendStep_not_panic {α β : Type} (f : α → ResolvedGlTF → Outcome β)
    (push : ResolvedGlTF → β → ResolvedGlTF) (hf : ∀ x rv, f x rv ≠ Outcome.panic) :
    ∀ (xs : List α) (i : Nat) (s : ResolvedGlTF),
      forRange (fun _ => appendStep f push) i xs s ≠ Outcome.panic := by
  intro xs
  induction xs with
  | nil => intro i s; simp [forRange]
  | cons x xs ih =>
    intro i s
    unfold forRange
    cases hb : f x s with
    | panic => exact absurd hb (hf x s)
    | ret r err =>
      cases err with
      | some err => simp [appendStep, hb]
      | none =>
        simp only [appendStep, hb]
        exact ih (i + 1) _

/-- A buffer cannot both load and fail to load. -/
theorem bufferFails_not_loads {doc : GlTF} {os : OS} {b : Buffer} {e : Error}
    (hf : doc.bufferFails os b e) (data : ByteSlice)
    (hr : os.ReadFile (doc.meta.defaultSearchPath ++ String.singleton os.Separator ++ b.Uri)
      = some data) (hl : intOfUint b.ByteLength ≤ (data.len : Int)) : False := by
  rcases hf with ⟨hn, _⟩ | ⟨d, hd, hlt, _⟩
  · rw [hn] at hr
    cases hr
  · rw [hd] at hr
    cases hr
    omega

/-- The shape of the graph `Resolve` returns with an error. -/
theorem Resolve_err_shape (doc : GlTF) (sp : List String) (os : OS) (rv : ResolvedGlTF)
    (e : Error) (h : doc.Resolve sp os = Outcome.ret rv (some e)) :
    (rv.GlTF = doc ∧ rv.BufferViews = [] ∧ rv.Accessors = [] ∧ rv.Materials = [] ∧
      rv.Meshes = [] ∧ rv.Nodes = [] ∧ rv.Animations = [] ∧ rv.Scenes = [] ∧
      rv.Scene = none) ∧
    (∃ b, doc.Buffers[rv.Buffers.length]? = some b ∧ doc.bufferFails os b e) ∧
    (∀ (j : Nat) (b : Buffer), j < rv.Buffers.length → doc.Buffers[j]? = some b →
      ∃ data, os.ReadFile (doc.meta.defaultSearchPath ++ String.singleton os.Separator ++ b.Uri)
          = some data ∧ intOfUint b.ByteLength ≤ (data.len : Int) ∧
        rv.Buffers[j]? = some { Buffer := b, Data := data }) := by
  have h1 := Resolve_err_from_buffers doc sp os rv e h
  obtain ⟨he, rs, pre, x, post, r0, hxs, hrs, hall, root, hroot, hres⟩ :=
    forRange_appendStep_err (fun b root => Buffer.resolve b root os)
      (fun rv rb => { rv with Buffers := rv.Buffers ++ [rb] }) (fun rv => rv.Buffers)
      (fun rv => { rv with Buffers := [] }) (fun _ _ => rfl) (fun _ _ => rfl) _ _ _ _ _ h1
  simp only [ResolvedGlTF.mk.injEq, true_and, List.nil_append] at he hrs hroot
  obtain ⟨g1, g2, g3, g4, g5, g6, g7, g8, g9⟩ := he
  have hlen : rv.Buffers.length = pre.length := by rw [hrs]; exact hall.length_eq.symm
  refine ⟨⟨g1, g3, g4, g5, g6, g7, g2, g9, g8⟩, ⟨x, ?_, ?_⟩, ?_⟩
  · rw [hlen, hxs, List.getElem?_append_right (Nat.le_refl _)]
    simp
  · have := Buffer_resolve_err hres
    rw [hroot.1] at this
    exact this
  · intro j b hj hb
    rw [hlen] at hj
    have hb' : pre[j]? = some b := by
      rw [hxs, List.getElem?_append_left hj] at hb
      exact hb
    obtain ⟨rb, hrb, root', hroot', hres'⟩ := forall₂_getElem_some hall j b hb'
    obtain ⟨e1, e2, e3⟩ := Buffer_resolve_ret hres'
    simp only [ResolvedGlTF.mk.injEq, true_and] at hroot'
    rw [hroot'.1] at e2
    refine ⟨rb.Data, e2, e3, ?_⟩
    rw [hrs, hrb, ← e1]

/-- `Resolve` returns an error as soon as one buffer fails to load. -/
theorem Resolve_err_of_bufferFails (doc : GlTF) (sp : List String) (os : OS) (b : Buffer)
    (e : Error) (hb : b ∈ doc.Buffers) (hf : doc.bufferFails os b e) :
    ∃ rv e', doc.Resolve sp os = Outcome.ret rv (some e') := by
  cases ho : forRange (fun _ => appendStep (fun b root => Buffer.resolve b root os)
      (fun rv rb => { rv with Buffers := rv.Buffers ++ [rb] })) 0 doc.Buffers
    { GlTF := doc, Animations := [], Buffers := [], BufferViews := [], Accessors := [],
      Materials := [], Meshes := [], Nodes := [], Scene := none, Scenes := [] } with
  | panic =>
    exact absurd ho (forRange_appendStep_not_panic _ _
      (fun x rv => Buffer_resolve_not_panic x rv os) _ _ _)
  | ret s err =>
    cases err with
    | some e' =>
      refine ⟨s, e', ?_⟩
      unfold GlTF.Resolve
      simp only
      rw [ho]
      rfl
    | none =>
      exfalso
      obtain ⟨_, rs, _, hall⟩ :=
        forRange_appendStep_ret (fun b root => Buffer.resolve b root os)
          (fun rv rb => { rv with Buffers := rv.Buffers ++ [rb] }) (fun rv => rv.Buffers)
          (fun rv => { rv with Buffers := [] }) (fun _ _ => rfl) (fun _ _ => rfl) _ _ _ _ ho
      obtain ⟨rb, _, root, hroot, hres⟩ := forall₂_mem hall hb
      obtain ⟨_, e2, e3⟩ := Buffer_resolve_ret hres
      simp only [ResolvedGlTF.mk.injEq, true_and] at hroot
      rw [hroot.1] at e2
      exact bufferFails_not_loads hf rb.Data e2 e3

/-- C17.  When `Resolve` returns an error it returns a graph with it, whose
`Buffers` holds the buffers resolved before the failing one, which all loaded,
in order, the failing one being the raw buffer at the index `len(Buffers)`; all
other arrays are empty and the `Scene` reference is `nil` (the failing phase is
always the one of the buffers, no other step builds an error).  `Resolve`
returns an error whenever a buffer fails to load; if buffer `k` is unreadable
and the buffers before it load, `Buffers` has length `k`. -/
theorem C17_partial_graph_on_error (doc : GlTF) (sp : List String) (os : OS) :
    (∀ (rv : ResolvedGlTF) (e : Error), doc.Resolve sp os = Outcome.ret rv (some e) →
      (rv.GlTF = doc ∧ rv.BufferViews = [] ∧ rv.Accessors = [] ∧ rv.Materials = [] ∧
        rv.Meshes = [] ∧ rv.Nodes = [] ∧ rv.Animations = [] ∧ rv.Scenes = [] ∧
        rv.Scene = none) ∧
      (∃ b, doc.Buffers[rv.Buffers.length]? = some b ∧ doc.bufferFails os b e) ∧
      (∀ (j : Nat) (b : Buffer), j < rv.Buffers.length → doc.Buffers[j]? = some b →
        ∃ data,
          os.ReadFile (doc.meta.defaultSearchPath ++ String.singleton os.Separator ++ b.Uri)
            = some data ∧ intOfUint b.ByteLength ≤ (data.len : Int) ∧
          rv.Buffers[j]? = some { Buffer := b, Data := data })) ∧
    (∀ (b : Buffer) (e : Error), b ∈ doc.Buffers → doc.bufferFails os b e →
      ∃ rv e', doc.Resolve sp os = Outcome.ret rv (some e')) ∧
    (∀ (k : Nat) (b : Buffer), doc.Buffers[k]? = some b →
      os.ReadFile (doc.meta.defaultSearchPath ++ String.singleton os.Separator ++ b.Uri)
        = none →
      (∀ (j : Nat) (b' : Buffer), j < k → doc.Buffers[j]? = some b' →
        ∃ data,
          os.ReadFile (doc.meta.defaultSearchPath ++ String.singleton os.Separator ++ b'.Uri)
            = some data ∧ intOfUint b'.ByteLength ≤ (data.len : Int)) →
      ∃ rv, doc.Resolve sp os = Outcome.ret rv (some (Error.readFile
          (doc.meta.defaultSearchPath ++ String.singleton os.Separator ++ b.Uri))) ∧
        rv.Buffers.length = k ∧ rv.BufferViews = [] ∧ rv.Accessors = [] ∧
        rv.Materials = [] ∧ rv.Meshes = [] ∧ rv.Nodes = [] ∧ rv.Animations = [] ∧
        rv.Scenes = [] ∧ rv.Scene = none) := by
  refine ⟨fun rv e h => Resolve_err_shape doc sp os rv e h,
    fun b e hb hf => Resolve_err_of_bufferFails doc sp os b e hb hf, ?_⟩
  intro k b hb hnone hbefore
  obtain ⟨rv, e', hres⟩ := Resolve_err_of_bufferFails doc sp os b _
    (List.mem_iff_getElem?.mpr ⟨k, hb⟩) (Or.inl ⟨hnone, rfl⟩)
  obtain ⟨⟨_, s2, s3, s4, s5, s6, s7, s8, s9⟩, ⟨bm, hbm, hfm⟩, hprev⟩ :=
    Resolve_err_shape doc sp os rv e' hres
  have hk : rv.Buffers.length = k := by
    rcases Nat.lt_trichotomy rv.Buffers.length k with hlt | heq | hgt
    · obtain ⟨data, hd, hl⟩ := hbefore rv.Buffers.length bm hlt hbm
      exact absurd (bufferFails_not_loads hfm data hd hl) id
    · exact heq
    · obtain ⟨data, hd, _⟩ := hprev k b hgt hb
      rw [hnone] at hd
      cases hd
  rw [hk, hb] at hbm
  cases hbm
  have he : e' = Error.readFile
      (doc.meta.defaultSearchPath ++ String.singleton os.Separator ++ b.Uri) := by
    rcases hfm with ⟨_, he⟩ | ⟨d, hd, _⟩
    · exact he
    · rw [hnone] at hd
      cases hd
  subst he
  exact ⟨rv, hres, hk, s2, s3, s4, s5, s6, s7, s8, s9⟩

/-- C17 at the document with two buffers whose second file does not exist. -/
theorem C17_partial_graph_on_error_witness :
    twoBuffers.Resolve [] (oneFile "m/a.bin" [1] [])
      = Outcome.ret twoBuffersPartial (some (Error.readFile "m/b.bin")) ∧
    twoBuffersPartial.Buffers.length = 1 ∧ twoBuffersPartial.BufferViews = [] ∧
    twoBuffersPartial.Scene = none ∧
    ∃ b, twoBuffers.Buffers[twoBuffersPartial.Buffers.length]? = some b ∧
      twoBuffers.bufferFails (oneFile "m/a.bin" [1] []) b (Error.readFile "m/b.bin") :=
  ⟨rfl, rfl, rfl, rfl,
    ((C17_partial_graph_on_error twoBuffers [] (oneFile "m/a.bin" [1] [])).1
      twoBuffersPartial (Error.readFile "m/b.bin") rfl).2.1⟩

/-! ## `Resolve` does not read the codes of the accessors -/

theorem forRange_map {α α' σ σ' : Type} (φ : σ → σ') (ψ : α → α')
    (body : Nat → α → σ → Outcome σ) (body' : Nat → α' → σ' → Outcome σ')
    (hcomm : ∀ i x s, body' i (ψ x) (φ s) = (body i x s).map φ) :
    ∀ (xs : List α) (i : Nat) (s : σ),
      forRange body' i (xs.map ψ) (φ s) = (forRange body i xs s).map φ := by
  intro xs
  induction xs with
  | nil => intro i s; rfl
  | cons x xs ih =>
    intro i s
    simp only [List.map_cons]
    unfold forRange
    rw [hcomm]
    cases hb : body i x s with
    | panic => rfl
    | ret v e =>
      cases e with
      | some e => rfl
      | none => exact ih (i + 1) v

theorem andThen_map {σ σ' : Type} (φ : σ → σ') {o : Outcome σ} {o' : Outcome σ'}
    {k : σ → Outcome σ} {k' : σ' → Outcome σ'} (ho : o' = o.map φ)
    (hk : ∀ s, k' (φ s) = (k s).map φ) : o'.andThen k' = (o.andThen k).map φ := by
  subst ho
  cases o with
  | panic => rfl
  | ret v e =>
    cases e with
    | some e => rfl
    | none => exact hk v

theorem appendStep_map {α α' β β' : Type} (φ : ResolvedGlTF → ResolvedGlTF) (ρ : β → β')
    (f : α → ResolvedGlTF → Outcome β) (f' : α' → ResolvedGlTF → Outcome β')
    (push : ResolvedGlTF → β → ResolvedGlTF) (push' : ResolvedGlTF → β' → ResolvedGlTF)
    (x : α) (x' : α') (t : ResolvedGlTF)
    (hf : f' x' (φ t) = (f x t).map ρ) (hpush : ∀ r, push' (φ t) (ρ r) = φ (push t r)) :
    appendStep f' push' x' (φ t) = (appendStep f push x t).map φ := by
  unfold appendStep
  rw [hf]
  cases f x t with
  | panic => rfl
  | ret r e =>
    cases e with
    | some e => rfl
    | none =>
      simp only [Outcome.map]
      rw [hpush]

theorem Outcome.map_id_eq {α : Type} (o : Outcome α) : o.map id = o := by
  cases o <;> rfl

/-- `Mesh.resolve` looks at the graph through the lengths of `Materials` and
`Accessors` only. -/
theorem Mesh_resolve_congr (m : Mesh) (root root' : ResolvedGlTF)
    (h1 : root'.Materials.length = root.Materials.length)
    (h2 : root'.Accessors.length = root.Accessors.length) :
    m.resolve root' = m.resolve root := by
  unfold Mesh.resolve Primitive.resolve
  simp only [h1, h2]

/-- `Animation.resolve` looks at the graph through the lengths of `Accessors`
and `Nodes` only. -/
theorem Animation_resolve_congr (a : Animation) (root root' : ResolvedGlTF)
    (h1 : root'.Accessors.length = root.Accessors.length)
    (h2 : root'.Nodes.length = root.Nodes.length) :
    a.resolve root' = a.resolve root := by
  unfold Animation.resolve AnimationSampler.resolve AnimationChannel.resolve
    AnimationChannelTarget.resolve
  simp only [h1, h2]

/-- The body of the second loop over the nodes commutes with the replacement
of the accessors. -/
theorem populateStep_map (g : Accessor → Accessor) (i : Nat) (s : ResolvedGlTF) :
    (match (s.mapAccessors g).Nodes[i]? with
      | none => Outcome.panic
      | some n =>
        match n.populate (s.mapAccessors g) with
        | Outcome.panic => Outcome.panic
        | Outcome.ret n' _ =>
          Outcome.ret { s.mapAccessors g with Nodes := (s.mapAccessors g).Nodes.set i n' } none)
    = Outcome.map (fun rv : ResolvedGlTF => rv.mapAccessors g)
      (match s.Nodes[i]? with
        | none => Outcome.panic
        | some n =>
          match n.populate s with
          | Outcome.panic => Outcome.panic
          | Outcome.ret n' _ => Outcome.ret { s with Nodes := s.Nodes.set i n' } none) := by
  have e1 : (s.mapAccessors g).Nodes = s.Nodes := rfl
  have e2 : ∀ n : ResolvedNode, n.populate (s.mapAccessors g) = n.populate s := fun _ => rfl
  rw [e1]
  simp only [e2]
  cases s.Nodes[i]? with
  | none => rfl
  | some n =>
    dsimp only
    cases hp : n.populate s with
    | panic => rfl
    | ret v e => rfl

/-- Replacing the accessors of a document by accessors with the same
`BufferView` replaces them in the outcome of `Resolve` and changes nothing
else. -/
theorem Resolve_mapAccessors (doc : GlTF) (sp : List String) (os : OS)
    (g : Accessor → Accessor) (hg : ∀ a, (g a).BufferView = a.BufferView) :
    (doc.mapAccessors g).Resolve sp os
      = (doc.Resolve sp os).map (fun rv => rv.mapAccessors g) := by
  unfold GlTF.Resolve
  refine andThen_map (fun rv : ResolvedGlTF => rv.mapAccessors g) ?_ ?_
  · have := forRange_map (fun rv : ResolvedGlTF => rv.mapAccessors g) (id : Buffer → Buffer)
      (fun _ => appendStep (fun b root => Buffer.resolve b root os)
        (fun rv rb => { rv with Buffers := rv.Buffers ++ [rb] }))
      (fun _ => appendStep (fun b root => Buffer.resolve b root os)
        (fun rv rb => { rv with Buffers := rv.Buffers ++ [rb] }))
      (fun i x s => appendStep_map (fun rv : ResolvedGlTF => rv.mapAccessors g) id _ _ _ _ x x s
        (by rw [Outcome.map_id_eq]; rfl) (fun r => rfl)) doc.Buffers 0
      { GlTF := doc, Animations := [], Buffers := [], BufferViews := [], Accessors := [],
        Materials := [], Meshes := [], Nodes := [], Scene := none, Scenes := [] }
    rw [List.map_id] at this
    exact this
  intro s1
  dsimp only
  refine andThen_map (fun rv : ResolvedGlTF => rv.mapAccessors g) ?_ ?_
  · have := forRange_map (fun rv : ResolvedGlTF => rv.mapAccessors g)
      (id : BufferView → BufferView)
      (fun _ => appendStep BufferView.resolve
        (fun rv r => { rv with BufferViews := rv.BufferViews ++ [r] }))
      (fun _ => appendStep BufferView.resolve
        (fun rv r => { rv with BufferViews := rv.BufferViews ++ [r] }))
      (fun i x s => appendStep_map (fun rv : ResolvedGlTF => rv.mapAccessors g) id _ _ _ _ x x s
        (by rw [Outcome.map_id_eq]; rfl) (fun r => rfl)) doc.BufferViews 0 s1
    rw [List.map_id] at this
    exact this
  intro s2
  dsimp only
  refine andThen_map (fun rv : ResolvedGlTF => rv.mapAccessors g) ?_ ?_
  · exact forRange_map (fun rv : ResolvedGlTF => rv.mapAccessors g) g
      (fun _ => appendStep Accessor.resolve
        (fun rv r => { rv with Accessors := rv.Accessors ++ [r] }))
      (fun _ => appendStep Accessor.resolve
        (fun rv r => { rv with Accessors := rv.Accessors ++ [r] }))
      (fun i x s => appendStep_map (fun rv : ResolvedGlTF => rv.mapAccessors g)
        (fun ra : ResolvedAccessor => { ra with Accessor := g ra.Accessor }) _ _ _ _ x (g x) s
        (by
          unfold Accessor.resolve
          rw [hg]
          show (match addrOf s.BufferViews.length x.BufferView with
            | none => Outcome.panic
            | some p =>
              Outcome.ret ({ Accessor := g x, BufferView := some p } : ResolvedAccessor) none)
            = _
          cases addrOf s.BufferViews.length x.BufferView <;> rfl)
        (fun r => by simp [ResolvedGlTF.mapAccessors])) doc.Accessors 0 s2
  intro s3
  dsimp only
  refine andThen_map (fun rv : ResolvedGlTF => rv.mapAccessors g) ?_ ?_
  · have := forRange_map (fun rv : ResolvedGlTF => rv.mapAccessors g)
      (id : Material → Material)
      (fun _ => appendStep Material.resolve
        (fun rv r => { rv with Materials := rv.Materials ++ [r] }))
      (fun _ => appendStep Material.resolve
        (fun rv r => { rv with Materials := rv.Materials ++ [r] }))
      (fun i x s => appendStep_map (fun rv : ResolvedGlTF => rv.mapAccessors g) id _ _ _ _ x x s
        (by rw [Outcome.map_id_eq]; rfl) (fun r => rfl)) doc.Materials 0 s3
    rw [List.map_id] at this
    exact this
  intro s4
  dsimp only
  refine andThen_map (fun rv : ResolvedGlTF => rv.mapAccessors g) ?_ ?_
  · have := forRange_map (fun rv : ResolvedGlTF => rv.mapAccessors g) (id : Mesh → Mesh)
      (fun _ => appendStep Mesh.resolve
        (fun rv r => { rv with Meshes := rv.Meshes ++ [r] }))
      (fun _ => appendStep Mesh.resolve
        (fun rv r => { rv with Meshes := rv.Meshes ++ [r] }))
      (fun i x s => appendStep_map (fun rv : ResolvedGlTF => rv.mapAccessors g) id _ _ _ _ x x s
        (by
          rw [Outcome.map_id_eq]
          exact Mesh_resolve_congr x s _ rfl (by simp [ResolvedGlTF.mapAccessors]))
        (fun r => rfl)) doc.Meshes 0 s4
    rw [List.map_id] at this
    exact this
  intro s5
  dsimp only
  refine andThen_map (fun rv : ResolvedGlTF => rv.mapAccessors g) ?_ ?_
  · have := forRange_map (fun rv : ResolvedGlTF => rv.mapAccessors g) (id : Node → Node)
      (fun _ => appendStep Node.resolve
        (fun rv r => { rv with Nodes := rv.Nodes ++ [r] }))
      (fun _ => appendStep Node.resolve
        (fun rv r => { rv with Nodes := rv.Nodes ++ [r] }))
      (fun i x s => appendStep_map (fun rv : ResolvedGlTF => rv.mapAccessors g) id _ _ _ _ x x s
        (by rw [Outcome.map_id_eq]; rfl) (fun r => rfl)) doc.Nodes 0 s5
    rw [List.map_id] at this
    exact this
  intro s6
  dsimp only
  refine andThen_map (fun rv : ResolvedGlTF => rv.mapAccessors g) ?_ ?_
  · have := forRange_map (fun rv : ResolvedGlTF => rv.mapAccessors g)
      (id : ResolvedNode → ResolvedNode)
      (fun i (_ : ResolvedNode) (rv : ResolvedGlTF) =>
        match rv.Nodes[i]? with
        | none => Outcome.panic
        | some n =>
          match n.populate rv with
          | Outcome.panic => Outcome.panic
          | Outcome.ret n' _ => Outcome.ret { rv with Nodes := rv.Nodes.set i n' } none)
      (fun i (_ : ResolvedNode) (rv : ResolvedGlTF) =>
        match rv.Nodes[i]? with
        | none => Outcome.panic
        | some n =>
          match n.populate rv with
          | Outcome.panic => Outcome.panic
          | Outcome.ret n' _ => Outcome.ret { rv with Nodes := rv.Nodes.set i n' } none)
      (fun i x s => populateStep_map g i s) s6.Nodes 0 s6
    rw [List.map_id] at this
    exact this
  intro s7
  dsimp only
  refine andThen_map (fun rv : ResolvedGlTF => rv.mapAccessors g) ?_ ?_
  · have := forRange_map (fun rv : ResolvedGlTF => rv.mapAccessors g)
      (id : Animation → Animation)
      (fun _ => appendStep Animation.resolve
        (fun rv r => { rv with Animations := rv.Animations ++ [r] }))
      (fun _ => appendStep Animation.resolve
        (fun rv r => { rv with Animations := rv.Animations ++ [r] }))
      (fun i x s => appendStep_map (fun rv : ResolvedGlTF => rv.mapAccessors g) id _ _ _ _ x x s
        (by
          rw [Outcome.map_id_eq]
          exact Animation_resolve_congr x s _ (by simp [ResolvedGlTF.mapAccessors]) rfl)
        (fun r => rfl)) doc.Animations 0 s7
    rw [List.map_id] at this
    exact this
  intro s8
  dsimp only
  refine andThen_map (fun rv : ResolvedGlTF => rv.mapAccessors g) ?_ ?_
  · have := forRange_map (fun rv : ResolvedGlTF => rv.mapAccessors g) (id : Scene → Scene)
      (fun _ => appendStep Scene.resolve
        (fun rv r => { rv with Scenes := rv.Scenes ++ [r] }))
      (fun _ => appendStep Scene.resolve
        (fun rv r => { rv with Scenes := rv.Scenes ++ [r] }))
      (fun i x s => appendStep_map (fun rv : ResolvedGlTF => rv.mapAccessors g) id _ _ _ _ x x s
        (by rw [Outcome.map_id_eq]; rfl) (fun r => rfl)) doc.Scenes 0 s8
    rw [List.map_id] at this
    exact this
  intro s9
  dsimp only
  · show (match doc.Scene with
      | none => Outcome.ret (s9.mapAccessors g) none
      | some i =>
        match addrOf s9.Scenes.length i with
        | none => Outcome.panic
        | some p => Outcome.ret { s9.mapAccessors g with Scene := some p } none) = _
    cases doc.Scene with
    | none => rfl
    | some i =>
      dsimp only
      cases hp : addrOf s9.Scenes.length i with
      | none => rfl
      | some p => rfl

/-- C12 (counterexample).  The test document with the component type 0 and the
element type `"?"` in its accessor resolves without error: the accessor step
returns the resolved accessor, although `Stride` panics on it. -/
theorem C12_unknown_codes_resolve :
    (∃ a ∈ triangleOfUnknownCodes.Accessors,
      a.ComponentType ∉ [5120, 5121, 5122, 5123, 5125, 5126] ∧
      a.Type_ ∉ ["SCALAR", "VEC2", "VEC3", "VEC4", "MAT2", "MAT3", "MAT4"] ∧
      a.Stride = none) ∧
    ∃ rv, triangleOfUnknownCodes.Resolve []
        (oneFile "m/triangleWithoutIndices.bin" triangleBytes []) = Outcome.ret rv none ∧
      rv.Accessors.map (fun ra => (ra.Accessor.ComponentType, ra.Accessor.Type_, ra.BufferView))
        = [(0, "?", some 0)] :=
  ⟨⟨_, List.mem_singleton.mpr rfl, by decide, by decide, rfl⟩, _, rfl, rfl⟩

/-- C12 (amended).  `Resolve` does not read the component type and the element
type of the accessors: on the document with any other codes in their place its
outcome is the same error, the same panic, or the same graph with the raw
accessors replaced in the back pointers.  `Accessor.resolve` never builds an
error.  An unknown code shows when `Stride` is called, which panics. -/
theorem C12_codes_not_read (doc : GlTF) (sp : List String) (os : OS)
    (c : Accessor → Int) (t : Accessor → String) :
    (doc.mapAccessors (fun a => a.withCodes (c a) (t a))).Resolve sp os
      = (doc.Resolve sp os).map
          (fun rv => rv.mapAccessors (fun a => a.withCodes (c a) (t a))) ∧
    (∀ (a : Accessor) (root : ResolvedGlTF) (ra : ResolvedAccessor) (e : Error),
      a.resolve root ≠ Outcome.ret ra (some e)) ∧
    (∀ a : Accessor,
      a.ComponentType ∉ [5120, 5121, 5122, 5123, 5125, 5126] ∨
        a.Type_ ∉ ["SCALAR", "VEC2", "VEC3", "VEC4", "MAT2", "MAT3", "MAT4"] →
      a.Stride = none) := by
  refine ⟨Resolve_mapAccessors doc sp os _ (fun _ => rfl),
    fun a root ra e => Accessor_resolve_noErr a root ra e, ?_⟩
  intro a h
  simp only [List.mem_cons, List.mem_singleton, List.not_mem_nil, or_false, not_or] at h
  unfold Accessor.Stride
  rcases h with h | h
  · have hs : ComponentTypeEnum.Size a.ComponentType = none := by
      unfold ComponentTypeEnum.Size BYTE UNSIGNED_BYTE SHORT UNSIGNED_SHORT UNSIGNED_INT FLOAT
      simp [h.1, h.2.1, h.2.2.1, h.2.2.2.1, h.2.2.2.2.1, h.2.2.2.2.2]
    rw [hs]
  · have hc : AccessorTypeEnum.Count a.Type_ = none := by
      unfold AccessorTypeEnum.Count SCALAR VEC2 VEC3 VEC4 MAT2 MAT3 MAT4
      simp [h.1, h.2.1, h.2.2.1, h.2.2.2.1, h.2.2.2.2.1, h.2.2.2.2.2.1, h.2.2.2.2.2.2]
    rw [hc]
    cases ComponentTypeEnum.Size a.ComponentType <;> rfl

/-- C12 (amended) at the test document: with the codes 0 and `"?"` it resolves
to the graph of the test document with these codes in the back pointers. -/
theorem C12_codes_not_read_witness :
    triangleOfUnknownCodes.Resolve [] (oneFile "m/triangleWithoutIndices.bin" triangleBytes [])
      = Outcome.ret ((triangleResolved { data := triangleBytes, spare := [] }).mapAccessors
          (fun a => a.withCodes 0 "?")) none ∧
    (5127 ∉ [5120, 5121, 5122, 5123, 5125, 5126] ∨
      "VEC3" ∉ ["SCALAR", "VEC2", "VEC3", "VEC4", "MAT2", "MAT3", "MAT4"]) ∧
    ({ BufferView := 0, ByteOffset := 0, ComponentType := 5127, Normalized := false,
       Count := 3, Type_ := "VEC3", Name := "" } : Accessor).Stride = none :=
  ⟨((C12_codes_not_read (triangleWithoutIndices "m") []
      (oneFile "m/triangleWithoutIndices.bin" triangleBytes [])
      (fun _ => 0) (fun _ => "?")).1).trans rfl,
    Or.inl (by decide),
    (C12_codes_not_read (emptyDocument "m") [] noFiles (fun _ => 0) (fun _ => "?")).2.2
      { BufferView := 0, ByteOffset := 0, ComponentType := 5127, Normalized := false,
        Count := 3, Type_ := "VEC3", Name := "" } (Or.inl (by decide))⟩

/-! ## Node graphs of any shape resolve -/

/-- A loop whose body succeeds on every element, in every state the invariant
`P` holds in, and keeps the invariant, runs to its end. -/
theorem forRange_progress {α σ : Type} (body : Nat → α → σ → Outcome σ) (P : Nat → σ → Prop) :
    ∀ (xs : List α) (i : Nat) (s : σ), P i s →
      (∀ k x t, xs[k]? = some x → P (i + k) t →
        ∃ t', body (i + k) x t = Outcome.ret t' none ∧ P (i + k + 1) t') →
      ∃ s', forRange body i xs s = Outcome.ret s' none ∧ P (i + xs.length) s' := by
  intro xs
  induction xs with
  | nil => intro i s hs _; exact ⟨s, rfl, by simpa using hs⟩
  | cons x xs ih =>
    intro i s hs hstep
    obtain ⟨t', hb, ht'⟩ := hstep 0 x s (by simp) (by simpa using hs)
    simp only [Nat.add_zero] at hb ht'
    obtain ⟨s', hs', hP⟩ := ih (i + 1) t' ht' (fun k y t hy ht => by
      have := hstep (k + 1) y t (by simpa using hy)
        (by simpa [Nat.add_assoc, Nat.add_comm 1 k] using ht)
      simpa [Nat.add_assoc, Nat.add_comm 1 k] using this)
    refine ⟨s', ?_, by simpa [Nat.add_assoc, Nat.add_comm 1 xs.length] using hP⟩
    unfold forRange
    rw [hb]
    exact hs'

/-- `populate` succeeds on a node whose raw children all name existing nodes. -/
theorem ResolvedNode.populate_progress (rn : ResolvedNode) (root : ResolvedGlTF)
    (h1 : rn.Children.length = rn.Node.Children.length)
    (h2 : ∀ c ∈ rn.Node.Children, c < root.Nodes.length) :
    ∃ rn', rn.populate root = Outcome.ret rn' none := by
  unfold ResolvedNode.populate
  obtain ⟨s', hs', _⟩ := forRange_progress
    (fun i childIdx (n : ResolvedNode) =>
      match addrOf root.Nodes.length childIdx with
      | none => Outcome.panic
      | some p =>
        match store n.Children i (some p) with
        | none => Outcome.panic
        | some cs => Outcome.ret { n with Children := cs } none)
    (fun _ t => t.Children.length = rn.Children.length) rn.Node.Children 0 rn rfl
    (fun k c t hc ht => by
      have hlt := h2 c (List.mem_iff_getElem?.mpr ⟨k, hc⟩)
      have hk : k < t.Children.length := by
        have := lt_length_of_getElem_some hc
        omega
      refine ⟨{ t with Children := t.Children.set k (some c) }, ?_, by simpa using ht⟩
      simp only [Nat.zero_add, addrOf, hlt, if_true, store, hk])
  exact ⟨s', hs'⟩

/-- The first loop over the nodes succeeds on nodes without mesh. -/
theorem nodes_loop_progress (nodes : List Node) (hmesh : ∀ n ∈ nodes, n.Mesh = none) :
    ∀ (i : Nat) (s : ResolvedGlTF), ∃ s',
      forRange (fun _ => appendStep Node.resolve
        (fun rv rn => { rv with Nodes := rv.Nodes ++ [rn] })) i nodes s
        = Outcome.ret s' none := by
  induction nodes with
  | nil => intro i s; exact ⟨s, rfl⟩
  | cons n nodes ih =>
    intro i s
    have hn : n.Mesh = none := hmesh n (List.mem_cons_self n nodes)
    obtain ⟨s', hs'⟩ := ih (fun m hm => hmesh m (List.mem_cons_of_mem n hm)) (i + 1)
      { s with
        Nodes := s.Nodes ++ [ResolvedNode.mk n (List.replicate n.Children.length none) none] }
    refine ⟨s', ?_⟩
    unfold forRange
    simp only [appendStep, Node.resolve, hn]
    exact hs'

/-- The second loop over the nodes succeeds when every node is as `Node.resolve`
left it or as `populate` left it, and its raw children name existing nodes. -/
theorem populate_loop_progress (s : ResolvedGlTF)
    (hs : ∀ (j : Nat) (n : ResolvedNode), s.Nodes[j]? = some n →
      n.Children.length = n.Node.Children.length ∧
      ∀ c ∈ n.Node.Children, c < s.Nodes.length) :
    ∃ s', forRange (fun i (_ : ResolvedNode) (rv : ResolvedGlTF) =>
        match rv.Nodes[i]? with
        | none => Outcome.panic
        | some n =>
          match n.populate rv with
          | Outcome.panic => Outcome.panic
          | Outcome.ret n' _ => Outcome.ret { rv with Nodes := rv.Nodes.set i n' } none)
      0 s.Nodes s = Outcome.ret s' none := by
  obtain ⟨s', hs', _⟩ := forRange_progress
    (fun i (_ : ResolvedNode) (rv : ResolvedGlTF) =>
        match rv.Nodes[i]? with
        | none => Outcome.panic
        | some n =>
          match n.populate rv with
          | Outcome.panic => Outcome.panic
          | Outcome.ret n' _ => Outcome.ret { rv with Nodes := rv.Nodes.set i n' } none)
    (fun _ t => t.Nodes.length = s.Nodes.length ∧
      ∀ (j : Nat) (n : ResolvedNode), t.Nodes[j]? = some n →
        n.Children.length = n.Node.Children.length ∧
        ∀ c ∈ n.Node.Children, c < s.Nodes.length) s.Nodes 0 s ⟨rfl, hs⟩
    (fun k x t hx ht => by
      obtain ⟨hl, hall⟩ := ht
      have hk : k < t.Nodes.length := by
        have := lt_length_of_getElem_some hx
        omega
      obtain ⟨h1, h2⟩ := hall k t.Nodes[k] (List.getElem?_eq_getElem hk)
      obtain ⟨n', hn'⟩ := ResolvedNode.populate_progress t.Nodes[k] t h1
        (fun c hc => by rw [hl]; exact h2 c hc)
      obtain ⟨e1, _, e3, _⟩ := ResolvedNode.populate_ret hn'
      refine ⟨{ t with Nodes := t.Nodes.set k n' }, ?_, by simpa using hl, ?_⟩
      · simp only [Nat.zero_add, List.getElem?_eq_getElem hk, hn']
      · intro j m hm
        simp only at hm
        rcases Nat.lt_or_ge j k with hjk | hjk
        · rw [List.getElem?_set_ne (by omega)] at hm
          exact hall j m hm
        · rcases Nat.lt_or_ge k j with hkj | hkj
          · rw [List.getElem?_set_ne (by omega)] at hm
            exact hall j m hm
          · have hjk' : j = k := by omega
            subst hjk'
            rw [List.getElem?_set_self hk] at hm
            cases hm
            exact ⟨by rw [e3, e1]; exact h1, by rw [e1]; exact h2⟩)
  exact ⟨s', hs'⟩

theorem forall₂_getElem_some_right {α β : Type} {R : α → β → Prop} {xs : List α}
    {ys : List β} (h : List.Forall₂ R xs ys) (i : Nat) (y : β) (hy : ys[i]? = some y) :
    ∃ x, xs[i]? = some x ∧ R x y :=
  forall₂_getElem_some (R := fun y x => R x y) h.flip i y hy

theorem forall₂_map_eq {α β γ : Type} {R : α → β → Prop} (f : β → γ) (g : α → γ) :
    ∀ {xs : List α} {ys : List β}, List.Forall₂ R xs ys → (∀ x y, R x y → f y = g x) →
      ys.map f = xs.map g := by
  intro xs ys h
  induction h with
  | nil => intro _; rfl
  | cons hxy _ ih =>
    intro hR
    simp only [List.map_cons, hR _ _ hxy, ih hR]

/-- The document whose only entities are nodes without mesh, with children that
name existing nodes, resolves without error, whatever cycles the children
form. -/
theorem nodesOnly_resolves (dir : String) (nodes : List Node) (sp : List String) (os : OS)
    (hmesh : ∀ n ∈ nodes, n.Mesh = none)
    (hrange : ∀ n ∈ nodes, ∀ c ∈ n.Children, c < nodes.length) :
    ∃ rv, (nodesOnly dir nodes).Resolve sp os = Outcome.ret rv none := by
  obtain ⟨s6, h6⟩ := nodes_loop_progress nodes hmesh 0
    { GlTF := nodesOnly dir nodes, Animations := [], Buffers := [], BufferViews := [],
      Accessors := [], Materials := [], Meshes := [], Nodes := [], Scene := none, Scenes := [] }
  obtain ⟨_, rs, hrs, hall⟩ := forRange_appendStep_ret Node.resolve
    (fun rv r => { rv with Nodes := rv.Nodes ++ [r] }) (fun rv => rv.Nodes)
    (fun rv => { rv with Nodes := [] }) (fun _ _ => rfl) (fun _ _ => rfl) _ _ _ _ h6
  simp only [List.nil_append] at hrs
  have hlen : s6.Nodes.length = nodes.length := by rw [hrs]; exact hall.length_eq.symm
  have hs6 : ∀ (j : Nat) (n : ResolvedNode), s6.Nodes[j]? = some n →
      n.Children.length = n.Node.Children.length ∧
      ∀ c ∈ n.Node.Children, c < s6.Nodes.length := by
    intro j rn hj
    rw [hrs] at hj
    obtain ⟨n, hn, root, _, hres⟩ := forall₂_getElem_some_right hall j rn hj
    obtain ⟨e1, e2, _, _⟩ := Node_resolve_ret hres
    refine ⟨by rw [e2, e1]; simp, ?_⟩
    intro c hc
    rw [e1] at hc
    rw [hlen]
    exact hrange n (List.mem_iff_getElem?.mpr ⟨j, hn⟩) c hc
  obtain ⟨s7, h7⟩ := populate_loop_progress s6 hs6
  refine ⟨s7, ?_⟩
  have eB : (nodesOnly dir nodes).Buffers = [] := rfl
  have eBV : (nodesOnly dir nodes).BufferViews = [] := rfl
  have eA : (nodesOnly dir nodes).Accessors = [] := rfl
  have eM : (nodesOnly dir nodes).Materials = [] := rfl
  have eMe : (nodesOnly dir nodes).Meshes = [] := rfl
  have eN : (nodesOnly dir nodes).Nodes = nodes := rfl
  have eAn : (nodesOnly dir nodes).Animations = [] := rfl
  have eS : (nodesOnly dir nodes).Scenes = [] := rfl
  have eSc : (nodesOnly dir nodes).Scene = none := rfl
  unfold GlTF.Resolve
  simp only [eB, eBV, eA, eM, eMe, eN, eAn, eS, eSc, forRange, Outcome.andThen, h6, h7]

/-- C14.  `Resolve` is a total function: on every document, search path and
file system it returns or panics, and it is defined by loops over the arrays of
the document, without recursion over the node graph.  Every document whose only
entities are nodes without mesh, with children that name existing nodes,
resolves without error whatever cycles the children form, child `j` of each
resolved node being the reference to the node the raw child index names.  For
the document whose node 0 lists child 1 and node 1 lists child 0, `Resolve`
returns no error, `Nodes[0].Children[0]` refers to `Nodes[1]` and
`Nodes[1].Children[0]` to `Nodes[0]`. -/
theorem C14_resolve_total_and_cycles :
    (∀ (doc : GlTF) (sp : List String) (os : OS),
      doc.Resolve sp os = Outcome.panic ∨ ∃ rv e, doc.Resolve sp os = Outcome.ret rv e) ∧
    (∀ (dir : String) (nodes : List Node) (sp : List String) (os : OS),
      (∀ n ∈ nodes, n.Mesh = none) →
      (∀ n ∈ nodes, ∀ c ∈ n.Children, c < nodes.length) →
      ∃ rv, (nodesOnly dir nodes).Resolve sp os = Outcome.ret rv none ∧
        rv.Nodes.map (fun rn => rn.Children) = nodes.map (fun n => n.Children.map some)) ∧
    (∃ rv, twoNodeCycle.Resolve [] noFiles = Outcome.ret rv none ∧
      rv.Nodes.map (fun rn => rn.Children) = [[some 1], [some 0]]) := by
  refine ⟨?_, ?_, ⟨twoNodeCycleResolved, rfl, rfl⟩⟩
  · intro doc sp os
    cases doc.Resolve sp os with
    | panic => exact Or.inl rfl
    | ret rv e => exact Or.inr ⟨rv, e, rfl⟩
  · intro dir nodes sp os hmesh hrange
    obtain ⟨rv, hrv⟩ := nodesOnly_resolves dir nodes sp os hmesh hrange
    refine ⟨rv, hrv, ?_⟩
    have ok := Resolve_ok _ sp os rv hrv
    refine forall₂_map_eq (fun rn : ResolvedNode => rn.Children)
      (fun n : Node => n.Children.map some) ok.nodes ?_
    rintro n rn ⟨root, root', rn0, _, hres, _, hpop⟩
    obtain ⟨e1, e2, _, _⟩ := Node_resolve_ret hres
    show rn.Children = n.Children.map some
    rw [ResolvedNode.populate_children hpop (by rw [e2, e1]; simp), e1]

/-- C14 at the cycle of three nodes 0, 1, 2, node 2 listing itself as well. -/
theorem C14_resolve_total_and_cycles_witness :
    (∀ n ∈ [plainNode [1], plainNode [2], plainNode [0, 2]], n.Mesh = none) ∧
    (∀ n ∈ [plainNode [1], plainNode [2], plainNode [0, 2]], ∀ c ∈ n.Children, c < 3) ∧
    ∃ rv, (nodesOnly "m" [plainNode [1], plainNode [2], plainNode [0, 2]]).Resolve [] noFiles
        = Outcome.ret rv none ∧
      rv.Nodes.map (fun rn => rn.Children)
        = [plainNode [1], plainNode [2], plainNode [0, 2]].map (fun n => n.Children.map some) :=
  ⟨by decide, by decide,
    C14_resolve_total_and_cycles.2.1 "m" [plainNode [1], plainNode [2], plainNode [0, 2]] []
      noFiles (by decide) (by decide)⟩

/-! ## References are taken into arrays that have their final length -/

theorem forRangeEvents_forall {α σ : Type} (body : Nat → α → σ → Outcome σ)
    (ev : Nat → α → σ → List Event) (Q : Event → Prop) (P : σ → Prop) :
    ∀ (xs : List α) (i : Nat) (s : σ),
      (∀ (k : Nat) (x : α) (t : σ), xs[k]? = some x → P t →
        (∀ e ∈ ev (i + k) x t, Q e) ∧
        ∀ t', body (i + k) x t = Outcome.ret t' none → P t') →
      P s → ∀ e ∈ forRangeEvents body ev i xs s, Q e := by
  intro xs
  induction xs with
  | nil => intro i s _ _ e he; simp [forRangeEvents] at he
  | cons x xs ih =>
    intro i s hstep hs e he
    have h0 := hstep 0 x s (by simp) hs
    simp only [Nat.add_zero] at h0
    unfold forRangeEvents at he
    rcases List.mem_append.mp he with h | h
    · exact h0.1 e h
    · cases hb : body i x s with
      | panic => simp [hb] at h
      | ret v err =>
        cases err with
        | some err => simp [hb] at h
        | none =>
          simp only [hb] at h
          refine ih (i + 1) v (fun k y t hy ht => ?_) (h0.2 v hb) e h
          have := hstep (k + 1) y t (by simpa using hy) ht
          simpa [Nat.add_assoc, Nat.add_comm 1 k] using this

theorem within_mono {refs grows refs' grows' : List ArrayId} {L L' : ArrayId → Nat}
    {e : Event} (h : e.Within refs grows L)
    (hr : ∀ b ∈ refs, b ∈ refs' ∧ L b = L' b) (hg : ∀ b ∈ grows, b ∈ grows') :
    e.Within refs' grows' L' := by
  cases e with
  | ref a len => exact ⟨(hr a h.1).1, h.2.trans (hr a h.1).2⟩
  | grow a => exact hg a h

theorem block_nil (doc : GlTF) (lo hi : Nat) : Block doc lo hi [] := by
  refine ⟨List.Pairwise.nil, ?_, ?_, ?_⟩ <;> simp

/-- Two stretches in a row: the arrays the first refers to are below those the
second grows. -/
theorem block_append {doc : GlTF} {lo hi : Nat} (lo' hi' : Nat) {A R : List Event}
    (hA : Block doc lo hi A) (hR : Block doc lo' hi' R) (h1 : hi ≤ lo') (h2 : lo ≤ lo')
    (h3 : hi ≤ hi') : Block doc lo hi' (A ++ R) := by
  refine ⟨List.pairwise_append.mpr ⟨hA.1, hR.1, ?_⟩, ?_, ?_, ?_⟩
  · intro e₁ he₁ e₂ he₂ a len h hg
    subst h hg
    have := hA.2.2.1 a len he₁
    have := hR.2.1 a he₂
    omega
  · intro a ha
    rcases List.mem_append.mp ha with h | h
    · exact hA.2.1 a h
    · exact Nat.le_trans h2 (hR.2.1 a h)
  · intro a len ha
    rcases List.mem_append.mp ha with h | h
    · exact Nat.lt_of_lt_of_le (hA.2.2.1 a len h) h3
    · exact hR.2.2.1 a len h
  · intro a len ha
    rcases List.mem_append.mp ha with h | h
    · exact hA.2.2.2 a len h
    · exact hR.2.2.2 a len h

/-- A stretch whose references all go to arrays below those it grows. -/
theorem block_of_within {doc : GlTF} {lo hi : Nat} (refs grows : List ArrayId)
    {T : List Event} (h : ∀ e ∈ T, e.Within refs grows doc.rawLength)
    (hr : ∀ b ∈ refs, b.rank doc.Animations.length < hi)
    (hg : ∀ b ∈ grows, lo ≤ b.rank doc.Animations.length) (hle : hi ≤ lo) :
    Block doc lo hi T := by
  refine ⟨List.pairwise_of_forall_mem_list ?_, ?_, ?_, ?_⟩
  · intro e₁ he₁ e₂ he₂ a len h1 h2
    subst h1 h2
    have := hr a (h _ he₁).1
    have := hg a (h _ he₂)
    omega
  · intro a ha; exact hg a (h _ ha)
  · intro a len ha; exact hr a (h _ ha).1
  · intro a len ha; exact (h _ ha).2

theorem block_cons_grow {doc : GlTF} (lo : Nat) {hi lo' : Nat} {T : List Event} {a : ArrayId}
    (h : Block doc lo hi T) (ha : lo' ≤ a.rank doc.Animations.length) (hlo : lo' ≤ lo) :
    Block doc lo' hi (Event.grow a :: T) := by
  refine ⟨List.pairwise_cons.mpr ⟨?_, h.1⟩, ?_, ?_, ?_⟩
  · intro e _ b len hb; cases hb
  · intro b hb
    rcases List.mem_cons.mp hb with h' | h'
    · cases h'; exact ha
    · exact Nat.le_trans hlo (h.2.1 b h')
  · intro b len hb
    rcases List.mem_cons.mp hb with h' | h'
    · cases h'
    · exact h.2.2.1 b len h'
  · intro b len hb
    rcases List.mem_cons.mp hb with h' | h'
    · cases h'
    · exact h.2.2.2 b len h'

theorem block_thenEvents {σ : Type} {doc : GlTF} {lo hi : Nat} {o : Outcome σ}
    {k : σ → List Event} (h : ∀ s, o = Outcome.ret s none → Block doc lo hi (k s)) :
    Block doc lo hi (o.thenEvents k) := by
  cases o with
  | panic => exact block_nil doc lo hi
  | ret v e =>
    cases e with
    | none => exact h v rfl
    | some e => exact block_nil doc lo hi

/-- A loop whose iteration `k` grows arrays of rank `b + k` at least and
refers to arrays of rank `b + k` at most. -/
theorem forRangeEvents_block {α σ : Type} (doc : GlTF) (b : Nat)
    (body : Nat → α → σ → Outcome σ) (ev : Nat → α → σ → List Event) (P : σ → Prop) :
    ∀ (xs : List α) (i : Nat) (s : σ),
      (∀ (k : Nat) (x : α) (t : σ), xs[k]? = some x → P t →
        Block doc (b + i + k) (b + i + k + 1) (ev (i + k) x t) ∧
        ∀ t', body (i + k) x t = Outcome.ret t' none → P t') →
      P s → Block doc (b + i) (b + i + xs.length) (forRangeEvents body ev i xs s) := by
  intro xs
  induction xs with
  | nil => intro i s _ _; exact block_nil _ _ _
  | cons x xs ih =>
    intro i s hstep hs
    have h0 := hstep 0 x s (by simp) hs
    simp only [Nat.add_zero] at h0
    unfold forRangeEvents
    refine block_append (b + i + 1) (b + i + (xs.length + 1)) h0.1 ?_ (Nat.le_refl _)
      (Nat.le_succ _) (by omega)
    cases hb : body i x s with
    | panic => exact block_nil _ _ _
    | ret v err =>
      cases err with
      | some err => exact block_nil _ _ _
      | none =>
        simp only
        have := ih (i + 1) v (fun k y t hy ht => by
          have := hstep (k + 1) y t (by simpa using hy) ht
          simpa [Nat.add_assoc, Nat.add_comm 1 k] using this) (h0.2 v hb)
        simpa [Nat.add_assoc, Nat.add_comm 1 xs.length] using this

theorem mem_thenEvents {σ : Type} {o : Outcome σ} {k : σ → List Event} {e : Event}
    (h : e ∈ o.thenEvents k) : ∃ s, o = Outcome.ret s none ∧ e ∈ k s := by
  cases o with
  | panic => simp [Outcome.thenEvents] at h
  | ret v err =>
    cases err with
    | none => exact ⟨v, rfl, h⟩
    | some err => simp [Outcome.thenEvents] at h

theorem within_ref_self (a : ArrayId) (refs grows : List ArrayId) (L : ArrayId → Nat)
    (h : a ∈ refs) : (Event.ref a (L a)).Within refs grows L :=
  ⟨h, rfl⟩

theorem Node_resolveEvents_within (node : Node) (t : ResolvedGlTF) :
    ∀ e ∈ node.resolveEvents t, e.Within [ArrayId.Meshes] [] t.lengthOf := by
  intro e he
  unfold Node.resolveEvents at he
  cases h : node.Mesh with
  | none => simp [h] at he
  | some m =>
    simp only [h, List.mem_singleton] at he
    subst he
    exact within_ref_self ArrayId.Meshes _ _ _ (by simp)

theorem ResolvedNode.populateEvents_within (n : ResolvedNode) (t : ResolvedGlTF) :
    ∀ e ∈ n.populateEvents t, e.Within [ArrayId.Nodes] [] t.lengthOf := by
  unfold ResolvedNode.populateEvents
  refine forRangeEvents_forall _ _ _ (fun _ => True) _ _ _ (fun k x s _ _ => ⟨?_, fun _ _ => trivial⟩)
    trivial
  intro e he
  simp only [List.mem_singleton] at he
  subst he
  exact within_ref_self ArrayId.Nodes _ _ _ (by simp)

theorem BufferView_resolveEvents_within (bv : BufferView) (t : ResolvedGlTF) :
    ∀ e ∈ bv.resolveEvents t, e.Within [ArrayId.Buffers] [] t.lengthOf := by
  intro e he
  simp only [BufferView.resolveEvents, List.mem_singleton] at he
  subst he
  exact within_ref_self ArrayId.Buffers _ _ _ (by simp)

theorem Accessor_resolveEvents_within (a : Accessor) (t : ResolvedGlTF) :
    ∀ e ∈ a.resolveEvents t, e.Within [ArrayId.BufferViews] [] t.lengthOf := by
  intro e he
  simp only [Accessor.resolveEvents, List.mem_singleton] at he
  subst he
  exact within_ref_self ArrayId.BufferViews _ _ _ (by simp)

theorem Scene_resolveEvents_within (sc : Scene) (t : ResolvedGlTF) :
    ∀ e ∈ sc.resolveEvents t, e.Within [ArrayId.Nodes] [] t.lengthOf := by
  unfold Scene.resolveEvents
  refine forRangeEvents_forall _ _ _ (fun _ => True) _ _ _ (fun k x s _ _ => ⟨?_, fun _ _ => trivial⟩)
    trivial
  intro e he
  simp only [List.mem_singleton] at he
  subst he
  exact within_ref_self ArrayId.Nodes _ _ _ (by simp)

theorem Primitive_resolveEvents_within (p : Primitive) (t : ResolvedGlTF) :
    ∀ e ∈ p.resolveEvents t,
      e.Within [ArrayId.Materials, ArrayId.Accessors] [] t.lengthOf := by
  intro e he
  unfold Primitive.resolveEvents at he
  rcases List.mem_append.mp he with h | h
  · cases hm : p.Material with
    | none => simp [hm] at h
    | some m =>
      simp only [hm, List.mem_singleton] at h
      subst h
      exact within_ref_self ArrayId.Materials _ _ _ (by simp)
  · obtain ⟨rv, _, h⟩ := mem_thenEvents h
    rcases List.mem_append.mp h with h | h
    · refine forRangeEvents_forall _ _ _ (fun _ => True) _ _ _
        (fun k x s _ _ => ⟨?_, fun _ _ => trivial⟩) trivial e h
      intro e he
      simp only [List.mem_singleton] at he
      subst he
      exact within_ref_self ArrayId.Accessors _ _ _ (by simp)
    · obtain ⟨rv', _, h⟩ := mem_thenEvents h
      cases hi : p.Indices with
      | none => simp [hi] at h
      | some m =>
        simp only [hi, List.mem_singleton] at h
        subst h
        exact within_ref_self ArrayId.Accessors _ _ _ (by simp)

theorem Mesh_resolveEvents_within (m : Mesh) (t : ResolvedGlTF) :
    ∀ e ∈ m.resolveEvents t,
      e.Within [ArrayId.Materials, ArrayId.Accessors] [] t.lengthOf := by
  unfold Mesh.resolveEvents
  exact forRangeEvents_forall _ _ _ (fun _ => True) _ _ _
    (fun k x s _ _ => ⟨Primitive_resolveEvents_within x t, fun _ _ => trivial⟩) trivial

theorem AnimationSampler_resolveEvents_within (a : AnimationSampler) (t : ResolvedGlTF) :
    ∀ e ∈ a.resolveEvents t, e.Within [ArrayId.Accessors] [] t.lengthOf := by
  intro e he
  unfold AnimationSampler.resolveEvents at he
  rcases List.mem_cons.mp he with h | h
  · subst h
    exact within_ref_self ArrayId.Accessors _ _ _ (by simp)
  · cases hp : addrOfInt t.Accessors.length a.Input with
    | none => simp [hp] at h
    | some q =>
      simp only [hp, List.mem_singleton] at h
      subst h
      exact within_ref_self ArrayId.Accessors _ _ _ (by simp)

theorem AnimationChannelTarget_resolveEvents_within (a : AnimationChannelTarget)
    (t : ResolvedGlTF) :
    ∀ e ∈ a.resolveEvents t, e.Within [ArrayId.Nodes] [] t.lengthOf := by
  intro e he
  unfold AnimationChannelTarget.resolveEvents at he
  cases h : a.Node with
  | none => simp [h] at he
  | some m =>
    simp only [h, List.mem_singleton] at he
    subst he
    exact within_ref_self ArrayId.Nodes _ _ _ (by simp)

/-- A channel of animation `k` refers to the `samplers` it is handed, at their
length, and to the nodes of the graph. -/
theorem AnimationChannel_resolveEvents_within (k : Nat) (a : AnimationChannel)
    (t : ResolvedGlTF) (samplers : List ResolvedAnimationSampler) :
    ∀ e ∈ a.resolveEvents k t samplers,
      e.Within [ArrayId.Accessors, ArrayId.Nodes, ArrayId.Samplers k] []
        (fun b => if b = ArrayId.Samplers k then samplers.length else t.lengthOf b) := by
  intro e he
  unfold AnimationChannel.resolveEvents at he
  rcases List.mem_cons.mp he with h | h
  · subst h
    exact ⟨by simp, by simp⟩
  · cases hp : addrOf samplers.length a.Sampler with
    | none => simp [hp] at h
    | some q =>
      simp only [hp] at h
      exact within_mono (AnimationChannelTarget_resolveEvents_within a.Target t e h)
        (fun b hb => by
          simp only [List.mem_singleton] at hb
          subst hb
          exact ⟨by simp, by simp⟩)
        (fun b hb => hb)

/-- The events of `Animation.resolve` for animation `k`: the `make` of its
`Samplers`, then references only, taken into the accessors and the nodes of the
graph and into these `Samplers` at their made length. -/
theorem Animation_resolveEvents_within (k : Nat) (a : Animation) (t : ResolvedGlTF) :
    ∃ mid, a.resolveEvents k t = Event.grow (ArrayId.Samplers k) :: mid ∧
      ∀ e ∈ mid, e.Within [ArrayId.Accessors, ArrayId.Nodes, ArrayId.Samplers k] []
        (fun b => if b = ArrayId.Samplers k then a.Samplers.length else t.lengthOf b) := by
  refine ⟨_, rfl, ?_⟩
  intro e he
  rcases List.mem_append.mp he with h | h
  · refine forRangeEvents_forall _ _ _ (fun _ => True) _ _ _
      (fun j x s _ _ => ⟨?_, fun _ _ => trivial⟩) trivial e h
    intro e he
    refine within_mono (AnimationSampler_resolveEvents_within x t e he) (fun b hb => ?_)
      (fun b hb => hb)
    simp only [List.mem_singleton] at hb
    subst hb
    exact ⟨by simp, by simp⟩
  · obtain ⟨rv, hrv, h⟩ := mem_thenEvents h
    have hlen : rv.Samplers.length = a.Samplers.length := by
      refine forRange_inv _ (fun _ (s : ResolvedAnimation) =>
        s.Samplers.length = a.Samplers.length) _ _ _ _ (by simp) ?_ hrv
      intro j x s s' _ hs hb
      simp only [Nat.zero_add] at hb
      cases hp : x.resolve t with
      | panic => simp [hp] at hb
      | ret r err =>
        cases err with
        | some err => simp [hp] at hb
        | none =>
          simp only [hp] at hb
          cases hst : store s.Samplers j r with
          | none => simp [hst] at hb
          | some ss =>
            simp only [hst, Outcome.ret.injEq, and_true] at hb
            subst hb
            obtain ⟨_, rfl⟩ := store_eq_some hst
            simpa using hs
    refine forRangeEvents_forall _ _ _
      (fun s : ResolvedAnimation => s.Samplers.length = a.Samplers.length) _ _ _
      (fun j x s _ hs => ⟨?_, ?_⟩) (by simpa using hlen) e h
    · intro e he
      refine within_mono (AnimationChannel_resolveEvents_within k x t s.Samplers e he)
        (fun b hb => ⟨hb, ?_⟩) (fun b hb => hb)
      by_cases hbk : b = ArrayId.Samplers k
      · simp [hbk, hs]
      · simp [hbk]
    · intro s' hb
      simp only [Nat.zero_add] at hb
      cases hp : x.resolve t s.Samplers with
      | panic => simp [hp] at hb
      | ret r err =>
        cases err with
        | some err => simp [hp] at hb
        | none =>
          simp only [hp] at hb
          cases hst : store s.Channels j r with
          | none => simp [hst] at hb
          | some cs =>
            simp only [hst, Outcome.ret.injEq, and_true] at hb
            subst hb
            exact hs

theorem mem_appendStepEvents {α β : Type} {f : α → ResolvedGlTF → Outcome β}
    {fev : α → ResolvedGlTF → List Event} {a : ArrayId} {x : α} {t : ResolvedGlTF}
    {e : Event} (h : e ∈ appendStepEvents f fev a x t) : e ∈ fev x t ∨ e = Event.grow a := by
  unfold appendStepEvents at h
  rcases List.mem_append.mp h with h | h
  · exact Or.inl h
  · cases hf : f x t with
    | panic => simp [hf] at h
    | ret r err =>
      cases err with
      | some err => simp [hf] at h
      | none => simp only [hf, List.mem_singleton] at h; exact Or.inr h

/-- The appending loops of `Resolve` change the length of the array they append
to only. -/
theorem appendStep_lengthOf {α β : Type} (f : α → ResolvedGlTF → Outcome β)
    (push : ResolvedGlTF → β → ResolvedGlTF) (a : ArrayId)
    (hpush : ∀ rv r b, (push rv r).lengthOf b =
      if b = a then rv.lengthOf b + 1 else rv.lengthOf b) :
    ∀ (xs : List α) (i : Nat) (s s' : ResolvedGlTF),
      forRange (fun _ => appendStep f push) i xs s = Outcome.ret s' none →
      ∀ b, s'.lengthOf b = if b = a then s.lengthOf b + xs.length else s.lengthOf b := by
  intro xs
  induction xs with
  | nil =>
    intro i s s' h b
    simp [forRange] at h
    subst h
    simp
  | cons x xs ih =>
    intro i s s' h b
    unfold forRange at h
    cases hb : f x s with
    | panic => simp [appendStep, hb] at h
    | ret r e =>
      cases e with
      | some e => simp [appendStep, hb] at h
      | none =>
        simp only [appendStep, hb] at h
        rw [ih (i + 1) (push s r) s' h b, hpush]
        by_cases hba : b = a
        · simp only [hba, if_true, List.length_cons]; omega
        · simp only [hba, if_false]

/-- The events of an appending loop of `Resolve` whose elements refer to the
arrays `refs`, completed before the loop starts. -/
theorem appendPhase_block {α β : Type} (doc : GlTF) (f : α → ResolvedGlTF → Outcome β)
    (fev : α → ResolvedGlTF → List Event) (push : ResolvedGlTF → β → ResolvedGlTF)
    (a : ArrayId) (refs : List ArrayId) (lo hi : Nat)
    (hfev : ∀ x t, ∀ e ∈ fev x t, e.Within refs [] t.lengthOf)
    (hpush : ∀ rv r b, b ∈ refs → (push rv r).lengthOf b = rv.lengthOf b)
    (hlo : lo ≤ a.rank doc.Animations.length)
    (hhi : ∀ b ∈ refs, b.rank doc.Animations.length < hi) (hle : hi ≤ lo)
    (xs : List α) (s : ResolvedGlTF)
    (hs : ∀ b ∈ refs, s.lengthOf b = doc.rawLength b) :
    Block doc lo hi (forRangeEvents (fun _ => appendStep f push)
      (fun _ => appendStepEvents f fev a) 0 xs s) := by
  refine block_of_within refs [a] ?_ hhi
    (fun b hb => by simp only [List.mem_singleton] at hb; subst hb; exact hlo) hle
  refine forRangeEvents_forall _ _ _
    (fun t : ResolvedGlTF => ∀ b ∈ refs, t.lengthOf b = doc.rawLength b) _ _ _
    (fun k x t _ ht => ⟨?_, ?_⟩) hs
  · intro e he
    rcases mem_appendStepEvents he with h | h
    · exact within_mono (hfev x t e h) (fun b hb => ⟨hb, ht b hb⟩) (fun b hb => by cases hb)
    · subst h; exact List.mem_singleton.mpr rfl
  · intro t' hb b hbr
    unfold appendStep at hb
    cases hf : f x t with
    | panic => simp [hf] at hb
    | ret r err =>
      cases err with
      | some err => simp [hf] at hb
      | none =>
        simp only [hf, Outcome.ret.injEq, and_true] at hb
        subst hb
        rw [hpush t r b hbr]; exact ht b hbr

theorem block_phaseEvents {α : Type} {doc : GlTF} (lo hi lo' : Nat) {hi' : Nat}
    {body : Nat → α → ResolvedGlTF → Outcome ResolvedGlTF}
    {ev : Nat → α → ResolvedGlTF → List Event} {xs : List α} {s : ResolvedGlTF}
    {rest : ResolvedGlTF → List Event}
    (hA : Block doc lo hi (forRangeEvents body ev 0 xs s))
    (hR : ∀ s', forRange body 0 xs s = Outcome.ret s' none → Block doc lo' hi' (rest s'))
    (h1 : hi ≤ lo') (h2 : lo ≤ lo') (h3 : hi ≤ hi') :
    Block doc lo hi' (phaseEvents body ev xs s rest) :=
  block_append lo' hi' hA (block_thenEvents hR) h1 h2 h3

/-- One turn of the loop that fills in the children leaves every length as it
was. -/
theorem populateStep_lengthOf {i : Nat} {t t' : ResolvedGlTF}
    (hb : (match t.Nodes[i]? with
      | none => Outcome.panic
      | some n =>
        match n.populate t with
        | Outcome.panic => Outcome.panic
        | Outcome.ret n' _ => Outcome.ret { t with Nodes := t.Nodes.set i n' } none) =
      Outcome.ret t' none) : t'.lengthOf = t.lengthOf := by
  cases hn : t.Nodes[i]? with
  | none => simp [hn] at hb
  | some n =>
    simp only [hn] at hb
    cases hp : n.populate t with
    | panic => simp [hp] at hb
    | ret n' e =>
      simp only [hp, Outcome.ret.injEq, and_true] at hb
      subst hb
      funext b
      cases b <;> simp [ResolvedGlTF.lengthOf]

/-- The events of the loop that fills in the children of the nodes. -/
theorem populatePhase_block (doc : GlTF) (xs : List ResolvedNode) (s : ResolvedGlTF)
    (hs : s.lengthOf ArrayId.Nodes = doc.rawLength ArrayId.Nodes) :
    Block doc 6 6 (forRangeEvents (fun i (_ : ResolvedNode) (rv : ResolvedGlTF) =>
        match rv.Nodes[i]? with
        | none => Outcome.panic
        | some n =>
          match n.populate rv with
          | Outcome.panic => Outcome.panic
          | Outcome.ret n' _ => Outcome.ret { rv with Nodes := rv.Nodes.set i n' } none)
      (fun i (_ : ResolvedNode) (rv : ResolvedGlTF) =>
        Event.ref ArrayId.Nodes rv.Nodes.length ::
          (match rv.Nodes[i]? with
            | none => []
            | some n => n.populateEvents rv)) 0 xs s) := by
  refine block_of_within [ArrayId.Nodes] [] ?_
    (fun b hb => by simp only [List.mem_singleton] at hb; subst hb; simp [ArrayId.rank])
    (fun b hb => by cases hb) (Nat.le_refl _)
  refine forRangeEvents_forall _ _ _
    (fun t : ResolvedGlTF => t.lengthOf ArrayId.Nodes = doc.rawLength ArrayId.Nodes) _ _ _
    (fun k x t _ ht => ⟨?_, ?_⟩) hs
  · intro e he
    have hmono : ∀ e : Event, e.Within [ArrayId.Nodes] [] t.lengthOf →
        e.Within [ArrayId.Nodes] [] doc.rawLength := fun e h =>
      within_mono h
        (fun b hb => ⟨hb, by simp only [List.mem_singleton] at hb; subst hb; exact ht⟩)
        (fun b hb => hb)
    rcases List.mem_cons.mp he with h | h
    · subst h
      exact hmono _ (within_ref_self ArrayId.Nodes _ _ _ (by simp))
    · simp only [Nat.zero_add] at h
      cases hn : t.Nodes[k]? with
      | none => simp [hn] at h
      | some n =>
        simp only [hn] at h
        exact hmono _ (ResolvedNode.populateEvents_within n t e h)
  · intro t' hb
    rw [populateStep_lengthOf hb]; exact ht

theorem populatePhase_lengthOf (xs : List ResolvedNode) (s s' : ResolvedGlTF)
    (h : forRange (fun i (_ : ResolvedNode) (rv : ResolvedGlTF) =>
        match rv.Nodes[i]? with
        | none => Outcome.panic
        | some n =>
          match n.populate rv with
          | Outcome.panic => Outcome.panic
          | Outcome.ret n' _ => Outcome.ret { rv with Nodes := rv.Nodes.set i n' } none)
      0 xs s = Outcome.ret s' none) : s'.lengthOf = s.lengthOf :=
  forRange_inv _ (fun _ (t : ResolvedGlTF) => t.lengthOf = s.lengthOf) _ _ _ _ rfl
    (fun _ _ _ _ _ ht hb => (populateStep_lengthOf hb).trans ht) h

/-- The events of the loop over the animations: animation `k` makes its own
`Samplers`, of rank `6 + k`, and refers to them, to the accessors and to the
nodes. -/
theorem animationPhase_block (doc : GlTF) (s : ResolvedGlTF)
    (hA : s.lengthOf ArrayId.Accessors = doc.rawLength ArrayId.Accessors)
    (hN : s.lengthOf ArrayId.Nodes = doc.rawLength ArrayId.Nodes) :
    Block doc 6 (6 + doc.Animations.length)
      (forRangeEvents (fun _ => appendStep Animation.resolve
          (fun rv ra => { rv with Animations := rv.Animations ++ [ra] }))
        (fun i => appendStepEvents Animation.resolve (Animation.resolveEvents i)
          ArrayId.Animations) 0 doc.Animations s) := by
  have key := forRangeEvents_block doc 6 (fun _ => appendStep Animation.resolve
      (fun rv ra => { rv with Animations := rv.Animations ++ [ra] }))
    (fun i => appendStepEvents Animation.resolve (Animation.resolveEvents i)
      ArrayId.Animations)
    (fun t : ResolvedGlTF => t.lengthOf ArrayId.Accessors = doc.rawLength ArrayId.Accessors ∧
      t.lengthOf ArrayId.Nodes = doc.rawLength ArrayId.Nodes)
    doc.Animations 0 s ?_ ⟨hA, hN⟩
  · simpa using key
  intro k x t hx ht
  have hk : k < doc.Animations.length := by
    rcases Nat.lt_or_ge k doc.Animations.length with h | h
    · exact h
    · rw [List.getElem?_eq_none h] at hx; cases hx
  refine ⟨?_, ?_⟩
  · simp only [Nat.add_zero, Nat.zero_add]
    obtain ⟨mid, hmid, hw⟩ := Animation_resolveEvents_within k x t
    unfold appendStepEvents
    rw [hmid, List.cons_append]
    refine block_cons_grow (6 + k + 1) ?_ (by simp [ArrayId.rank]) (Nat.le_succ _)
    refine block_of_within [ArrayId.Accessors, ArrayId.Nodes, ArrayId.Samplers k]
      [ArrayId.Animations] ?_ ?_ ?_ (Nat.le_refl _)
    · intro e he
      rcases List.mem_append.mp he with h | h
      · refine within_mono (hw e h) (fun b hb => ⟨hb, ?_⟩) (fun b hb => by cases hb)
        simp only [List.mem_cons, List.mem_singleton, List.not_mem_nil, or_false] at hb
        rcases hb with rfl | rfl | rfl
        · simpa using ht.1
        · simpa using ht.2
        · simp [GlTF.rawLength, hx]
      · cases hf : Animation.resolve x t with
        | panic => simp [hf] at h
        | ret r err =>
          cases err with
          | some err => simp [hf] at h
          | none =>
            simp only [hf, List.mem_singleton] at h
            subst h
            exact List.mem_singleton.mpr rfl
    · intro b hb
      simp only [List.mem_cons, List.mem_singleton, List.not_mem_nil, or_false] at hb
      rcases hb with rfl | rfl | rfl <;> simp [ArrayId.rank] <;> omega
    · intro b hb
      simp only [List.mem_singleton] at hb
      subst hb
      simp only [ArrayId.rank]; omega
  · intro t' hb
    unfold appendStep at hb
    cases hf : Animation.resolve x t with
    | panic => simp [hf] at hb
    | ret r err =>
      cases err with
      | some err => simp [hf] at hb
      | none =>
        simp only [hf, Outcome.ret.injEq, and_true] at hb
        subst hb
        exact ht

/-- The whole run of `Resolve`, loop after loop: each loop refers to arrays
that earlier loops completed and grows its own. -/
theorem ResolveEvents_block (doc : GlTF) (sp : List String) (os : OS) :
    Block doc 0 (8 + doc.Animations.length) (doc.ResolveEvents sp os) := by
  unfold GlTF.ResolveEvents
  refine block_phaseEvents 0 0 1
    (appendPhase_block doc _ _ _ ArrayId.Buffers [] 0 0 (fun _ _ e he => by cases he)
      (fun _ _ b hb => by cases hb) (Nat.zero_le _) (fun b hb => by cases hb)
      (Nat.le_refl _) _ _ (fun b hb => by cases hb))
    (fun s1 h1 => ?_) (by omega) (by omega) (by omega)
  have B1 : ∀ b, s1.lengthOf b = doc.builtLength 1 b := by
    intro b
    rw [appendStep_lengthOf _ _ ArrayId.Buffers
      (fun rv r b => by cases b <;> simp [ResolvedGlTF.lengthOf]) _ _ _ _ h1 b]
    cases b <;> simp [GlTF.builtLength, ArrayId.stage, GlTF.rawLength, ResolvedGlTF.lengthOf]
  refine block_phaseEvents 1 1 2
    (appendPhase_block doc _ _ _ ArrayId.BufferViews [ArrayId.Buffers] 1 1
      BufferView_resolveEvents_within
      (fun _ _ b hb => by simp only [List.mem_singleton] at hb; subst hb; rfl)
      (by simp [ArrayId.rank])
      (fun b hb => by simp only [List.mem_singleton] at hb; subst hb; simp [ArrayId.rank])
      (Nat.le_refl _) _ _
      (fun b hb => by
        simp only [List.mem_singleton] at hb; subst hb
        rw [B1]; simp [GlTF.builtLength, ArrayId.stage]))
    (fun s2 h2 => ?_) (by omega) (by omega) (by omega)
  have B2 : ∀ b, s2.lengthOf b = doc.builtLength 2 b := by
    intro b
    rw [appendStep_lengthOf _ _ ArrayId.BufferViews
      (fun rv r b => by cases b <;> simp [ResolvedGlTF.lengthOf]) _ _ _ _ h2 b, B1]
    cases b <;> simp [GlTF.builtLength, ArrayId.stage, GlTF.rawLength]
  refine block_phaseEvents 2 2 3
    (appendPhase_block doc _ _ _ ArrayId.Accessors [ArrayId.BufferViews] 2 2
      Accessor_resolveEvents_within
      (fun _ _ b hb => by simp only [List.mem_singleton] at hb; subst hb; rfl)
      (by simp [ArrayId.rank])
      (fun b hb => by simp only [List.mem_singleton] at hb; subst hb; simp [ArrayId.rank])
      (Nat.le_refl _) _ _
      (fun b hb => by
        simp only [List.mem_singleton] at hb; subst hb
        rw [B2]; simp [GlTF.builtLength, ArrayId.stage]))
    (fun s3 h3 => ?_) (by omega) (by omega) (by omega)
  have B3 : ∀ b, s3.lengthOf b = doc.builtLength 3 b := by
    intro b
    rw [appendStep_lengthOf _ _ ArrayId.Accessors
      (fun rv r b => by cases b <;> simp [ResolvedGlTF.lengthOf]) _ _ _ _ h3 b, B2]
    cases b <;> simp [GlTF.builtLength, ArrayId.stage, GlTF.rawLength]
  refine block_phaseEvents 3 3 4
    (appendPhase_block doc _ _ _ ArrayId.Materials [] 3 3 (fun _ _ e he => by cases he)
      (fun _ _ b hb => by cases hb) (by simp [ArrayId.rank]) (fun b hb => by cases hb)
      (Nat.le_refl _) _ _ (fun b hb => by cases hb))
    (fun s4 h4 => ?_) (by omega) (by omega) (by omega)
  have B4 : ∀ b, s4.lengthOf b = doc.builtLength 4 b := by
    intro b
    rw [appendStep_lengthOf _ _ ArrayId.Materials
      (fun rv r b => by cases b <;> simp [ResolvedGlTF.lengthOf]) _ _ _ _ h4 b, B3]
    cases b <;> simp [GlTF.builtLength, ArrayId.stage, GlTF.rawLength]
  refine block_phaseEvents 4 4 5
    (appendPhase_block doc _ _ _ ArrayId.Meshes [ArrayId.Materials, ArrayId.Accessors] 4 4
      Mesh_resolveEvents_within
      (fun _ _ b hb => by
        simp only [List.mem_cons, List.mem_singleton, List.not_mem_nil, or_false] at hb
        rcases hb with rfl | rfl <;> rfl)
      (by simp [ArrayId.rank])
      (fun b hb => by
        simp only [List.mem_cons, List.mem_singleton, List.not_mem_nil, or_false] at hb
        rcases hb with rfl | rfl <;> simp [ArrayId.rank])
      (Nat.le_refl _) _ _
      (fun b hb => by
        simp only [List.mem_cons, List.mem_singleton, List.not_mem_nil, or_false] at hb
        rcases hb with rfl | rfl <;> rw [B4] <;> simp [GlTF.builtLength, ArrayId.stage]))
    (fun s5 h5 => ?_) (by omega) (by omega) (by omega)
  have B5 : ∀ b, s5.lengthOf b = doc.builtLength 5 b := by
    intro b
    rw [appendStep_lengthOf _ _ ArrayId.Meshes
      (fun rv r b => by cases b <;> simp [ResolvedGlTF.lengthOf]) _ _ _ _ h5 b, B4]
    cases b <;> simp [GlTF.builtLength, ArrayId.stage, GlTF.rawLength]
  refine block_phaseEvents 5 5 6
    (appendPhase_block doc _ _ _ ArrayId.Nodes [ArrayId.Meshes] 5 5
      Node_resolveEvents_within
      (fun _ _ b hb => by simp only [List.mem_singleton] at hb; subst hb; rfl)
      (by simp [ArrayId.rank])
      (fun b hb => by simp only [List.mem_singleton] at hb; subst hb; simp [ArrayId.rank])
      (Nat.le_refl _) _ _
      (fun b hb => by
        simp only [List.mem_singleton] at hb; subst hb
        rw [B5]; simp [GlTF.builtLength, ArrayId.stage]))
    (fun s6 h6 => ?_) (by omega) (by omega) (by omega)
  have B6 : ∀ b, s6.lengthOf b = doc.builtLength 6 b := by
    intro b
    rw [appendStep_lengthOf _ _ ArrayId.Nodes
      (fun rv r b => by cases b <;> simp [ResolvedGlTF.lengthOf]) _ _ _ _ h6 b, B5]
    cases b <;> simp [GlTF.builtLength, ArrayId.stage, GlTF.rawLength]
  refine block_phaseEvents 6 6 6
    (populatePhase_block doc _ _ (by rw [B6]; simp [GlTF.builtLength, ArrayId.stage]))
    (fun s7 h7 => ?_) (by omega) (by omega) (by omega)
  have B7 : ∀ b, s7.lengthOf b = doc.builtLength 6 b := by
    intro b
    rw [populatePhase_lengthOf _ _ _ h7, B6]
  refine block_phaseEvents 6 (6 + doc.Animations.length) (6 + doc.Animations.length)
    (animationPhase_block doc s7 (by rw [B7]; simp [GlTF.builtLength, ArrayId.stage])
      (by rw [B7]; simp [GlTF.builtLength, ArrayId.stage]))
    (fun s8 h8 => ?_) (by omega) (by omega) (by omega)
  have B8 : ∀ b, s8.lengthOf b = doc.builtLength 8 b := by
    intro b
    rw [appendStep_lengthOf _ _ ArrayId.Animations
      (fun rv r b => by cases b <;> simp [ResolvedGlTF.lengthOf]) _ _ _ _ h8 b, B7]
    cases b <;> simp [GlTF.builtLength, ArrayId.stage, GlTF.rawLength]
  refine block_phaseEvents (6 + doc.Animations.length) (6 + doc.Animations.length)
    (8 + doc.Animations.length)
    (appendPhase_block doc _ _ _ ArrayId.Scenes [ArrayId.Nodes] _ _
      Scene_resolveEvents_within
      (fun _ _ b hb => by simp only [List.mem_singleton] at hb; subst hb; rfl)
      (by simp [ArrayId.rank])
      (fun b hb => by
        simp only [List.mem_singleton] at hb; subst hb; simp [ArrayId.rank]; omega)
      (Nat.le_refl _) _ _
      (fun b hb => by
        simp only [List.mem_singleton] at hb; subst hb
        rw [B8]; simp [GlTF.builtLength, ArrayId.stage]))
    (fun s9 h9 => ?_) (by omega) (by omega) (by omega)
  have B9 : ∀ b, s9.lengthOf b = doc.builtLength 9 b := by
    intro b
    rw [appendStep_lengthOf _ _ ArrayId.Scenes
      (fun rv r b => by cases b <;> simp [ResolvedGlTF.lengthOf]) _ _ _ _ h9 b, B8]
    cases b <;> simp [GlTF.builtLength, ArrayId.stage, GlTF.rawLength]
  cases hsc : doc.Scene with
  | none => exact block_nil _ _ _
  | some i =>
    refine block_of_within [ArrayId.Scenes] [] ?_ ?_
      (fun b hb => by cases hb) (Nat.le_refl _)
    · intro e he
      simp only [List.mem_singleton] at he
      subst he
      refine ⟨by simp, ?_⟩
      have := B9 ArrayId.Scenes
      simpa [GlTF.builtLength, ArrayId.stage, ResolvedGlTF.lengthOf] using this
    · intro b hb
      simp only [List.mem_singleton] at hb; subst hb; simp [ArrayId.rank]

/-- The run on `animatedTriangle`, as an example of a trace. -/
theorem ResolveEvents_animatedTriangle :
    animatedTriangle.ResolveEvents [] (oneFile "m/triangleWithoutIndices.bin" triangleBytes []) =
      [Event.grow ArrayId.Buffers, Event.ref ArrayId.Buffers 1,
       Event.grow ArrayId.BufferViews, Event.ref ArrayId.BufferViews 1,
       Event.grow ArrayId.Accessors, Event.ref ArrayId.Accessors 1,
       Event.grow ArrayId.Meshes, Event.ref ArrayId.Meshes 1,
       Event.grow ArrayId.Nodes, Event.ref ArrayId.Nodes 1,
       Event.grow (ArrayId.Samplers 0), Event.ref ArrayId.Accessors 1,
       Event.ref ArrayId.Accessors 1, Event.ref (ArrayId.Samplers 0) 1,
       Event.ref ArrayId.Nodes 1, Event.grow ArrayId.Animations,
       Event.ref ArrayId.Nodes 1, Event.grow ArrayId.Scenes,
       Event.ref ArrayId.Scenes 1] := by
  decide

/-- C20.  In a run of `Resolve`, on any document and file system, whether it
ends in a graph, an error or a panic: every address `&a[i]` the resolver
evaluates, `a` being `Buffers`, `BufferViews`, `Accessors`, `Materials`,
`Meshes`, `Nodes`, `Scenes` of the graph or the `Samplers` of a resolved
animation, is evaluated while `a` has the length of the raw array it is built
from; and no `append` to `a`, or `make` of `a`, comes later in the run. -/
theorem C20_references_into_completed_arrays (doc : GlTF) (sp : List String) (os : OS) :
    (∀ (a : ArrayId) (len : Nat), Event.ref a len ∈ doc.ResolveEvents sp os →
      len = doc.rawLength a) ∧
    (∀ (pre post : List Event) (a : ArrayId) (len : Nat),
      doc.ResolveEvents sp os = pre ++ Event.ref a len :: post → Event.grow a ∉ post) := by
  have key := ResolveEvents_block doc sp os
  refine ⟨key.2.2.2, ?_⟩
  intro pre post a len hsplit hmem
  have hp := key.1
  rw [hsplit] at hp
  exact (List.pairwise_cons.mp (List.pairwise_append.mp hp).2.1).1 _ hmem a len rfl rfl

/-! ## What the back pointer of a resolved primitive denotes -/

/-- Without the memory of the loop variable, `Mesh.resolveCells` is
`Mesh.resolve`. -/
theorem Mesh_resolveCells_rval (sem : LoopVar) (m : Mesh) (root : ResolvedGlTF) :
    (m.resolveCells sem root).map MeshCells.rval = m.resolve root := by
  unfold Mesh.resolveCells Mesh.resolve
  have key := forRange_map MeshCells.rval (fun p : Primitive => p)
    (fun _ (primitive : Primitive) (st : MeshCells) =>
      match primitive.resolve root with
      | Outcome.panic => Outcome.panic
      | Outcome.ret _ (some err) =>
        Outcome.ret { st with cells := (sem.assign st.cells primitive).1 } (some err)
      | Outcome.ret rp none =>
        Outcome.ret
          { cells := (sem.assign st.cells primitive).1,
            backRefs := st.backRefs ++ [(sem.assign st.cells primitive).2],
            rval := { st.rval with Primitives := st.rval.Primitives ++ [rp] } } none)
    (fun _ (primitive : Primitive) (rval : ResolvedMesh) =>
      match primitive.resolve root with
      | Outcome.panic => Outcome.panic
      | Outcome.ret _ (some err) => Outcome.ret rval (some err)
      | Outcome.ret rp none =>
        Outcome.ret { rval with Primitives := rval.Primitives ++ [rp] } none)
    ?_ m.Primitives 0 { cells := [], backRefs := [], rval := { Mesh := m, Primitives := [] } }
  · rw [List.map_id'] at key
    exact key.symm
  · intro i x s
    dsimp only
    cases hp : x.resolve root with
    | panic => rfl
    | ret rp err =>
      cases err with
      | none => rfl
      | some err => rfl

theorem take_succ_getLast? {α : Type} {xs : List α} {k : Nat} {x : α}
    (hx : xs[k]? = some x) : (xs.take (k + 1)).getLast? = some x := by
  rw [List.take_succ, hx]
  exact List.getLast?_concat _

/-- With one variable for the whole loop, every resolved primitive holds the
address of that variable, which holds the last primitive after the loop. -/
theorem Mesh_resolveCells_perLoop {m : Mesh} {root : ResolvedGlTF} {st : MeshCells}
    (h : m.resolveCells LoopVar.perLoop root = Outcome.ret st none) :
    st.backRefs = List.replicate m.Primitives.length 0 ∧
      st.cells = m.Primitives.getLast?.toList := by
  unfold Mesh.resolveCells at h
  have key := forRange_inv _ (fun k (t : MeshCells) =>
      t.backRefs = List.replicate k 0 ∧ t.cells = (m.Primitives.take k).getLast?.toList)
    m.Primitives 0 _ st ⟨rfl, rfl⟩ ?_ h
  · simpa using key
  · intro k x t t' hx hinv hb
    simp only [Nat.zero_add] at hinv ⊢
    cases hp : x.resolve root with
    | panic => simp [hp] at hb
    | ret rp err =>
      cases err with
      | some err => simp [hp] at hb
      | none =>
        simp only [hp, Outcome.ret.injEq, and_true] at hb
        subst hb
        refine ⟨?_, ?_⟩
        · show t.backRefs ++ [0] = List.replicate (k + 1) 0
          rw [hinv.1, List.replicate_succ']
        · show [x] = ((m.Primitives.take (k + 1)).getLast?).toList
          rw [take_succ_getLast? hx]
          rfl

/-- With a new variable in each iteration, resolved primitive `j` holds the
address of the variable of iteration `j`, which holds primitive `j`. -/
theorem Mesh_resolveCells_perIteration {m : Mesh} {root : ResolvedGlTF} {st : MeshCells}
    (h : m.resolveCells LoopVar.perIteration root = Outcome.ret st none) :
    st.backRefs = List.range m.Primitives.length ∧ st.cells = m.Primitives := by
  unfold Mesh.resolveCells at h
  have key := forRange_inv _ (fun k (t : MeshCells) =>
      k ≤ m.Primitives.length ∧ t.backRefs = List.range k ∧ t.cells = m.Primitives.take k)
    m.Primitives 0 _ st ⟨Nat.zero_le _, rfl, rfl⟩ ?_ h
  · simpa using key.2
  · intro k x t t' hx hinv hb
    simp only [Nat.zero_add] at hinv ⊢
    have hk : k < m.Primitives.length := by
      rcases Nat.lt_or_ge k m.Primitives.length with h' | h'
      · exact h'
      · rw [List.getElem?_eq_none h'] at hx; cases hx
    cases hp : x.resolve root with
    | panic => simp [hp] at hb
    | ret rp err =>
      cases err with
      | some err => simp [hp] at hb
      | none =>
        simp only [hp, Outcome.ret.injEq, and_true] at hb
        subst hb
        refine ⟨hk, ?_, ?_⟩
        · show t.backRefs ++ [t.cells.length] = List.range (k + 1)
          rw [hinv.2.1, hinv.2.2, List.range_succ, List.length_take, Nat.min_eq_left hinv.1]
        · show t.cells ++ [x] = m.Primitives.take (k + 1)
          rw [hinv.2.2, List.take_succ, hx]
          rfl

theorem MeshCells.backRef_perLoop {m : Mesh} {root : ResolvedGlTF} {st : MeshCells}
    (h : m.resolveCells LoopVar.perLoop root = Outcome.ret st none) (j : Nat)
    (hj : j < m.Primitives.length) : st.backRef j = m.Primitives.getLast? := by
  obtain ⟨h1, h2⟩ := Mesh_resolveCells_perLoop h
  unfold MeshCells.backRef
  rw [h1, h2]
  have : (List.replicate m.Primitives.length 0)[j]? = some 0 := by
    rw [List.getElem?_eq_getElem (by simpa using hj)]
    simp
  rw [this]
  cases m.Primitives.getLast? <;> rfl

theorem MeshCells.backRef_perIteration {m : Mesh} {root : ResolvedGlTF} {st : MeshCells}
    (h : m.resolveCells LoopVar.perIteration root = Outcome.ret st none) (j : Nat) :
    st.backRef j = m.Primitives[j]? := by
  obtain ⟨h1, h2⟩ := Mesh_resolveCells_perIteration h
  unfold MeshCells.backRef
  rw [h1, h2]
  rcases Nat.lt_or_ge j m.Primitives.length with hj | hj
  · have : (List.range m.Primitives.length)[j]? = some j := by
      rw [List.getElem?_eq_getElem (by simpa using hj)]
      simp
    rw [this]
  · have : (List.range m.Primitives.length)[j]? = none :=
      List.getElem?_eq_none (by simpa using hj)
    rw [this, List.getElem?_eq_none hj]

/-- A run of `Mesh.resolve` that returns a mesh is a run of
`Mesh.resolveCells` that returns it. -/
theorem Mesh_resolveCells_of_resolve (sem : LoopVar) {m : Mesh} {root : ResolvedGlTF}
    {rm : ResolvedMesh} (h : m.resolve root = Outcome.ret rm none) :
    ∃ st, m.resolveCells sem root = Outcome.ret st none ∧ st.rval = rm := by
  have key := Mesh_resolveCells_rval sem m root
  rw [h] at key
  cases hc : m.resolveCells sem root with
  | panic => rw [hc] at key; cases key
  | ret st err =>
    rw [hc] at key
    simp only [Outcome.map, Outcome.ret.injEq] at key
    obtain ⟨k1, k2⟩ := key
    subst k2
    exact ⟨st, rfl, k1⟩
/-- When `Resolve` returns no error, the resolved element at each place of the
eight arrays of the graph has the raw element at that place as its back
pointer: the receiver of `gltf.X[i].resolve(rval)` is `&gltf.X[i]`, an element
of the raw document, which `Resolve` does not write to. -/
theorem Resolve_backRefs (doc : GlTF) (sp : List String) (os : OS) (rv : ResolvedGlTF)
    (h : doc.Resolve sp os = Outcome.ret rv none) :
    rv.Buffers.map (fun r => r.Buffer) = doc.Buffers ∧
    rv.BufferViews.map (fun r => r.BufferView) = doc.BufferViews ∧
    rv.Accessors.map (fun r => r.Accessor) = doc.Accessors ∧
    rv.Materials.map (fun r => r.Material) = doc.Materials ∧
    rv.Meshes.map (fun r => r.Mesh) = doc.Meshes ∧
    rv.Nodes.map (fun r => r.Node) = doc.Nodes ∧
    rv.Animations.map (fun r => r.Animation) = doc.Animations ∧
    rv.Scenes.map (fun r => r.Scene) = doc.Scenes := by
  have ok := Resolve_ok doc sp os rv h
  refine ⟨?_, ?_, ?_, ?_, ?_, ?_, ?_, ?_⟩
  · rw [forall₂_map_eq (fun r : ResolvedBuffer => r.Buffer) (fun x => x) ok.buffers
      (fun x y ⟨_, _, hr⟩ => (Buffer_resolve_ret hr).1), List.map_id']
  · rw [forall₂_map_eq (fun r : ResolvedBufferView => r.BufferView) (fun x => x)
      ok.bufferViews (fun x y ⟨_, _, hr⟩ => (BufferView_resolve_ret hr).1), List.map_id']
  · rw [forall₂_map_eq (fun r : ResolvedAccessor => r.Accessor) (fun x => x) ok.accessors
      (fun x y ⟨_, _, hr⟩ => (Accessor_resolve_ret hr).1), List.map_id']
  · rw [forall₂_map_eq (fun r : ResolvedMaterial => r.Material) (fun x => x) ok.materials
      (fun x y ⟨_, hr⟩ => by
        simp only [Material.resolve, Outcome.ret.injEq, and_true] at hr
        rw [← hr]), List.map_id']
  · rw [forall₂_map_eq (fun r : ResolvedMesh => r.Mesh) (fun x => x) ok.meshes
      (fun x y ⟨_, _, _, hr⟩ => (Mesh_resolve_ret hr).1), List.map_id']
  · rw [forall₂_map_eq (fun r : ResolvedNode => r.Node) (fun x => x) ok.nodes
      (fun x y ⟨_, _, _, _, hr, _, hp⟩ =>
        (ResolvedNode.populate_ret hp).1.trans (Node_resolve_ret hr).1), List.map_id']
  · rw [forall₂_map_eq (fun r : ResolvedAnimation => r.Animation) (fun x => x) ok.animations
      (fun x y ⟨_, _, _, hr⟩ => (Animation_resolve_ret hr).1), List.map_id']
  · rw [forall₂_map_eq (fun r : ResolvedScene => r.Scene) (fun x => x) ok.scenes
      (fun x y ⟨_, _, hr⟩ => (Scene_resolve_ret hr).1), List.map_id']

/-- C21.  On `triangleTwice`, whose mesh lists the primitive of the test
document and then the same primitive with `mode` 0, `Resolve` returns no
error; with one loop variable for the whole loop of `Mesh.resolve` (Go before
1.22) the back pointer of resolved primitive 0 denotes raw primitive 1, not
raw primitive 0.  In general, when `Resolve` returns no error, for every mesh:
with one variable for the loop the back pointer of every resolved primitive
denotes the last raw primitive of the mesh; with a variable per iteration (Go
1.22 on) the back pointer of resolved primitive `j` denotes raw primitive `j`.
The resolved element at place `i` of each of the eight arrays of the graph has
raw element `i` as its back pointer. -/
theorem C21_primitive_back_pointers_share_loop_variable :
    (∃ rv rm st,
      triangleTwice.Resolve [] (oneFile "m/triangleWithoutIndices.bin" triangleBytes [])
        = Outcome.ret rv none ∧
      rv.Meshes[0]? = some rm ∧
      meshOfTwoPrimitives.resolveCells LoopVar.perLoop triangleTwiceAtMeshes
        = Outcome.ret st none ∧
      st.rval = rm ∧
      meshOfTwoPrimitives.Primitives[0]? =
        some { Attributes := [("POSITION", 0)], Indices := none, Material := none,
               Mode := none } ∧
      st.backRef 0 =
        some { Attributes := [("POSITION", 0)], Indices := none, Material := none,
               Mode := some 0 } ∧
      st.backRef 0 ≠ meshOfTwoPrimitives.Primitives[0]?) ∧
    (∀ (doc : GlTF) (sp : List String) (os : OS) (rv : ResolvedGlTF),
      doc.Resolve sp os = Outcome.ret rv none →
      ∀ (i : Nat) (m : Mesh), doc.Meshes[i]? = some m →
        ∃ rm root, rv.Meshes[i]? = some rm ∧
          root.Materials = rv.Materials ∧ root.Accessors = rv.Accessors ∧
          m.resolve root = Outcome.ret rm none ∧
          (∃ st, m.resolveCells LoopVar.perLoop root = Outcome.ret st none ∧ st.rval = rm ∧
            ∀ j, j < m.Primitives.length → st.backRef j = m.Primitives.getLast?) ∧
          (∃ st, m.resolveCells LoopVar.perIteration root = Outcome.ret st none ∧
            st.rval = rm ∧ ∀ j, st.backRef j = m.Primitives[j]?)) ∧
    (∀ (doc : GlTF) (sp : List String) (os : OS) (rv : ResolvedGlTF),
      doc.Resolve sp os = Outcome.ret rv none →
      rv.Buffers.map (fun r => r.Buffer) = doc.Buffers ∧
      rv.BufferViews.map (fun r => r.BufferView) = doc.BufferViews ∧
      rv.Accessors.map (fun r => r.Accessor) = doc.Accessors ∧
      rv.Materials.map (fun r => r.Material) = doc.Materials ∧
      rv.Meshes.map (fun r => r.Mesh) = doc.Meshes ∧
      rv.Nodes.map (fun r => r.Node) = doc.Nodes ∧
      rv.Animations.map (fun r => r.Animation) = doc.Animations ∧
      rv.Scenes.map (fun r => r.Scene) = doc.Scenes) := by
  refine ⟨⟨_, _, _, rfl, rfl, rfl, rfl, rfl, rfl, by decide⟩, ?_, Resolve_backRefs⟩
  intro doc sp os rv h i m hm
  have ok := Resolve_ok doc sp os rv h
  obtain ⟨rm, hrm, root, hM, hA, hres⟩ := forall₂_getElem_some ok.meshes i m hm
  obtain ⟨s1, h1, e1⟩ := Mesh_resolveCells_of_resolve LoopVar.perLoop hres
  obtain ⟨s2, h2, e2⟩ := Mesh_resolveCells_of_resolve LoopVar.perIteration hres
  exact ⟨rm, root, hrm, hM, hA, hres,
    ⟨s1, h1, e1, fun j hj => MeshCells.backRef_perLoop h1 j hj⟩,
    ⟨s2, h2, e2, fun j => MeshCells.backRef_perIteration h2 j⟩⟩

/-! ## Every error of `Resolve` is an error of `Buffer.resolve` -/

/-- The `int` a `uint` converts to is at most the `uint`. -/
theorem intOfUint_le (u : Nat) : intOfUint u ≤ (u : Int) := by
  unfold intOfUint wordSize
  have h := Nat.mod_le u (2 ^ 64)
  split <;> omega

/-- C22.  An error `Resolve` returns is the error `Buffer.resolve` built for a
buffer of the document: the error of `os.ReadFile` on the path of the buffer,
or the short-data error, the file holding fewer bytes than the buffer
declares.  When every buffer of the document is read with at least its
declared number of bytes, `Resolve` returns no error.  No other step returns an
error: not `BufferView.resolve`, `Accessor.resolve`, `Material.resolve`,
`Mesh.resolve`, `Primitive.resolve`, `Node.resolve`, `ResolvedNode.populate`,
`Animation.resolve` with the `resolve` of samplers, channels and targets, nor
`Scene.resolve`. -/
theorem C22_errors_come_from_buffers (doc : GlTF) (sp : List String) (os : OS) :
    (∀ (rv : ResolvedGlTF) (e : Error), doc.Resolve sp os = Outcome.ret rv (some e) →
      ∃ b ∈ doc.Buffers,
        (os.ReadFile (doc.meta.defaultSearchPath ++ String.singleton os.Separator ++ b.Uri)
            = none ∧
          e = Error.readFile
            (doc.meta.defaultSearchPath ++ String.singleton os.Separator ++ b.Uri)) ∨
        (∃ data,
          os.ReadFile (doc.meta.defaultSearchPath ++ String.singleton os.Separator ++ b.Uri)
            = some data ∧
          data.len < b.ByteLength ∧ e = Error.shortBuffer b.Uri b.ByteLength data.len)) ∧
    ((∀ b ∈ doc.Buffers, ∃ data,
        os.ReadFile (doc.meta.defaultSearchPath ++ String.singleton os.Separator ++ b.Uri)
          = some data ∧ b.ByteLength ≤ data.len) →
      ∀ (rv : ResolvedGlTF) (e : Error), doc.Resolve sp os ≠ Outcome.ret rv (some e)) ∧
    (∀ (root : ResolvedGlTF) (e : Error),
      (∀ (x : BufferView) r, x.resolve root ≠ Outcome.ret r (some e)) ∧
      (∀ (x : Accessor) r, x.resolve root ≠ Outcome.ret r (some e)) ∧
      (∀ (x : Material) r, x.resolve root ≠ Outcome.ret r (some e)) ∧
      (∀ (x : Mesh) r, x.resolve root ≠ Outcome.ret r (some e)) ∧
      (∀ (x : Primitive) r, x.resolve root ≠ Outcome.ret r (some e)) ∧
      (∀ (x : Node) r, x.resolve root ≠ Outcome.ret r (some e)) ∧
      (∀ (x : ResolvedNode) r, x.populate root ≠ Outcome.ret r (some e)) ∧
      (∀ (x : Animation) r, x.resolve root ≠ Outcome.ret r (some e)) ∧
      (∀ (x : AnimationSampler) r, x.resolve root ≠ Outcome.ret r (some e)) ∧
      (∀ (x : AnimationChannel) (samplers : List ResolvedAnimationSampler) r,
        x.resolve root samplers ≠ Outcome.ret r (some e)) ∧
      (∀ (x : AnimationChannelTarget) r, x.resolve root ≠ Outcome.ret r (some e)) ∧
      (∀ (x : Scene) r, x.resolve root ≠ Outcome.ret r (some e))) := by
  refine ⟨?_, ?_, ?_⟩
  · intro rv e h
    obtain ⟨_, ⟨b, hb, hf⟩, _⟩ := Resolve_err_shape doc sp os rv e h
    refine ⟨b, List.mem_iff_getElem?.mpr ⟨_, hb⟩, ?_⟩
    rcases hf with hf | ⟨data, hd, hlt, he⟩
    · exact Or.inl hf
    · refine Or.inr ⟨data, hd, ?_, he⟩
      have := intOfUint_le b.ByteLength
      omega
  · intro hload
    refine Resolve_noErr doc sp os ?_
    intro b hb
    obtain ⟨data, hd, hle⟩ := hload b hb
    refine ⟨data, hd, ?_⟩
    have := intOfUint_le b.ByteLength
    omega
  · intro root e
    exact ⟨fun x r => BufferView_resolve_noErr x root r e,
      fun x r => Accessor_resolve_noErr x root r e,
      fun x r => Material_resolve_noErr x root r e,
      fun x r => Mesh_resolve_noErr x root r e,
      fun x r => Primitive_resolve_noErr x root r e,
      fun x r => Node_resolve_noErr x root r e,
      fun x r => ResolvedNode.populate_noErr x root r e,
      fun x r => Animation_resolve_noErr x root r e,
      fun x r => AnimationSampler_resolve_noErr x root r e,
      fun x samplers r => AnimationChannel_resolve_noErr x root samplers r e,
      fun x r => AnimationChannelTarget_resolve_noErr x root r e,
      fun x r => Scene_resolve_noErr x root r e⟩

/-- C22 at the test document, whose buffer is read with its 36 bytes: no
error; and at the document with two buffers whose second file does not exist:
the error is the one of `os.ReadFile` on `m/b.bin`. -/
theorem C22_errors_come_from_buffers_witness :
    (∀ b ∈ (triangleWithoutIndices "m").Buffers, ∃ data,
      (oneFile "m/triangleWithoutIndices.bin" triangleBytes []).ReadFile
          ((triangleWithoutIndices "m").meta.defaultSearchPath ++
            String.singleton (oneFile "m/triangleWithoutIndices.bin" triangleBytes []).Separator
            ++ b.Uri)
        = some data ∧ b.ByteLength ≤ data.len) ∧
    (∀ (rv : ResolvedGlTF) (e : Error),
      (triangleWithoutIndices "m").Resolve []
        (oneFile "m/triangleWithoutIndices.bin" triangleBytes []) ≠ Outcome.ret rv (some e)) ∧
    twoBuffers.Resolve [] (oneFile "m/a.bin" [1] [])
      = Outcome.ret twoBuffersPartial (some (Error.readFile "m/b.bin")) ∧
    ∃ b ∈ twoBuffers.Buffers,
      ((oneFile "m/a.bin" [1] []).ReadFile
          (twoBuffers.meta.defaultSearchPath ++
            String.singleton (oneFile "m/a.bin" [1] []).Separator ++ b.Uri) = none ∧
        Error.readFile "m/b.bin" = Error.readFile
          (twoBuffers.meta.defaultSearchPath ++
            String.singleton (oneFile "m/a.bin" [1] []).Separator ++ b.Uri)) ∨
      (∃ data,
        (oneFile "m/a.bin" [1] []).ReadFile
            (twoBuffers.meta.defaultSearchPath ++
              String.singleton (oneFile "m/a.bin" [1] []).Separator ++ b.Uri) = some data ∧
        data.len < b.ByteLength ∧
        Error.readFile "m/b.bin" = Error.shortBuffer b.Uri b.ByteLength data.len) :=
  have hload : ∀ b ∈ (triangleWithoutIndices "m").Buffers, ∃ data,
      (oneFile "m/triangleWithoutIndices.bin" triangleBytes []).ReadFile
          ((triangleWithoutIndices "m").meta.defaultSearchPath ++
            String.singleton (oneFile "m/triangleWithoutIndices.bin" triangleBytes []).Separator
            ++ b.Uri)
        = some data ∧ b.ByteLength ≤ data.len := by
    intro b hb
    have hb' : b = { Uri := "triangleWithoutIndices.bin", ByteLength := 36, Name := "" } :=
      List.mem_singleton.mp hb
    subst hb'
    exact ⟨{ data := triangleBytes, spare := [] }, by decide, by decide⟩
  ⟨hload,
    (C22_errors_come_from_buffers (triangleWithoutIndices "m") []
      (oneFile "m/triangleWithoutIndices.bin" triangleBytes [])).2.1 hload,
    rfl,
    (C22_errors_come_from_buffers twoBuffers [] (oneFile "m/a.bin" [1] [])).1
      twoBuffersPartial (Error.readFile "m/b.bin") rfl⟩

/-! ## The children of a resolved node are a made slice -/

theorem Outcome.map_eq_ret {α β : Type} {f : α → β} {o : Outcome α} {r : β}
    {e : Option Error} (h : o.map f = Outcome.ret r e) :
    ∃ v, o = Outcome.ret v e ∧ f v = r := by
  cases o with
  | panic => cases h
  | ret v err =>
    simp only [Outcome.map, Outcome.ret.injEq] at h
    obtain ⟨h1, h2⟩ := h
    subst h2
    exact ⟨v, rfl, h1⟩

/-- Without the slice value, `Node.resolveSliced` is `Node.resolve`. -/
theorem Node_resolveSliced_erase (node : Node) (root : ResolvedGlTF) :
    (node.resolveSliced root).map SlicedNode.erase = node.resolve root := by
  unfold Node.resolveSliced Node.resolve
  cases node.Mesh with
  | none => rfl
  | some m =>
    dsimp only
    cases addrOf root.Meshes.length m <;> rfl

/-- Without the slice value, `SlicedNode.populate` is `ResolvedNode.populate`. -/
theorem SlicedNode_populate_erase (n : SlicedNode) (root : ResolvedGlTF) :
    (n.populate root).map SlicedNode.erase = n.erase.populate root := by
  unfold SlicedNode.populate ResolvedNode.populate
  have key := forRange_map SlicedNode.erase (fun c : Nat => c)
    (fun i childIdx (n : SlicedNode) =>
      match addrOf root.Nodes.length childIdx with
      | none => Outcome.panic
      | some p =>
        match n.Children with
        | none => Outcome.panic
        | some cs =>
          match store cs i (some p) with
          | none => Outcome.panic
          | some cs' => Outcome.ret { n with Children := some cs' } none)
    (fun i childIdx (n : ResolvedNode) =>
      match addrOf root.Nodes.length childIdx with
      | none => Outcome.panic
      | some p =>
        match store n.Children i (some p) with
        | none => Outcome.panic
        | some cs => Outcome.ret { n with Children := cs } none)
    ?_ n.Node.Children 0 n
  · rw [List.map_id'] at key
    exact key.symm
  · intro i x s
    dsimp only
    cases addrOf root.Nodes.length x with
    | none => rfl
    | some p =>
      dsimp only
      cases hc : s.Children with
      | none =>
        have : store s.erase.Children i (some p) = none := by
          simp [SlicedNode.erase, hc, store]
        rw [this]
        rfl
      | some cs =>
        have he : s.erase.Children = cs := by simp [SlicedNode.erase, hc]
        rw [he]
        dsimp only
        cases store cs i (some p) <;> rfl

/-- `populate` leaves a made slice made. -/
theorem SlicedNode_populate_made {n n' : SlicedNode} {root : ResolvedGlTF}
    (hn : n.Children ≠ none) (h : n.populate root = Outcome.ret n' none) :
    n'.Children ≠ none := by
  unfold SlicedNode.populate at h
  refine forRange_inv _ (fun _ (t : SlicedNode) => t.Children ≠ none) _ _ _ _ hn ?_ h
  intro k x t t' _ _ hb
  simp only [Nat.zero_add] at hb
  cases hp : addrOf root.Nodes.length x with
  | none => simp [hp] at hb
  | some p =>
    simp only [hp] at hb
    cases hc : t.Children with
    | none => simp [hc] at hb
    | some cs =>
      simp only [hc] at hb
      cases hs : store cs k (some p) with
      | none => simp [hs] at hb
      | some cs' =>
        simp only [hs, Outcome.ret.injEq, and_true] at hb
        subst hb
        simp

/-- A run of `Node.resolve` and `populate` that returns a node is a run with the
slice value of `Children` that returns it, with a made slice. -/
theorem sliced_of_resolve_populate {n : Node} {root root' : ResolvedGlTF}
    {rn0 rn : ResolvedNode} (hres : n.resolve root = Outcome.ret rn0 none)
    (hpop : rn0.populate root' = Outcome.ret rn none) :
    ∃ sn0 sn : SlicedNode, n.resolveSliced root = Outcome.ret sn0 none ∧
      sn0.populate root' = Outcome.ret sn none ∧ sn.erase = rn ∧
      sn.Children = some rn.Children := by
  have k1 := Node_resolveSliced_erase n root
  rw [hres] at k1
  obtain ⟨sn0, h0, e0⟩ := Outcome.map_eq_ret k1
  have k2 := SlicedNode_populate_erase sn0 root'
  rw [e0, hpop] at k2
  obtain ⟨sn, h1, e1⟩ := Outcome.map_eq_ret k2
  have hmade0 : sn0.Children ≠ none := by
    unfold Node.resolveSliced at h0
    cases hm : n.Mesh with
    | none =>
      simp only [hm, Outcome.ret.injEq, and_true] at h0
      rw [← h0]; simp
    | some m =>
      simp only [hm] at h0
      cases ha : addrOf root.Meshes.length m with
      | none => simp [ha] at h0
      | some p =>
        simp only [ha, Outcome.ret.injEq, and_true] at h0
        rw [← h0]; simp
  have hmade := SlicedNode_populate_made hmade0 h1
  refine ⟨sn0, sn, h0, h1, e1, ?_⟩
  cases hc : sn.Children with
  | none => exact absurd hc hmade
  | some cs =>
    rw [← e1]
    simp [SlicedNode.erase, hc]

/-- C13.  When `Resolve` returns no error, the resolved node at the index of a
raw node has as many children as the raw node, its child `j` is the reference
to the resolved node the raw child index at position `j` names, an existing
node; its `Mesh` is the reference to the resolved mesh the raw mesh index
names, an existing mesh, or `nil` when the raw node names no mesh.  Its
`Children` is the slice `make` created in `Node.resolve`, with the references
to the children as elements: it is not the `nil` slice, and for a raw node
without children it is the made slice of length 0. -/
theorem C13_node_references (doc : GlTF) (sp : List String) (os : OS) (rv : ResolvedGlTF)
    (h : doc.Resolve sp os = Outcome.ret rv none) (i : Nat) (n : Node)
    (hn : doc.Nodes[i]? = some n) :
    ∃ rn, rv.Nodes[i]? = some rn ∧
      rn.Children.length = n.Children.length ∧
      (∀ (j k : Nat), n.Children[j]? = some k →
        rn.Children[j]? = some (some k) ∧ k < rv.Nodes.length) ∧
      (n.Children = [] → rn.Children = []) ∧
      rn.Mesh = n.Mesh ∧ (∀ m, n.Mesh = some m → m < rv.Meshes.length) ∧
      ∃ (root root' : ResolvedGlTF) (sn0 sn : SlicedNode),
        root.Meshes = rv.Meshes ∧ root'.Nodes.length = rv.Nodes.length ∧
        n.resolveSliced root = Outcome.ret sn0 none ∧
        sn0.Children = some (List.replicate n.Children.length none) ∧
        sn0.populate root' = Outcome.ret sn none ∧ sn.erase = rn ∧
        sn.Children = some (n.Children.map some) ∧
        (n.Children = [] → sn.Children = some []) := by
  have ok := Resolve_ok doc sp os rv h
  obtain ⟨rn, hrn, root, root', rn0, hroot, hres, hlen, hpop⟩ :=
    forall₂_getElem_some ok.nodes i n hn
  obtain ⟨hnode, hch, hmesh, hmr⟩ := Node_resolve_ret hres
  obtain ⟨_, hm', _, hcr⟩ := ResolvedNode.populate_ret hpop
  have hchildren : rn.Children = n.Children.map some := by
    rw [ResolvedNode.populate_children hpop (by rw [hch, hnode]; simp), hnode]
  obtain ⟨sn0, sn, hs0, hs1, hse, hsc⟩ := sliced_of_resolve_populate hres hpop
  have hnodes : root'.Nodes.length = rv.Nodes.length := by
    rw [hlen, ok.nodes.length_eq]
  have hsn0 : sn0.Children = some (List.replicate n.Children.length none) := by
    unfold Node.resolveSliced at hs0
    cases hm : n.Mesh with
    | none =>
      simp only [hm, Outcome.ret.injEq, and_true] at hs0
      rw [← hs0]
    | some m =>
      simp only [hm] at hs0
      cases ha : addrOf root.Meshes.length m with
      | none => simp [ha] at hs0
      | some p =>
        simp only [ha, Outcome.ret.injEq, and_true] at hs0
        rw [← hs0]
  refine ⟨rn, hrn, by rw [hchildren]; simp, ?_, ?_, by rw [hm', hmesh], ?_,
    root, root', sn0, sn, hroot, hnodes, hs0, hsn0, hs1, hse, by rw [hsc, hchildren], ?_⟩
  · intro j k hk
    refine ⟨by rw [hchildren, List.getElem?_map, hk]; rfl, ?_⟩
    have := hcr k (by rw [hnode]; exact List.mem_iff_getElem?.mpr ⟨j, hk⟩)
    rw [← ok.nodes.length_eq, ← hlen]
    exact this
  · intro he
    rw [hchildren, he]
    rfl
  · intro m hm
    have := hmr m hm
    rw [hroot] at this
    exact this
  · intro he
    rw [hsc, hchildren, he]
    rfl

/-- C13 at the two nodes of the document whose node 0 has the child 1 and whose
node 1 has no children: the children of node 1 are the made slice of length 0,
not the `nil` slice. -/
theorem C13_node_references_witness :
    twoNodeChain.Resolve [] noFiles = Outcome.ret twoNodeChainResolved none ∧
    twoNodeChain.Nodes[0]? = some (plainNode [1]) ∧
    twoNodeChain.Nodes[1]? = some (plainNode []) ∧
    (∃ rn, twoNodeChainResolved.Nodes[0]? = some rn ∧
      rn.Children.length = (plainNode [1]).Children.length ∧
      (∀ (j k : Nat), (plainNode [1]).Children[j]? = some k →
        rn.Children[j]? = some (some k) ∧ k < twoNodeChainResolved.Nodes.length) ∧
      ((plainNode [1]).Children = [] → rn.Children = []) ∧
      rn.Mesh = (plainNode [1]).Mesh ∧
      (∀ m, (plainNode [1]).Mesh = some m → m < twoNodeChainResolved.Meshes.length) ∧
      ∃ (root root' : ResolvedGlTF) (sn0 sn : SlicedNode),
        root.Meshes = twoNodeChainResolved.Meshes ∧
        root'.Nodes.length = twoNodeChainResolved.Nodes.length ∧
        (plainNode [1]).resolveSliced root = Outcome.ret sn0 none ∧
        sn0.Children = some (List.replicate (plainNode [1]).Children.length none) ∧
        sn0.populate root' = Outcome.ret sn none ∧ sn.erase = rn ∧
        sn.Children = some ((plainNode [1]).Children.map some) ∧
        ((plainNode [1]).Children = [] → sn.Children = some [])) ∧
    (∃ (rn : ResolvedNode) (sn : SlicedNode),
      twoNodeChainResolved.Nodes[1]? = some rn ∧ sn.erase = rn ∧ sn.Children = some [] ∧
      sn.Children ≠ none) :=
  ⟨rfl, rfl, rfl,
    C13_node_references twoNodeChain [] noFiles twoNodeChainResolved rfl 0 (plainNode [1]) rfl,
    by
      obtain ⟨rn, hrn, _, _, _, _, _, _, _, _, sn, _, _, _, _, _, hse, _, hnil⟩ :=
        C13_node_references twoNodeChain [] noFiles twoNodeChainResolved rfl 1
          (plainNode []) rfl
      exact ⟨rn, sn, hrn, hse, hnil rfl, by rw [hnil rfl]; simp⟩⟩

end gltf
